import Mathlib

/-!
# go-ray-tracing: a shallow embedding of the KD-tree ray tracer

The Go program works on `float64`.  Here a `float64` is an element of a linearly
ordered field `K` (exact arithmetic: no rounding, no overflow), and `math.Sqrt` is a
function `sqrt : K → K` handed to every definition that needs it.  General theorems hold
for every `sqrt`, or assume that it is the exact non-negative root; concrete evaluations
are done over `ℚ` with `qsqrt`, which is exact on the squares of rationals.

A field has no value for the quotient by zero that `float64` gives (an infinity or a
NaN).  The computations of the program that divide by a number that is zero on ordinary
inputs are embedded on `XFloat K`, the field extended by `+Inf`, `-Inf` and NaN with the
IEEE-754 rules: the quotients of `getLightIntensity` and the colours that are scaled by
its result (`castRay`, `traceRay`, `Color.Normalize`), the cost quotients of the tree
build (`surfaceAreaHeuristic`) and, for the rays parallel to a triangle,
`Triangle.Intersect` (`XFloat.Intersect`; the exact `Triangle.Intersect` returns the
outcome of that evaluation for these rays).

`Triangle.Intersect` and the functions it calls are also embedded with an explicit
rounding after every operation (`Rounded.Intersect`), to evaluate them as the program
does on `float64` values (with `round64` and `sqrt64`).

Go's run-time panics (index out of range, nil dereference, explicit `panic`) are the
value `none` of an `Option`.

The tree build runs one goroutine per node.  Its result is embedded as the recursive
function `recBuild`, with a bound on the depth of the recursion; its signalling over the
channel `sync` is embedded as the step function `BuildState.step`, run under an arbitrary
schedule of the goroutines.

Part I holds the definitions, in the order of the Go packages `primitives`,
`materials`, `geometry`, `kd_tree`, `scene`; Part II holds the theorems.
-/

namespace RayTracing

/-! ## Part I: definitions -/

section Definitions

variable {K : Type} [LinearOrderedField K]

/-! ### package primitives -/

/-- The constant `EPS = 1e-9`. -/
def EPS : K := 1 / 1000000000

/-- The constant `math.MaxFloat64`, that is `2^1024 - 2^971`. -/
def MaxFloat64 : K := ((2 ^ 1024 - 2 ^ 971 : ℕ) : K)

/-- The struct `Vector{X, Y, Z float64}`. -/
structure Vector (K : Type) where
  X : K
  Y : K
  Z : K
  deriving DecidableEq

/-- Go `func (v Vector) Add(q Vector) Vector`. -/
def Vector.Add (v q : Vector K) : Vector K := ⟨v.X + q.X, v.Y + q.Y, v.Z + q.Z⟩

/-- Go `func (v Vector) Sub(q Vector) Vector`. -/
def Vector.Sub (v q : Vector K) : Vector K := ⟨v.X - q.X, v.Y - q.Y, v.Z - q.Z⟩

/-- Go `func (v Vector) Mult(f float64) Vector`. -/
def Vector.Mult (v : Vector K) (f : K) : Vector K := ⟨v.X * f, v.Y * f, v.Z * f⟩

/-- Go `func (v Vector) Div(f float64) Vector`. -/
def Vector.Div (v : Vector K) (f : K) : Vector K := ⟨v.X / f, v.Y / f, v.Z / f⟩

/-- Go `func (v Vector) Dot(q Vector) float64`. -/
def Vector.Dot (v q : Vector K) : K := v.X * q.X + v.Y * q.Y + v.Z * q.Z

/-- Go `func (v Vector) Cross(q Vector) Vector`. -/
def Vector.Cross (v q : Vector K) : Vector K :=
  ⟨v.Y * q.Z - v.Z * q.Y, -(v.X * q.Z - v.Z * q.X), v.X * q.Y - v.Y * q.X⟩

/-- Go `func (v Vector) SqrLength() float64`. -/
def Vector.SqrLength (v : Vector K) : K := v.X * v.X + v.Y * v.Y + v.Z * v.Z

/-- Go `func (v Vector) Length() float64`: `math.Sqrt(v.SqrLength())`. -/
def Vector.Length (sqrt : K → K) (v : Vector K) : K := sqrt v.SqrLength

/-- Go `func (v Vector) Norm() Vector`. -/
def Vector.Norm (sqrt : K → K) (v : Vector K) : Vector K :=
  let length := v.Length sqrt
  ⟨v.X / length, v.Y / length, v.Z / length⟩

/-- Go `func Equal(a, b float64) bool`: `math.Abs(a - b) < EPS`. -/
def Equal (a b : K) : Bool := decide (|a - b| < EPS)

/-- Go `func Less(a, b float64) bool`: `a + EPS < b`. -/
def Less (a b : K) : Bool := decide (a + EPS < b)

/-- Go `func Greater(a, b float64) bool`: `a - EPS > b`. -/
def Greater (a b : K) : Bool := decide (a - EPS > b)

/-- Go `func LessEqual(a, b float64) bool`. -/
def LessEqual (a b : K) : Bool := Less a b || Equal a b

/-- Go `func GreaterEqual(a, b float64) bool`. -/
def GreaterEqual (a b : K) : Bool := Greater a b || Equal a b

/-- Go `func (v Vector) LessEqual(q Vector) bool`. -/
def Vector.LessEqual (v q : Vector K) : Bool :=
  RayTracing.LessEqual v.X q.X && RayTracing.LessEqual v.Y q.Y && RayTracing.LessEqual v.Z q.Z

/-- Go `func (v Vector) GreaterEqual(q Vector) bool`. -/
def Vector.GreaterEqual (v q : Vector K) : Bool :=
  RayTracing.GreaterEqual v.X q.X && RayTracing.GreaterEqual v.Y q.Y &&
    RayTracing.GreaterEqual v.Z q.Z

/-- Go `func Min(v1, v2 Vector) Vector`: componentwise `math.Min`. -/
def Min (v1 v2 : Vector K) : Vector K := ⟨min v1.X v2.X, min v1.Y v2.Y, min v1.Z v2.Z⟩

/-- Go `func Max(v1, v2 Vector) Vector`: componentwise `math.Max`. -/
def Max (v1 v2 : Vector K) : Vector K := ⟨max v1.X v2.X, max v1.Y v2.Y, max v1.Z v2.Z⟩

/-- Go `func Clamp(low, high, value float64) float64`. -/
def Clamp (low high value : K) : K := max low (min high value)

/-- The struct `Color{R, G, B float64}`. -/
structure Color (K : Type) where
  R : K
  G : K
  B : K
  deriving DecidableEq

/-! ### IEEE-754 special values

The exact model has no value for the result of a division by zero.  Where the program
divides by a denominator that can be zero, the `float64` result is an infinity or a NaN;
`XFloat` adds these three values to the field, with the IEEE-754 rules for them (and
still no rounding).  The sign of a zero is not part of the model: the division takes it
as the argument `zeroNeg`.  The extended values are used for the colours and the light
intensity of package `scene`, for the cost quotients of the tree build and, further
down, for `Triangle.Intersect`. -/

/-- A `float64` with the IEEE-754 special values. -/
inductive XFloat (K : Type) where
  | fin (x : K) : XFloat K
  | pinf : XFloat K
  | ninf : XFloat K
  | nan : XFloat K
  deriving DecidableEq

/-- IEEE-754 negation. -/
def XFloat.neg : XFloat K → XFloat K
  | fin a => fin (-a)
  | pinf => ninf
  | ninf => pinf
  | nan => nan

/-- IEEE-754 addition. -/
def XFloat.add : XFloat K → XFloat K → XFloat K
  | fin a, fin b => fin (a + b)
  | fin _, pinf => pinf
  | fin _, ninf => ninf
  | pinf, fin _ => pinf
  | ninf, fin _ => ninf
  | pinf, pinf => pinf
  | ninf, ninf => ninf
  | pinf, ninf => nan
  | ninf, pinf => nan
  | nan, _ => nan
  | _, nan => nan

/-- IEEE-754 subtraction. -/
def XFloat.sub (x y : XFloat K) : XFloat K := x.add y.neg

/-- The infinity with the sign of `a`, or NaN for `a = 0`: the product of `a` and `+Inf`. -/
def XFloat.signedInf (a : K) : XFloat K :=
  if 0 < a then pinf else if a < 0 then ninf else nan

/-- IEEE-754 multiplication. -/
def XFloat.mul : XFloat K → XFloat K → XFloat K
  | fin a, fin b => fin (a * b)
  | fin a, pinf => signedInf a
  | fin a, ninf => signedInf (-a)
  | pinf, fin b => signedInf b
  | ninf, fin b => signedInf (-b)
  | pinf, pinf => pinf
  | ninf, ninf => pinf
  | pinf, ninf => ninf
  | ninf, pinf => ninf
  | nan, _ => nan
  | _, nan => nan

/-- IEEE-754 division; `zeroNeg` tells whether a zero divisor is `-0`. -/
def XFloat.div (zeroNeg : Bool) : XFloat K → XFloat K → XFloat K
  | fin a, fin b =>
    if b = 0 then (if zeroNeg then signedInf (-a) else signedInf a) else fin (a / b)
  | fin _, pinf => fin 0
  | fin _, ninf => fin 0
  | pinf, fin b =>
    if b = 0 then (if zeroNeg then ninf else pinf) else signedInf b
  | ninf, fin b =>
    if b = 0 then (if zeroNeg then pinf else ninf) else signedInf (-b)
  | pinf, pinf => nan
  | pinf, ninf => nan
  | ninf, pinf => nan
  | ninf, ninf => nan
  | nan, _ => nan
  | _, nan => nan

/-- Go `math.Sqrt` on the extended values. -/
def XFloat.sqrt (sqrt : K → K) : XFloat K → XFloat K
  | fin a => if a < 0 then nan else fin (sqrt a)
  | pinf => pinf
  | ninf => nan
  | nan => nan

/-- Go `math.Abs` on the extended values. -/
def XFloat.abs : XFloat K → XFloat K
  | fin a => fin |a|
  | pinf => pinf
  | ninf => pinf
  | nan => nan

/-- The comparison `x < y` of IEEE-754: false as soon as one side is NaN. -/
def XFloat.lt : XFloat K → XFloat K → Bool
  | fin a, fin b => decide (a < b)
  | fin _, pinf => true
  | ninf, fin _ => true
  | ninf, pinf => true
  | _, _ => false

/-- Go `math.Max` on the extended values: `+Inf` wins, then NaN. -/
def XFloat.max : XFloat K → XFloat K → XFloat K
  | pinf, _ => pinf
  | _, pinf => pinf
  | nan, _ => nan
  | _, nan => nan
  | fin a, fin b => fin (Max.max a b)
  | ninf, y => y
  | x, ninf => x

/-- Go `math.Min` on the extended values: `-Inf` wins, then NaN. -/
def XFloat.min : XFloat K → XFloat K → XFloat K
  | ninf, _ => ninf
  | _, ninf => ninf
  | nan, _ => nan
  | _, nan => nan
  | fin a, fin b => fin (Min.min a b)
  | pinf, y => y
  | x, pinf => x

/-- Go `Equal` on extended values. -/
def XFloat.Equal (a b : XFloat K) : Bool := ((a.sub b).abs).lt (XFloat.fin EPS)

/-- Go `Less` on extended values. -/
def XFloat.Less (a b : XFloat K) : Bool := (a.add (XFloat.fin EPS)).lt b

/-- Go `Greater` on extended values. -/
def XFloat.Greater (a b : XFloat K) : Bool := b.lt (a.sub (XFloat.fin EPS))

/-- Go `GreaterEqual` on extended values. -/
def XFloat.GreaterEqual (a b : XFloat K) : Bool := XFloat.Greater a b || XFloat.Equal a b

/-- A colour of finite channels as a colour on extended values. -/
def Color.toX (c : Color K) : Color (XFloat K) :=
  ⟨XFloat.fin c.R, XFloat.fin c.G, XFloat.fin c.B⟩

/-- Go `func (c Color) Mult(f float64) Color`. -/
def Color.Mult (c : Color (XFloat K)) (f : XFloat K) : Color (XFloat K) :=
  ⟨c.R.mul f, c.G.mul f, c.B.mul f⟩

/-- Go `func (c Color) Add(o Color) Color`. -/
def Color.Add (c o : Color (XFloat K)) : Color (XFloat K) :=
  ⟨c.R.add o.R, c.G.add o.G, c.B.add o.B⟩

/-- Go `func (c Color) Normalize() Color`: `math.Min(math.Abs(c), 1.0)` on every channel. -/
def Color.Normalize (c : Color (XFloat K)) : Color (XFloat K) :=
  ⟨XFloat.min c.R.abs (XFloat.fin 1), XFloat.min c.G.abs (XFloat.fin 1),
    XFloat.min c.B.abs (XFloat.fin 1)⟩

/-! ### package materials -/

/-- The enumeration `MaterialType`. -/
inductive MaterialType where
  | ReflectDiffuse
  | ReflectRefract
  | Diffuse
  | Transparent
  deriving DecidableEq, Repr

/-- The struct `Material` (the name pointer is kept as an optional string). -/
structure Material (K : Type) where
  Color : Color K
  Reflect : K
  Refract : K
  Alpha : K
  MaterialType : MaterialType
  MaterialId : Int
  MaterialName : Option String

/-- Go `func NewMaterial(color, reflect, refract, alpha, materialId, materialName) *Material`. -/
def NewMaterial (color : Color K) (reflect refract alpha : K) (materialId : Int)
    (materialName : Option String) : Material K :=
  let materialType : MaterialType :=
    if !Equal alpha 1 then MaterialType.Transparent
    else if Equal reflect 0 && Equal refract 0 then MaterialType.Diffuse
    else if Equal refract 0 then MaterialType.ReflectDiffuse
    else MaterialType.ReflectRefract
  { Color := color, Reflect := reflect, Refract := refract, Alpha := alpha,
    MaterialType := materialType, MaterialId := materialId, MaterialName := materialName }

/-! ### package geometry: rays and boxes -/

/-- The struct `Ray{Begin, Direction}`. -/
structure Ray (K : Type) where
  Begin : Vector K
  Direction : Vector K
  deriving DecidableEq

/-- The struct `RayCoefIntersection{HasIntersection, IntersectionCoef}`. -/
structure RayCoefIntersection (K : Type) where
  HasIntersection : Bool
  IntersectionCoef : K
  deriving DecidableEq

/-- The zero value `RayCoefIntersection{}`. -/
def RayCoefIntersection.zero : RayCoefIntersection K := ⟨false, 0⟩

/-- Go `func NewRay(begin, end Vector) *Ray`. -/
def NewRay (sqrt : K → K) (begin_ end_ : Vector K) : Ray K :=
  { Begin := begin_, Direction := (end_.Sub begin_).Norm sqrt }

/-- Go `func (ray *Ray) GetLineCoef(point Vector) float64`. -/
def Ray.GetLineCoef (ray : Ray K) (point : Vector K) : K :=
  (point.Sub ray.Begin).Dot ray.Direction

/-- Go `func (ray *Ray) Distance(point Vector) float64`. -/
def Ray.Distance (sqrt : K → K) (ray : Ray K) (point : Vector K) : K :=
  let npoint := point.Sub ray.Begin
  (npoint.Sub (ray.Direction.Mult (ray.Direction.Dot npoint))).Length sqrt

/-- Go `func (ray *Ray) GetReflectRay(point, normal Vector) *Ray`. -/
def Ray.GetReflectRay (ray : Ray K) (point normal : Vector K) : Ray K :=
  let dir := ray.Direction.Mult (-1)
  let normDir := dir.Sub (normal.Mult (dir.Dot normal))
  let newDir := dir.Sub (normDir.Mult 2)
  ⟨point, point.Add newDir⟩

/-- The struct `BBox{Left, Right}`. -/
structure BBox (K : Type) where
  Left : Vector K
  Right : Vector K
  deriving DecidableEq

/-- Go `func CreateFromPoints(points []Vector) *BBox`; `points[0]` panics on an empty slice. -/
def CreateFromPoints : List (Vector K) → Option (BBox K)
  | [] => none
  | p0 :: rest =>
    some ((p0 :: rest).foldl (fun res point => ⟨Min res.Left point, Max res.Right point⟩)
      ⟨p0, p0⟩)

/-- Go `CreateFromPoints` on the three corners of a triangle, where `points[0]` exists. -/
def CreateFromPoints3 (p0 p1 p2 : Vector K) : BBox K :=
  [p0, p1, p2].foldl (fun res point => ⟨Min res.Left point, Max res.Right point⟩) ⟨p0, p0⟩

/-- Go `func (bbox *BBox) Expand(other *BBox)`, returning the updated receiver. -/
def BBox.Expand (bbox other : BBox K) : BBox K :=
  ⟨Min bbox.Left other.Left, Max bbox.Right other.Right⟩

/-- Go `func (bbox *BBox) Contains(point Vector) bool`. -/
def BBox.Contains (bbox : BBox K) (point : Vector K) : Bool :=
  bbox.Left.LessEqual point && bbox.Right.GreaterEqual point

/-- Go `func (bbox *BBox) Split(axisNumber int, value float64) [2]*BBox`; the panic for
`axisNumber > 2` is `none`, and an axis below 0 falls through the `switch`. -/
def BBox.Split (bbox : BBox K) (axisNumber : Int) (value : K) : Option (BBox K × BBox K) :=
  if axisNumber > 2 then none
  else
    let newLeft : Vector K :=
      if axisNumber = 0 then { bbox.Left with X := value }
      else if axisNumber = 1 then { bbox.Left with Y := value }
      else if axisNumber = 2 then { bbox.Left with Z := value }
      else bbox.Left
    let newRight : Vector K :=
      if axisNumber = 0 then { bbox.Right with X := value }
      else if axisNumber = 1 then { bbox.Right with Y := value }
      else if axisNumber = 2 then { bbox.Right with Z := value }
      else bbox.Right
    some (⟨bbox.Left, newRight⟩, ⟨newLeft, bbox.Right⟩)

/-- Go `func (bbox *BBox) SurfaceArea() float64`. -/
def BBox.SurfaceArea (bbox : BBox K) : K :=
  let dir := bbox.Right.Sub bbox.Left
  2 * dir.Dot dir

/-- Go `func (bbox *BBox) GetMin(axis int) float64`; the `default` panic is `none`. -/
def BBox.GetMin (bbox : BBox K) (axis : Int) : Option K :=
  if axis = 0 then some (min bbox.Left.X bbox.Right.X)
  else if axis = 1 then some (min bbox.Left.Y bbox.Right.Y)
  else if axis = 2 then some (min bbox.Left.Z bbox.Right.Z)
  else none

/-- Go `func (bbox *BBox) GetMax(axis int) float64`; the `default` panic is `none`. -/
def BBox.GetMax (bbox : BBox K) (axis : Int) : Option K :=
  if axis = 0 then some (max bbox.Left.X bbox.Right.X)
  else if axis = 1 then some (max bbox.Left.Y bbox.Right.Y)
  else if axis = 2 then some (max bbox.Left.Z bbox.Right.Z)
  else none

/-- Go `func (bbox *BBox) CreatePlaneAndIntersect(ray *Ray, p1, p2, p3 Vector)`.  For a
face of zero area the `float64` normal is NaN and the `Contains` test fails; here the
normal is the zero vector and the face is skipped as parallel: no hit either way. -/
def BBox.CreatePlaneAndIntersect (sqrt : K → K) (bbox : BBox K) (ray : Ray K)
    (p1 p2 p3 : Vector K) : RayCoefIntersection K :=
  let normal := ((p2.Sub p1).Cross (p3.Sub p1)).Norm sqrt
  if Equal (ray.Direction.Dot normal) 0 then RayCoefIntersection.zero
  else
    let coef := (normal.Dot p1 - ray.Begin.Dot normal) / ray.Direction.Dot normal
    if !bbox.Contains (ray.Begin.Add (ray.Direction.Mult coef)) then RayCoefIntersection.zero
    else ⟨true, coef⟩

/-- The loop of `BBox.Intersect` that picks the first coefficient `> 0`. -/
def firstPositive (lastCoef : K) : List K → K
  | [] => lastCoef
  | coef :: rest => if coef > 0 then coef else firstPositive lastCoef rest

/-- Go `func (bbox *BBox) Intersect(ray *Ray) [2]RayCoefIntersection`; `sort.Float64s` is the
ascending sort of the (at most six) coefficients. -/
def BBox.Intersect (sqrt : K → K) (bbox : BBox K) (ray : Ray K) :
    RayCoefIntersection K × RayCoefIntersection K :=
  let pd := bbox.CreatePlaneAndIntersect sqrt ray
    ⟨bbox.Left.X, bbox.Left.Y, bbox.Left.Z⟩ ⟨bbox.Right.X, bbox.Left.Y, bbox.Left.Z⟩
    ⟨bbox.Left.X, bbox.Right.Y, bbox.Left.Z⟩
  let pu := bbox.CreatePlaneAndIntersect sqrt ray
    ⟨bbox.Left.X, bbox.Left.Y, bbox.Right.Z⟩ ⟨bbox.Right.X, bbox.Left.Y, bbox.Right.Z⟩
    ⟨bbox.Left.X, bbox.Right.Y, bbox.Right.Z⟩
  let pl := bbox.CreatePlaneAndIntersect sqrt ray
    ⟨bbox.Left.X, bbox.Left.Y, bbox.Left.Z⟩ ⟨bbox.Left.X, bbox.Right.Y, bbox.Left.Z⟩
    ⟨bbox.Left.X, bbox.Right.Y, bbox.Right.Z⟩
  let pr := bbox.CreatePlaneAndIntersect sqrt ray
    ⟨bbox.Right.X, bbox.Left.Y, bbox.Left.Z⟩ ⟨bbox.Right.X, bbox.Right.Y, bbox.Left.Z⟩
    ⟨bbox.Right.X, bbox.Right.Y, bbox.Right.Z⟩
  let pn := bbox.CreatePlaneAndIntersect sqrt ray
    ⟨bbox.Left.X, bbox.Left.Y, bbox.Left.Z⟩ ⟨bbox.Right.X, bbox.Left.Y, bbox.Left.Z⟩
    ⟨bbox.Right.X, bbox.Left.Y, bbox.Right.Z⟩
  let pf := bbox.CreatePlaneAndIntersect sqrt ray
    ⟨bbox.Left.X, bbox.Right.Y, bbox.Left.Z⟩ ⟨bbox.Right.X, bbox.Right.Y, bbox.Left.Z⟩
    ⟨bbox.Right.X, bbox.Right.Y, bbox.Right.Z⟩
  let coefs := ([pd, pu, pl, pr, pn, pf].filter (fun p => p.HasIntersection)).map
    (fun p => p.IntersectionCoef)
  let coefs := coefs.insertionSort (fun a b => a ≤ b)
  match coefs.getLast? with
  | none => (RayCoefIntersection.zero, RayCoefIntersection.zero)
  | some lastCoef =>
    if lastCoef < 0 then (RayCoefIntersection.zero, RayCoefIntersection.zero)
    else (⟨true, firstPositive lastCoef coefs⟩, ⟨true, lastCoef⟩)

/-! ### package geometry: objects -/

/-- The interface `IGeometryObject`: any value offering these five methods. -/
structure IGeometryObject (K : Type) where
  GetNormal : Vector K → Vector K
  GetTexturePoint : Vector K → Vector K
  GetBoundingBox : BBox K
  Intersect : Ray K → RayCoefIntersection K
  GetMaterial : Material K

/-- The struct `Intersection`; `Object` is a Go interface value and may be nil, and the
channels of `Color` are extended values. -/
structure Intersection (K : Type) where
  Coefficient : RayCoefIntersection K
  Point : Vector K
  Object : Option (IGeometryObject K)
  Color : Color (XFloat K)

/-- The zero value `geometry.Intersection{}`. -/
def Intersection.zero : Intersection K :=
  ⟨RayCoefIntersection.zero, ⟨0, 0, 0⟩, none, ⟨XFloat.fin 0, XFloat.fin 0, XFloat.fin 0⟩⟩

/-- A Go array `[3]Vector`. -/
structure Points3 (K : Type) where
  p0 : Vector K
  p1 : Vector K
  p2 : Vector K
  deriving DecidableEq

/-- Indexing `points[i]` for `i` in `0..2`. -/
def Points3.get (ps : Points3 K) (i : Nat) : Vector K :=
  if i = 0 then ps.p0 else if i = 1 then ps.p1 else ps.p2

/-- The struct `Triangle`. -/
structure Triangle (K : Type) where
  points : Points3 K
  textureCoords : Points3 K
  material : Material K
  normal : Vector K
  surfaceArea : K
  planeCoefficient : K

/-- Go `func calculateArea(trg *Triangle) float64`, on the corner array. -/
def calculateArea (sqrt : K → K) (points : Points3 K) : K :=
  (((points.get 1).Sub (points.get 0)).Cross ((points.get 2).Sub (points.get 0))).Length sqrt

/-- Go `func calculateNormal(trg *Triangle) float64`: the normal it stores and the plane
coefficient it returns. -/
def calculateNormal (sqrt : K → K) (points : Points3 K) : Vector K × K :=
  let normal :=
    (((points.get 1).Sub (points.get 0)).Cross ((points.get 2).Sub (points.get 0))).Norm sqrt
  (normal, normal.Dot (points.get 0))

/-- Go `func NewTriangle(points, textureCoords, material) *Triangle`. -/
def NewTriangle (sqrt : K → K) (points textureCoords : Points3 K) (material : Material K) :
    Triangle K :=
  { points := points, textureCoords := textureCoords, material := material,
    surfaceArea := calculateArea sqrt points,
    normal := (calculateNormal sqrt points).1,
    planeCoefficient := (calculateNormal sqrt points).2 }

/-- Go `func (trg *Triangle) GetNormal(Vector) Vector`. -/
def Triangle.GetNormal (trg : Triangle K) (_pos : Vector K) : Vector K := trg.normal

/-- Go `func (trg *Triangle) GetTexturePoint(pos Vector) Vector`. -/
def Triangle.GetTexturePoint (trg : Triangle K) (pos : Vector K) : Vector K :=
  let tempPos := pos.Sub (trg.points.get 1)
  let baseU := (trg.textureCoords.get 2).Sub (trg.textureCoords.get 1)
  let baseV := (trg.textureCoords.get 0).Sub (trg.textureCoords.get 1)
  let baseX := (trg.points.get 2).Sub (trg.points.get 1)
  let baseY := (trg.points.get 0).Sub (trg.points.get 1)
  let partU := (baseU.Mult (tempPos.Dot baseX)).Div baseX.SqrLength
  let partV := (baseV.Mult (tempPos.Dot baseY)).Div baseY.SqrLength
  partU.Add partV

/-- Go `func (trg *Triangle) Intersect(ray *Ray) RayCoefIntersection`.  For a direction
parallel to the plane the denominator of `coef` is zero: the `float64` quotient is an
infinity or a NaN, so are the coordinates of `point` and the sum `area`, the test
`Equal(area, surfaceArea)` fails and the first `return` is taken.  The first line states
this outcome; `XFloat.Intersect` is the same function evaluated on extended values. -/
def Triangle.Intersect (sqrt : K → K) (trg : Triangle K) (ray : Ray K) :
    RayCoefIntersection K :=
  if ray.Direction.Dot trg.normal = 0 then { HasIntersection := false, IntersectionCoef := 0 }
  else
    let coef := (trg.planeCoefficient - ray.Begin.Dot trg.normal) / ray.Direction.Dot trg.normal
    let point := ray.Begin.Add (ray.Direction.Mult coef)
    let area := [0, 1, 2].foldl (fun (area : K) (i : Nat) =>
      let ind1 := i % 3
      let ind2 := (i + 1) % 3
      area + (((point.Sub (trg.points.get ind1)).Cross
        (point.Sub (trg.points.get ind2))).Length sqrt)) 0
    if !Equal area trg.surfaceArea || Less (area * trg.surfaceArea) 0 then
      { HasIntersection := false, IntersectionCoef := 0 }
    else
      { HasIntersection := true, IntersectionCoef := coef }

/-- Go `func (trg *Triangle) GetBoundingBox() *BBox`. -/
def Triangle.GetBoundingBox (trg : Triangle K) : BBox K :=
  CreateFromPoints3 trg.points.p0 trg.points.p1 trg.points.p2

/-- Go `func (trg *Triangle) GetMaterial() *materials.Material`. -/
def Triangle.GetMaterial (trg : Triangle K) : Material K := trg.material

/-- A `*Triangle` seen through the interface `IGeometryObject`. -/
def Triangle.toObject (sqrt : K → K) (trg : Triangle K) : IGeometryObject K :=
  { GetNormal := trg.GetNormal, GetTexturePoint := trg.GetTexturePoint,
    GetBoundingBox := trg.GetBoundingBox, Intersect := trg.Intersect sqrt,
    GetMaterial := trg.GetMaterial }

/-- The struct `Sphere{Center, Radius}`. -/
structure Sphere (K : Type) where
  Center : Vector K
  Radius : K
  deriving DecidableEq

/-- Go `func (s Sphere) GetNormal(pos Vector) Vector`; the panic is `none`. -/
def Sphere.GetNormal (sqrt : K → K) (s : Sphere K) (pos : Vector K) : Option (Vector K) :=
  let norm := pos.Sub s.Center
  if Greater (norm.Length sqrt) s.Radius then none
  else some (norm.Norm sqrt)

/-- Go `func (s Sphere) GetTexturePoint(pos Vector) Vector`, which always panics. -/
def Sphere.GetTexturePoint (_s : Sphere K) (_pos : Vector K) : Option (Vector K) := none

/-- Go `func (s Sphere) GetBoundingBox() *BBox`. -/
def Sphere.GetBoundingBox (s : Sphere K) : BBox K :=
  let radiusVector : Vector K := ⟨s.Radius, s.Radius, s.Radius⟩
  ⟨s.Center.Sub radiusVector, s.Center.Add radiusVector⟩

/-- Go `func (s Sphere) Intersect(ray *Ray) RayCoefIntersection`. -/
def Sphere.Intersect (sqrt : K → K) (s : Sphere K) (ray : Ray K) : RayCoefIntersection K :=
  let distance := ray.Distance sqrt s.Center
  if Greater distance s.Radius then RayCoefIntersection.zero
  else
    let scalarDistance := ray.GetLineCoef s.Center
    let halfSphereDistance := sqrt |s.Radius * s.Radius - distance * distance|
    let rayD := min (scalarDistance - halfSphereDistance) (scalarDistance + halfSphereDistance)
    let rayD :=
      if Less rayD 0 then
        max (scalarDistance - halfSphereDistance) (scalarDistance + halfSphereDistance)
      else rayD
    { IntersectionCoef := rayD, HasIntersection := true }

/-! ### package kd_tree -/

/-- The struct `SplitPlane{value, index}`. -/
structure SplitPlane (K : Type) where
  value : K
  index : Int
  deriving DecidableEq

/-- A `*KDTreeNode`: the nil pointer, or a node with its six fields. -/
inductive KDTreeNode (K : Type) where
  | nil : KDTreeNode K
  | node (left right : KDTreeNode K) (bbox : BBox K) (splitPlane : SplitPlane K)
      (nodeSize : Int) (objects : List (IGeometryObject K)) : KDTreeNode K

/-- The struct `KDTree` (the build time is not modelled). -/
structure KDTree (K : Type) where
  root : KDTreeNode K

/-- The struct `BBoxSplit{value, axis, cost}`; the cost comes out of a quotient whose
denominator can be zero, so it is an extended value. -/
structure BBoxSplit (K : Type) where
  value : K
  axis : Int
  cost : XFloat K
  deriving DecidableEq

/-- The constant `TRAVERSAL_COEF`. -/
def TRAVERSAL_COEF : K := 2

/-- The constant `INTERSECTION_COEF`. -/
def INTERSECTION_COEF : K := 1

/-- Go `func costFunction(leftProbability, leftSize, rightProbability, rightSize) float64`. -/
def costFunction (leftProbability : XFloat K) (leftSize : Int) (rightProbability : XFloat K)
    (rightSize : Int) : XFloat K :=
  let fullProb := (leftProbability.mul (XFloat.fin (leftSize : K))).add
    (rightProbability.mul (XFloat.fin (rightSize : K)))
  (XFloat.fin TRAVERSAL_COEF).add ((XFloat.fin INTERSECTION_COEF).mul fullProb)

/-- Go `func getBoundingBox(objects []IGeometryObject) *BBox`; `objects[0]` panics on an empty
slice. -/
def getBoundingBox : List (IGeometryObject K) → Option (BBox K)
  | [] => none
  | obj0 :: rest =>
    some ((obj0 :: rest).foldl (fun result obj => result.Expand obj.GetBoundingBox)
      obj0.GetBoundingBox)

/-- Go `func surfaceAreaHeuristic(planeCoord, axis, voxel, leftSize, middleSize, rightSize)`.
The two quotients by `voxel.SurfaceArea()` are taken on extended values: a box whose two
corners coincide has the `SurfaceArea` `+0`, and the quotient is then `+Inf` or NaN. -/
def surfaceAreaHeuristic (planeCoord : K) (axis : Int) (voxel : BBox K)
    (leftSize middleSize rightSize : Int) : Option (XFloat K) :=
  match voxel.Split axis planeCoord with
  | none => none
  | some boxes =>
    let leftProb := XFloat.div false (XFloat.fin boxes.1.SurfaceArea)
      (XFloat.fin voxel.SurfaceArea)
    let rightProb := XFloat.div false (XFloat.fin boxes.2.SurfaceArea)
      (XFloat.fin voxel.SurfaceArea)
    let leftPartCost := costFunction leftProb (leftSize + middleSize) rightProb rightSize
    let rightPartCost := costFunction leftProb leftSize rightProb (middleSize + rightSize)
    if XFloat.Equal leftPartCost (XFloat.fin 0) || XFloat.Equal rightPartCost (XFloat.fin 0) then
      some (XFloat.fin MaxFloat64)
    else some (XFloat.max leftPartCost rightPartCost)

/-- The local type `ObjectLocationType` of `findPlane`. -/
inductive ObjectLocationType where
  | END
  | BELONGS
  | BEGIN
  deriving DecidableEq, Repr

/-- The integer value of an `ObjectLocationType` constant. -/
def ObjectLocationType.val : ObjectLocationType → Int
  | END => 0
  | BELONGS => 1
  | BEGIN => 2

/-- The local struct `IntersectionEvent{locType, value}` of `findPlane`. -/
structure IntersectionEvent (K : Type) where
  locType : ObjectLocationType
  value : K
  deriving DecidableEq

/-- The comparison closure handed to `sort.Slice` in `findPlane`. -/
def eventLess (a b : IntersectionEvent K) : Bool :=
  Less a.value b.value || (Equal a.value b.value && decide (a.locType.val < b.locType.val))

/-- One step of Go's insertion sort: the new element `x` moves left while it is `less`
than its predecessor.  The sorted part is kept reversed (last element first). -/
def insertBack {α : Type} (less : α → α → Bool) (x : α) : List α → List α
  | [] => [x]
  | y :: ys => if less x y then y :: insertBack less x ys else x :: y :: ys

/-- Go `sort.Slice(data, less)` as the insertion sort that Go runs on slices of at most 12
elements.  On longer slices Go's sort returns the same sequence whenever `less` orders
the elements strictly up to identical ones. -/
def sortSlice {α : Type} (less : α → α → Bool) (data : List α) : List α :=
  (data.foldl (fun sortedRev x => insertBack less x sortedRev) []).reverse

/-- The events that `findPlane` collects for one axis, before sorting. -/
def collectEvents (dim : Int) : List (IGeometryObject K) → Option (List (IntersectionEvent K))
  | [] => some []
  | obj :: rest =>
    let bbox := obj.GetBoundingBox
    match bbox.GetMin dim, bbox.GetMax dim, collectEvents dim rest with
    | some mn, some mx, some events =>
      if Equal mn mx then some (⟨ObjectLocationType.BELONGS, mn⟩ :: events)
      else some (⟨ObjectLocationType.BEGIN, mn⟩ :: ⟨ObjectLocationType.END, mx⟩ :: events)
    | _, _, _ => none

/-- The counters `pBegin, pBelong, pEnd` and the index `i` of the inner loop. -/
structure GroupCount where
  pBegin : Int
  pBelong : Int
  pEnd : Int
  i : Nat
  deriving DecidableEq

/-- The inner loop of `findPlane`: `for ; i < len(events) && Equal(currentPlaneValue,
events[i].value); i++`, run on the events from index `i` on. -/
def scanGroup (currentPlaneValue : K) : List (IntersectionEvent K) → GroupCount → GroupCount
  | [], c => c
  | e :: es, c =>
    if Equal currentPlaneValue e.value then
      scanGroup currentPlaneValue es
        (match e.locType with
         | ObjectLocationType.BEGIN => { c with pBegin := c.pBegin + 1, i := c.i + 1 }
         | ObjectLocationType.BELONGS => { c with pBelong := c.pBelong + 1, i := c.i + 1 }
         | ObjectLocationType.END => { c with pEnd := c.pEnd + 1, i := c.i + 1 })
    else c

/-- The state of the sweep of `findPlane`. -/
structure SweepState (K : Type) where
  split : BBoxSplit K
  minCost : XFloat K
  deriving DecidableEq

/-- The outer loop `for i := 0; i < len(objects); i++` of `findPlane` on the sorted
events of one axis.  The `i--` after the inner loop and the `i++` of the outer loop
leave `i` at the index where the inner loop stopped.  Every pass moves `i` forward (an
event is `Equal` to itself), so the loop makes at most `len(objects)` passes, which is
the first argument. -/
def sweep (dim : Int) (boundingBox : BBox K) (nObjects : Nat)
    (events : List (IntersectionEvent K)) :
    Nat → Nat → Int → Int → SweepState K → Option (SweepState K)
  | 0, _, _, _, st => some st
  | passes + 1, i, leftSize, rightSize, st =>
    if i < nObjects then
      match events.get? i with
      | none => none
      | some e =>
        let currentPlaneValue := e.value
        let c := scanGroup currentPlaneValue (events.drop i) ⟨0, 0, 0, i⟩
        let middleSize := c.pBelong
        let rightSize := rightSize - (c.pBelong + c.pEnd)
        match surfaceAreaHeuristic currentPlaneValue dim boundingBox leftSize middleSize
          rightSize with
        | none => none
        | some currentResult =>
          let st :=
            if XFloat.Less currentResult st.minCost then
              { split := ⟨currentPlaneValue, dim, currentResult⟩, minCost := currentResult }
            else st
          sweep dim boundingBox nObjects events passes c.i
            (leftSize + (c.pBegin + c.pBelong)) rightSize st
    else some st

/-- The body of the loop `for dim := 0; dim < 3; dim++` of `findPlane`. -/
def findPlaneDim (objects : List (IGeometryObject K)) (boundingBox : BBox K) (dim : Int)
    (st : SweepState K) : Option (SweepState K) :=
  match collectEvents dim objects with
  | none => none
  | some events =>
    sweep dim boundingBox objects.length (sortSlice eventLess events) objects.length 0 0
      (objects.length : Int) st

/-- Go `func findPlane(objects []IGeometryObject, boundingBox *BBox) BBoxSplit`. -/
def findPlane (objects : List (IGeometryObject K)) (boundingBox : BBox K) :
    Option (BBoxSplit K) :=
  match findPlaneDim objects boundingBox 0 ⟨⟨0, 0, XFloat.fin 0⟩, XFloat.fin MaxFloat64⟩ with
  | none => none
  | some st0 =>
    match findPlaneDim objects boundingBox 1 st0 with
    | none => none
    | some st1 =>
      match findPlaneDim objects boundingBox 2 st1 with
      | none => none
      | some st2 => some st2.split

/-- Go `func classify(objects []IGeometryObject, split BBoxSplit) [2][]IGeometryObject`. -/
def classify : List (IGeometryObject K) → BBoxSplit K →
    Option (List (IGeometryObject K) × List (IGeometryObject K))
  | [], _ => some ([], [])
  | obj :: rest, split =>
    let bbox := obj.GetBoundingBox
    match bbox.GetMin split.axis, bbox.GetMax split.axis, classify rest split with
    | some mn, some mx, some parts =>
      some (if Less mn (split.value + EPS) then obj :: parts.1 else parts.1,
            if Less (split.value - EPS) mx then obj :: parts.2 else parts.2)
    | _, _, _ => none

/-- Go `func recBuild(input kdTreeNodeInput, sync chan int)` together with the two builds it
starts: the node it fills in.  The first argument bounds the depth of the recursion;
`none` means that the bound was reached (or that a panic occurred). -/
def recBuild : Nat → List (IGeometryObject K) → BBox K → Option (KDTreeNode K)
  | 0, _, _ => none
  | depthBound + 1, objects, bbox =>
    match findPlane objects bbox with
    | none => none
    | some split =>
      if XFloat.GreaterEqual split.cost (XFloat.fin (((objects.length : Int) * 1 : Int) : K)) then
        some (KDTreeNode.node KDTreeNode.nil KDTreeNode.nil bbox ⟨0, 0⟩ objects.length objects)
      else
        match bbox.Split split.axis split.value, classify objects split with
        | some boxes, some parts =>
          match recBuild depthBound parts.1 boxes.1, recBuild depthBound parts.2 boxes.2 with
          | some left, some right =>
            some (KDTreeNode.node left right bbox ⟨split.value, split.axis⟩ objects.length [])
          | _, _ => none
        | _, _ => none

/-- Go `func (tree *KDTree) BuildTree(objects []IGeometryObject)`: the tree it leaves in
`tree.root` once every started build has finished. -/
def BuildTree (depthBound : Nat) (objects : List (IGeometryObject K)) : Option (KDTree K) :=
  match getBoundingBox objects with
  | none => none
  | some bbox =>
    match recBuild depthBound objects bbox with
    | none => none
    | some root => some ⟨root⟩

/-- The struct `kdTreeNodeInput{node, objects, bbox}` without the node pointer: the
arguments of one build task. -/
structure kdTreeNodeInput (K : Type) where
  objects : List (IGeometryObject K)
  bbox : BBox K

/-- How far a goroutine that runs `recBuild` has come in its signalling: `started` by
`go recBuild(...)`, nothing sent yet; `announced`, its `sync <- 2` has been received and
its two children are not started; `leftStarted`, `go recBuild(left)` has run;
`bothStarted`, `go recBuild(right)` has run and the final `sync <- -1` is not yet
received; `finished`, the final `sync <- -1` has been received. -/
inductive BuildPhase (K : Type) where
  | started : BuildPhase K
  | announced (left right : kdTreeNodeInput K) : BuildPhase K
  | leftStarted (right : kdTreeNodeInput K) : BuildPhase K
  | bothStarted : BuildPhase K
  | finished : BuildPhase K

/-- One build task: a goroutine that runs `recBuild` on `input`. -/
structure BuildTask (K : Type) where
  input : kdTreeNodeInput K
  phase : BuildPhase K

/-- The state of a build: the tally `sum` of `BuildTree` and the tasks started so far. -/
structure BuildState (K : Type) where
  sum : Int
  tasks : List (BuildTask K)

/-- The state in which `BuildTree` enters its loop: `sum := 1` and the task of the root. -/
def BuildState.initial (objects : List (IGeometryObject K)) (bbox : BBox K) : BuildState K :=
  ⟨1, [⟨⟨objects, bbox⟩, BuildPhase.started⟩]⟩

/-- The next step of the task number `i`.  The channel `sync` is unbuffered, so a send
`sync <- v` is one step with its receipt `sum += v` by the loop of `BuildTree`, and it can
only happen while that loop runs, that is, while `sum` is not 0.  `none`: the task has no
next step (it has finished, it cannot send, or it panics). -/
def BuildState.step (s : BuildState K) (i : Nat) : Option (BuildState K) :=
  match s.tasks.get? i with
  | none => none
  | some task =>
    match task.phase with
    | BuildPhase.started =>
      if s.sum = 0 then none
      else
        match findPlane task.input.objects task.input.bbox with
        | none => none
        | some split =>
          if XFloat.GreaterEqual split.cost
              (XFloat.fin (((task.input.objects.length : Int) * 1 : Int) : K)) then
            some ⟨s.sum + (-1), s.tasks.set i ⟨task.input, BuildPhase.finished⟩⟩
          else
            match task.input.bbox.Split split.axis split.value,
              classify task.input.objects split with
            | some boxes, some parts =>
              some ⟨s.sum + 2, s.tasks.set i
                ⟨task.input, BuildPhase.announced ⟨parts.1, boxes.1⟩ ⟨parts.2, boxes.2⟩⟩⟩
            | _, _ => none
    | BuildPhase.announced left right =>
      some ⟨s.sum, s.tasks.set i ⟨task.input, BuildPhase.leftStarted right⟩ ++
        [⟨left, BuildPhase.started⟩]⟩
    | BuildPhase.leftStarted right =>
      some ⟨s.sum, s.tasks.set i ⟨task.input, BuildPhase.bothStarted⟩ ++
        [⟨right, BuildPhase.started⟩]⟩
    | BuildPhase.bothStarted =>
      if s.sum = 0 then none
      else some ⟨s.sum + (-1), s.tasks.set i ⟨task.input, BuildPhase.finished⟩⟩
    | BuildPhase.finished => none

/-- A run of the build: the tasks take their steps in the order of the schedule. -/
def BuildState.run (s : BuildState K) : List Nat → Option (BuildState K)
  | [] => some s
  | i :: rest =>
    match s.step i with
    | none => none
    | some next => next.run rest

/-- The state `(intersection, currentCoef)` of the leaf loop of `findIntersection`. -/
structure ScanState (K : Type) where
  intersection : Intersection K
  currentCoef : K

/-- One pass of the leaf loop of `findIntersection`. -/
def scanStep (ray : Ray K) (st : ScanState K) (obj : IGeometryObject K) : ScanState K :=
  let objIntersection := obj.Intersect ray
  if objIntersection.HasIntersection && Less objIntersection.IntersectionCoef st.currentCoef &&
      Greater objIntersection.IntersectionCoef 0 then
    let currentCoef := objIntersection.IntersectionCoef
    { currentCoef := currentCoef,
      intersection :=
        { Coefficient := { IntersectionCoef := currentCoef, HasIntersection := true },
          Point := ray.Begin.Add (ray.Direction.Mult currentCoef),
          Object := some obj,
          Color := ⟨XFloat.fin 0, XFloat.fin 0, XFloat.fin 0⟩ } }
  else st

/-- The leaf loop of `findIntersection` over `node.objects`. -/
def scanObjects (ray : Ray K) (objects : List (IGeometryObject K)) : Intersection K :=
  (objects.foldl (scanStep ray) ⟨Intersection.zero, MaxFloat64⟩).intersection

/-- Go `func findIntersection(node *KDTreeNode, ray *Ray) Intersection`; reading through a
nil node is the panic `none`. -/
def findIntersection (sqrt : K → K) : KDTreeNode K → Ray K → Option (Intersection K)
  | KDTreeNode.nil, _ => none
  | KDTreeNode.node left right bbox _ nodeSize objects, ray =>
    if nodeSize = 0 || !(bbox.Intersect sqrt ray).1.HasIntersection then
      some Intersection.zero
    else if objects.length ≠ 0 then some (scanObjects ray objects)
    else
      match findIntersection sqrt left ray, findIntersection sqrt right ray with
      | some left, some right =>
        if left.Coefficient.HasIntersection then
          if right.Coefficient.HasIntersection &&
              Greater left.Coefficient.IntersectionCoef right.Coefficient.IntersectionCoef then
            some right
          else some left
        else some right
      | _, _ => none

/-- Go `func (tree *KDTree) CastRay(ray *Ray) Intersection`. -/
def KDTree.CastRay (sqrt : K → K) (tree : KDTree K) (ray : Ray K) : Option (Intersection K) :=
  match tree.root with
  | KDTreeNode.nil => none
  | KDTreeNode.node left right bbox splitPlane nodeSize objects =>
    if !(bbox.Intersect sqrt ray).1.HasIntersection then some Intersection.zero
    else findIntersection sqrt (KDTreeNode.node left right bbox splitPlane nodeSize objects) ray

/-! ### package scene -/

/-- The constant `MAX_RAY_TRACING_DEPTH`. -/
def MAX_RAY_TRACING_DEPTH : Nat := 10

/-- The struct `Reference{Power, Distance}`. -/
structure Reference (K : Type) where
  Power : K
  Distance : K
  deriving DecidableEq

/-- The struct `Light{Ref, Power, Position}`. -/
structure Light (K : Type) where
  Ref : Reference K
  Power : K
  Position : Vector K
  deriving DecidableEq

/-- The struct `Scene`, with the fields that ray casting reads. -/
structure Scene (K : Type) where
  objects : List (IGeometryObject K)
  KDTree : KDTree K
  Lights : List (Light K)

/-- Go `func (scene *Scene) castRayKD(ray *Ray) Intersection`. -/
def Scene.castRayKD (sqrt : K → K) (scene : Scene K) (ray : Ray K) :
    Option (Intersection K) :=
  let newRay : Ray K := { ray with Begin := ray.Begin.Add (ray.Direction.Mult 0.00001) }
  scene.KDTree.CastRay sqrt newRay

/-- One pass of the loop over `scene.Lights` in `getLightIntensity`.  The three quotients
are taken on extended values: `Ref.Power`, `Ref.Distance` and the squared distance to
the light can be zero.  A zero field is `+0`, the zero of `Ref.Distance / Ref.Power` has
the sign of `Ref.Power`, and a sum of squares is `+0`.  The cosine is a number of the
exact model; for a light at the point itself it is 0 here and NaN in `float64`, and its
product with `currentPower`, then the quotient by the zero squared distance, is NaN in
both. -/
def lightStep (sqrt : K → K) (scene : Scene K) (point : Vector K)
    (object : IGeometryObject K) (acc : Option (XFloat K)) (light : Light K) :
    Option (XFloat K) :=
  match acc with
  | none => none
  | some lightIntensity =>
    let newRay := NewRay sqrt point light.Position
    match scene.castRayKD sqrt newRay with
    | none => none
    | some lightIntersection =>
      let lightPositionCoef := newRay.GetLineCoef light.Position
      if !lightIntersection.Coefficient.HasIntersection ||
          Greater lightIntersection.Coefficient.IntersectionCoef lightPositionCoef then
        let lightVector := light.Position.Sub point
        let lightSqrLength := lightVector.SqrLength
        let normLightVector := lightVector.Norm sqrt
        let currentPointLightContribution := (object.GetNormal point).Dot normLightVector
        let distanceForOriginPoint :=
          XFloat.div false (XFloat.fin light.Ref.Distance) (XFloat.fin light.Ref.Power)
        let currentPower := XFloat.div false
          (XFloat.div (decide (light.Ref.Power < 0)) (XFloat.fin light.Power)
            distanceForOriginPoint)
          (XFloat.fin lightSqrLength)
        let currentPointLightContribution :=
          (XFloat.fin currentPointLightContribution).mul currentPower
        some (lightIntensity.add (XFloat.max currentPointLightContribution (XFloat.fin 0)))
      else some lightIntensity

/-- Go `func (scene *Scene) getLightIntensity(point Vector, object IGeometryObject) float64`. -/
def Scene.getLightIntensity (sqrt : K → K) (scene : Scene K) (point : Vector K)
    (object : IGeometryObject K) : Option (XFloat K) :=
  match scene.Lights.foldl (lightStep sqrt scene point object) (some (XFloat.fin 0)) with
  | none => none
  | some lightIntensity =>
    some (XFloat.min (lightIntensity.add (XFloat.fin 0.2)) (XFloat.fin 1))

/-- Go `func refract(ray *Ray, normal Vector, ior float64) Vector`. -/
def refract (sqrt : K → K) (ray : Ray K) (normal : Vector K) (ior : K) : Vector K :=
  let cosi0 := Clamp (-1) 1 (normal.Dot ray.Direction)
  let etai0 : K := 1
  let etat0 : K := ior
  let cosi := if Less cosi0 0 then cosi0 * (-1) else cosi0
  let etai := if Less cosi0 0 then etai0 else etat0
  let etat := if Less cosi0 0 then etat0 else etai0
  let normal := if Less cosi0 0 then normal else normal.Mult (-1)
  let eta := etai / etat
  let k := 1 - eta * eta * (1 - cosi * cosi)
  if Less k 0 then ⟨0, 0, 0⟩
  else (ray.Direction.Mult eta).Add (normal.Mult (eta * cosi - sqrt k))

/-- Go `func fresnel(I, N Vector, ior float64) float64`. -/
def fresnel (sqrt : K → K) (I N : Vector K) (ior : K) : K :=
  let cosi := Clamp (-1) 1 (N.Dot I)
  let etai0 : K := 1
  let etat0 : K := ior
  let etai := if Greater cosi 0 then etat0 else etai0
  let etat := if Greater cosi 0 then etai0 else etat0
  let sint := etai / etat * sqrt (max 0 (1 - cosi * cosi))
  if GreaterEqual sint 0 then 1
  else
    let cost := sqrt (max 0 (1 - sint * sint))
    let cosi := |cosi|
    let Rs := ((etat * cosi) - (etai * cost)) / ((etat * cosi) + (etai * cost))
    let Rp := ((etai * cosi) - (etat * cost)) / ((etai * cosi) + (etat * cost))
    (Rs * Rs + Rp * Rp) / 2

/-- A value together with a record of the run that produced it: `queried` lists the depths
at which `castRay` queried the scene (its call of `castRayKD`), `called` lists, for every
nested call of `castRay`, the depth of the caller and the depth handed to the callee. -/
structure Traced (α : Type) where
  value : α
  queried : List Nat
  called : List (Nat × Nat)

/-- The colour scaled by `f` when the nested cast reports a hit, the zero colour otherwise
(`if inter.Coefficient.HasIntersection { c = inter.Color.Mult(f) }`). -/
def hitColor (inter : Intersection K) (f : K) : Color (XFloat K) :=
  if inter.Coefficient.HasIntersection then inter.Color.Mult (XFloat.fin f)
  else ⟨XFloat.fin 0, XFloat.fin 0, XFloat.fin 0⟩

/-- Go `func (scene *Scene) castRay(ray *Ray, additionalLight float64, depth int) Intersection`,
returning the intersection (`none` for a panic) and the record of the run. -/
def Scene.castRay (sqrt : K → K) (scene : Scene K) (ray : Ray K)
    (_additionalLight : XFloat K) (depth : Nat) : Traced (Option (Intersection K)) :=
  if _h : depth > MAX_RAY_TRACING_DEPTH then ⟨some Intersection.zero, [], []⟩
  else
    let additionalLight : XFloat K := XFloat.fin 0
    match scene.castRayKD sqrt ray with
    | none => ⟨none, [depth], []⟩
    | some intersection =>
      if !intersection.Coefficient.HasIntersection then ⟨some intersection, [depth], []⟩
      else
        match intersection.Object with
        | none => ⟨none, [depth], []⟩
        | some object =>
          let material := object.GetMaterial
          let intersectionNormal := object.GetNormal intersection.Point
          let Kr := fresnel sqrt ray.Direction intersectionNormal material.Refract
          let Kt := 1 - Kr
          match scene.getLightIntensity sqrt intersection.Point object with
          | none => ⟨none, [depth], []⟩
          | some intensity =>
            let lightIntensity := intensity.add additionalLight
            let normalizedLight := XFloat.min (XFloat.fin 1) lightIntensity
            match material.MaterialType with
            | MaterialType.ReflectDiffuse =>
              let materialColor := material.Color.toX.Mult (XFloat.fin (1 - material.Reflect))
              let reflectRay := ray.GetReflectRay intersection.Point intersectionNormal
              let reflectRun := scene.castRay sqrt reflectRay lightIntensity (depth + 1)
              match reflectRun.value with
              | none =>
                ⟨none, depth :: reflectRun.queried, (depth, depth + 1) :: reflectRun.called⟩
              | some reflectInter =>
                let reflectColor := hitColor reflectInter material.Reflect
                let color := (materialColor.Mult normalizedLight).Add reflectColor
                ⟨some { intersection with Color := color.Normalize },
                  depth :: reflectRun.queried, (depth, depth + 1) :: reflectRun.called⟩
            | MaterialType.ReflectRefract =>
              let reflectRay := ray.GetReflectRay intersection.Point intersectionNormal
              let reflectRun := scene.castRay sqrt reflectRay lightIntensity (depth + 1)
              match reflectRun.value with
              | none =>
                ⟨none, depth :: reflectRun.queried, (depth, depth + 1) :: reflectRun.called⟩
              | some reflectInter =>
                let reflectColor := hitColor reflectInter Kr
                let refractDirection := refract sqrt ray intersectionNormal material.Refract
                let refractRay :=
                  NewRay sqrt intersection.Point (intersection.Point.Add refractDirection)
                let refractRun := scene.castRay sqrt refractRay lightIntensity (depth + 1)
                match refractRun.value with
                | none =>
                  ⟨none, depth :: (reflectRun.queried ++ refractRun.queried),
                    (depth, depth + 1) :: (reflectRun.called ++
                      (depth, depth + 1) :: refractRun.called)⟩
                | some refractInter =>
                  let refractColor := hitColor refractInter Kt
                  let color := reflectColor.Add refractColor
                  ⟨some { intersection with Color := color.Normalize },
                    depth :: (reflectRun.queried ++ refractRun.queried),
                    (depth, depth + 1) :: (reflectRun.called ++
                      (depth, depth + 1) :: refractRun.called)⟩
            | MaterialType.Diffuse =>
              let materialColor := material.Color.toX.Mult normalizedLight
              ⟨some { intersection with Color := materialColor.Normalize }, [depth], []⟩
            | MaterialType.Transparent =>
              let materialColor := material.Color.toX.Mult (XFloat.fin material.Alpha)
              let refractDirection := refract sqrt ray intersectionNormal material.Refract
              let refractRay :=
                NewRay sqrt intersection.Point (intersection.Point.Add refractDirection)
              let refractRun := scene.castRay sqrt refractRay lightIntensity (depth + 1)
              match refractRun.value with
              | none =>
                ⟨none, depth :: refractRun.queried, (depth, depth + 1) :: refractRun.called⟩
              | some refractInter =>
                let refractColor := hitColor refractInter (1 - material.Alpha)
                let color := (materialColor.Mult normalizedLight).Add refractColor
                ⟨some { intersection with Color := color.Normalize },
                  depth :: refractRun.queried, (depth, depth + 1) :: refractRun.called⟩
termination_by MAX_RAY_TRACING_DEPTH + 1 - depth
decreasing_by all_goals (simp_wf; omega)

/-- Go `func (scene *Scene) traceRay(ray *Ray) Color`, with the record of the run. -/
def Scene.traceRay (sqrt : K → K) (scene : Scene K) (ray : Ray K) :
    Traced (Option (Color (XFloat K))) :=
  let run := scene.castRay sqrt ray (XFloat.fin 0) 0
  match run.value with
  | none => ⟨none, run.queried, run.called⟩
  | some intersection =>
    if !intersection.Coefficient.HasIntersection then
      ⟨some ⟨XFloat.fin 0.2, XFloat.fin 0.2, XFloat.fin 0.2⟩, run.queried, run.called⟩
    else ⟨some intersection.Color.Normalize, run.queried, run.called⟩

/-- The struct `Viewport`. -/
structure Viewport (K : Type) where
  Origin : Vector K
  TopLeft : Vector K
  BottomLeft : Vector K
  TopRight : Vector K
  Width : Int
  Height : Int

/-- The struct `renderInput{x, y, antialiasing}`: one job of the render queue. -/
structure renderInput where
  x : Int
  y : Int
  antialiasing : Bool
  deriving DecidableEq, Repr

/-- Go `func (scene *Scene) Render()`: the jobs that its two nested loops send on
`inputChannel`, in the order of sending.  They depend on `scene.Viewport` only; a loop
`for x := 0; x < n; x++` runs over `0, ..., n - 1`, and not at all for `n <= 0`. -/
def Render (viewport : Viewport K) : List renderInput :=
  (List.range viewport.Width.toNat).flatMap (fun (x : Nat) =>
    (List.range viewport.Height.toNat).map (fun (y : Nat) =>
      ({ x := Int.ofNat x, y := Int.ofNat y, antialiasing := false } : renderInput)))

/-- The cell `scene.Pixels[obj.x][obj.y]` that `renderWorker` writes for the job `obj`. -/
def renderInput.cell (obj : renderInput) : Int × Int := (obj.x, obj.y)

/-! ### IEEE-754 special values: `Triangle.Intersect` -/

/-- A vector of the exact model as a vector of extended values. -/
def Vector.toX (v : Vector K) : Vector (XFloat K) := ⟨XFloat.fin v.X, XFloat.fin v.Y, XFloat.fin v.Z⟩

/-- Go `Vector.Add` on extended values. -/
def XFloat.Add (v q : Vector (XFloat K)) : Vector (XFloat K) :=
  ⟨v.X.add q.X, v.Y.add q.Y, v.Z.add q.Z⟩

/-- Go `Vector.Sub` on extended values. -/
def XFloat.Sub (v q : Vector (XFloat K)) : Vector (XFloat K) :=
  ⟨v.X.sub q.X, v.Y.sub q.Y, v.Z.sub q.Z⟩

/-- Go `Vector.Mult` on extended values. -/
def XFloat.Mult (v : Vector (XFloat K)) (f : XFloat K) : Vector (XFloat K) :=
  ⟨v.X.mul f, v.Y.mul f, v.Z.mul f⟩

/-- Go `Vector.Dot` on extended values. -/
def XFloat.Dot (v q : Vector (XFloat K)) : XFloat K :=
  ((v.X.mul q.X).add (v.Y.mul q.Y)).add (v.Z.mul q.Z)

/-- Go `Vector.Cross` on extended values. -/
def XFloat.Cross (v q : Vector (XFloat K)) : Vector (XFloat K) :=
  ⟨(v.Y.mul q.Z).sub (v.Z.mul q.Y), ((v.X.mul q.Z).sub (v.Z.mul q.X)).neg,
    (v.X.mul q.Y).sub (v.Y.mul q.X)⟩

/-- Go `Vector.SqrLength` on extended values. -/
def XFloat.SqrLength (v : Vector (XFloat K)) : XFloat K :=
  ((v.X.mul v.X).add (v.Y.mul v.Y)).add (v.Z.mul v.Z)

/-- Go `Vector.Length` on extended values. -/
def XFloat.Length (sqrt : K → K) (v : Vector (XFloat K)) : XFloat K :=
  (XFloat.SqrLength v).sqrt sqrt

/-- Go `func (trg *Triangle) Intersect(ray *Ray) RayCoefIntersection` on extended values, for
a triangle and a ray whose stored numbers are finite. -/
def XFloat.Intersect (zeroNeg : Bool) (sqrt : K → K) (trg : Triangle K) (ray : Ray K) :
    RayCoefIntersection (XFloat K) :=
  let coef := XFloat.div zeroNeg
    ((XFloat.fin trg.planeCoefficient).sub (XFloat.Dot ray.Begin.toX trg.normal.toX))
    (XFloat.Dot ray.Direction.toX trg.normal.toX)
  let point := XFloat.Add ray.Begin.toX (XFloat.Mult ray.Direction.toX coef)
  let area := [0, 1, 2].foldl (fun (area : XFloat K) (i : Nat) =>
    let ind1 := i % 3
    let ind2 := (i + 1) % 3
    area.add (XFloat.Length sqrt (XFloat.Cross (XFloat.Sub point (trg.points.get ind1).toX)
      (XFloat.Sub point (trg.points.get ind2).toX)))) (XFloat.fin 0)
  if !XFloat.Equal area (XFloat.fin trg.surfaceArea) ||
      XFloat.Less (area.mul (XFloat.fin trg.surfaceArea)) (XFloat.fin 0) then
    { HasIntersection := false, IntersectionCoef := XFloat.fin 0 }
  else
    { HasIntersection := true, IntersectionCoef := coef }

/-- The result of the exact model as a result on extended values. -/
def RayCoefIntersection.toX (r : RayCoefIntersection K) : RayCoefIntersection (XFloat K) :=
  ⟨r.HasIntersection, XFloat.fin r.IntersectionCoef⟩

/-- Go `Vector.Add`, every result rounded. -/
def Rounded.Add (rnd : K → K) (v q : Vector K) : Vector K :=
  ⟨rnd (v.X + q.X), rnd (v.Y + q.Y), rnd (v.Z + q.Z)⟩

/-- Go `Vector.Sub`, every result rounded. -/
def Rounded.Sub (rnd : K → K) (v q : Vector K) : Vector K :=
  ⟨rnd (v.X - q.X), rnd (v.Y - q.Y), rnd (v.Z - q.Z)⟩

/-- Go `Vector.Mult`, every result rounded. -/
def Rounded.Mult (rnd : K → K) (v : Vector K) (f : K) : Vector K :=
  ⟨rnd (v.X * f), rnd (v.Y * f), rnd (v.Z * f)⟩

/-- Go `Vector.Div`, every result rounded. -/
def Rounded.Div (rnd : K → K) (v : Vector K) (f : K) : Vector K :=
  ⟨rnd (v.X / f), rnd (v.Y / f), rnd (v.Z / f)⟩

/-- Go `Vector.Dot`, every result rounded. -/
def Rounded.Dot (rnd : K → K) (v q : Vector K) : K :=
  rnd (rnd (rnd (v.X * q.X) + rnd (v.Y * q.Y)) + rnd (v.Z * q.Z))

/-- Go `Vector.Cross`, every result rounded (a negation is exact). -/
def Rounded.Cross (rnd : K → K) (v q : Vector K) : Vector K :=
  ⟨rnd (rnd (v.Y * q.Z) - rnd (v.Z * q.Y)), -rnd (rnd (v.X * q.Z) - rnd (v.Z * q.X)),
    rnd (rnd (v.X * q.Y) - rnd (v.Y * q.X))⟩

/-- Go `Vector.SqrLength`, every result rounded. -/
def Rounded.SqrLength (rnd : K → K) (v : Vector K) : K :=
  rnd (rnd (rnd (v.X * v.X) + rnd (v.Y * v.Y)) + rnd (v.Z * v.Z))

/-- Go `Vector.Length`; `sqrt` is the rounded square root. -/
def Rounded.Length (rnd sqrt : K → K) (v : Vector K) : K := sqrt (Rounded.SqrLength rnd v)

/-- Go `Vector.Norm`, every result rounded. -/
def Rounded.Norm (rnd sqrt : K → K) (v : Vector K) : Vector K :=
  let length := Rounded.Length rnd sqrt v
  ⟨rnd (v.X / length), rnd (v.Y / length), rnd (v.Z / length)⟩

/-- Go `Equal`, with the rounded difference and the `float64` constant `EPS`. -/
def Rounded.Equal (rnd : K → K) (a b : K) : Bool := decide (|rnd (a - b)| < rnd EPS)

/-- Go `Less`, with the rounded sum and the `float64` constant `EPS`. -/
def Rounded.Less (rnd : K → K) (a b : K) : Bool := decide (rnd (a + rnd EPS) < b)

/-- Go `NewRay`, every result rounded. -/
def Rounded.NewRay (rnd sqrt : K → K) (begin_ end_ : Vector K) : Ray K :=
  { Begin := begin_, Direction := Rounded.Norm rnd sqrt (Rounded.Sub rnd end_ begin_) }

/-- Go `NewTriangle`, every result rounded. -/
def Rounded.NewTriangle (rnd sqrt : K → K) (points textureCoords : Points3 K)
    (material : Material K) : Triangle K :=
  let normal := Rounded.Norm rnd sqrt (Rounded.Cross rnd
    (Rounded.Sub rnd (points.get 1) (points.get 0))
    (Rounded.Sub rnd (points.get 2) (points.get 0)))
  { points := points, textureCoords := textureCoords, material := material,
    surfaceArea := Rounded.Length rnd sqrt (Rounded.Cross rnd
      (Rounded.Sub rnd (points.get 1) (points.get 0))
      (Rounded.Sub rnd (points.get 2) (points.get 0))),
    normal := normal,
    planeCoefficient := Rounded.Dot rnd normal (points.get 0) }

/-- The first line of `Triangle.Intersect`: the parameter at which the ray meets the plane
of the triangle, every result rounded. -/
def Rounded.coef (rnd : K → K) (trg : Triangle K) (ray : Ray K) : K :=
  rnd (rnd (trg.planeCoefficient - Rounded.Dot rnd ray.Begin trg.normal) /
    Rounded.Dot rnd ray.Direction trg.normal)

/-- The second line of `Triangle.Intersect`: the point of the ray at that parameter, every
result rounded. -/
def Rounded.point (rnd : K → K) (trg : Triangle K) (ray : Ray K) : Vector K :=
  Rounded.Add rnd ray.Begin (Rounded.Mult rnd ray.Direction (Rounded.coef rnd trg ray))

/-- The loop of `Triangle.Intersect` that sums the areas spanned by `point` and the three
edges, every result rounded. -/
def Rounded.area (rnd sqrt : K → K) (trg : Triangle K) (point : Vector K) : K :=
  [0, 1, 2].foldl (fun (area : K) (i : Nat) =>
    let ind1 := i % 3
    let ind2 := (i + 1) % 3
    rnd (area + Rounded.Length rnd sqrt (Rounded.Cross rnd
      (Rounded.Sub rnd point (trg.points.get ind1))
      (Rounded.Sub rnd point (trg.points.get ind2))))) 0

/-- Go `Triangle.Intersect`, every result rounded. -/
def Rounded.Intersect (rnd sqrt : K → K) (trg : Triangle K) (ray : Ray K) :
    RayCoefIntersection K :=
  if Rounded.Dot rnd ray.Direction trg.normal = 0 then
    { HasIntersection := false, IntersectionCoef := 0 }
  else
    let coef := Rounded.coef rnd trg ray
    let point := Rounded.point rnd trg ray
    let area := Rounded.area rnd sqrt trg point
    if !Rounded.Equal rnd area trg.surfaceArea ||
        Rounded.Less rnd (rnd (area * trg.surfaceArea)) 0 then
      { HasIntersection := false, IntersectionCoef := 0 }
    else
      { HasIntersection := true, IntersectionCoef := coef }

/-- The centroid `(p0 + p1 + p2) / 3`, every result rounded. -/
def Rounded.centroid (rnd : K → K) (ps : Points3 K) : Vector K :=
  Rounded.Div rnd (Rounded.Add rnd (Rounded.Add rnd ps.p0 ps.p1) ps.p2) 3

/-! ### vocabulary of the specification -/

/-- The coordinate of a vector on axis 0, 1 or 2. -/
def Vector.coord (v : Vector K) (axis : Int) : K :=
  if axis = 0 then v.X else if axis = 1 then v.Y else v.Z

/-- The centroid `(p0 + p1 + p2) / 3` of three points. -/
def Points3.centroid (ps : Points3 K) : Vector K := ((ps.p0.Add ps.p1).Add ps.p2).Div 3

/-- The record that the leaf loop of `findIntersection` builds for a hit on `obj`. -/
def hitAt (ray : Ray K) (obj : IGeometryObject K) : Intersection K :=
  { Coefficient := ⟨true, (obj.Intersect ray).IntersectionCoef⟩,
    Point := ray.Begin.Add (ray.Direction.Mult (obj.Intersect ray).IntersectionCoef),
    Object := some obj,
    Color := ⟨XFloat.fin 0, XFloat.fin 0, XFloat.fin 0⟩ }

/-- The objects held by the nodes of a tree. -/
def KDTreeNode.leafObjects : KDTreeNode K → List (IGeometryObject K)
  | KDTreeNode.nil => []
  | KDTreeNode.node left right _ _ _ objects => objects ++ (left.leafObjects ++ right.leafObjects)

/-- No traversal reads through a nil child: a node that `findIntersection` descends from
(non-zero size, no objects) has two children, themselves such nodes. -/
def KDTreeNode.Sound : KDTreeNode K → Prop
  | KDTreeNode.nil => False
  | KDTreeNode.node left right _ _ nodeSize objects =>
    nodeSize ≠ 0 → objects = [] → left.Sound ∧ right.Sound

/-- The object's `Intersect` reports a hit that the leaf loop can take: the coefficient is
`Greater` than 0 and `Less` than `MaxFloat64`. -/
def Takeable (ray : Ray K) (obj : IGeometryObject K) : Prop :=
  (obj.Intersect ray).HasIntersection = true ∧
    Greater (obj.Intersect ray).IntersectionCoef 0 = true ∧
    Less (obj.Intersect ray).IntersectionCoef MaxFloat64 = true

/-- The answer `r` is no hit, or the hit on one of `objects` whose `Intersect` reports a
hit that the leaf loop can take. -/
def IsAnswer (ray : Ray K) (objects : List (IGeometryObject K)) (r : Intersection K) : Prop :=
  r = Intersection.zero ∨ ∃ obj ∈ objects, Takeable ray obj ∧ r = hitAt ray obj

/-- The objects of the leaves that `findIntersection` scans for the ray: the leaves reached
through nodes of non-zero size whose boxes report an entry of the ray. -/
def KDTreeNode.visited (sqrt : K → K) : KDTreeNode K → Ray K → List (IGeometryObject K)
  | KDTreeNode.nil, _ => []
  | KDTreeNode.node left right bbox _ nodeSize objects, ray =>
    if nodeSize = 0 || !(bbox.Intersect sqrt ray).1.HasIntersection then []
    else if objects.length ≠ 0 then objects
    else left.visited sqrt ray ++ right.visited sqrt ray

/-- The number of nodes on the longest path from the node down to a leaf. -/
def KDTreeNode.height : KDTreeNode K → Nat
  | KDTreeNode.nil => 0
  | KDTreeNode.node left right _ _ _ _ => max left.height right.height + 1

/-- The brute-force nearest hit of the specification: the smallest strictly positive
coefficient among the hits that the objects' `Intersect` report, if there is one. -/
def bruteForceNearest (ray : Ray K) : List (IGeometryObject K) → Option K
  | [] => none
  | obj :: rest =>
    let r := obj.Intersect ray
    if r.HasIntersection ∧ 0 < r.IntersectionCoef then
      match bruteForceNearest ray rest with
      | none => some r.IntersectionCoef
      | some best => some (min r.IntersectionCoef best)
    else bruteForceNearest ray rest

/-- The coefficient of an answer of `CastRay`, if it is a hit. -/
def Intersection.hitCoef (r : Intersection K) : Option K :=
  if r.Coefficient.HasIntersection then some r.Coefficient.IntersectionCoef else none

/-- What one run of `castRay` at `depth` records. -/
def RunOK (depth : Nat) (n : Nat) {α : Type} (run : Traced α) : Prop :=
  (∀ q ∈ run.queried, depth ≤ q ∧ q ≤ MAX_RAY_TRACING_DEPTH) ∧
  (∀ c ∈ run.called, c.2 = c.1 + 1 ∧ depth ≤ c.1 ∧ c.1 ≤ MAX_RAY_TRACING_DEPTH) ∧
  run.queried.length + 1 ≤ 2 ^ n

/-- The best plane so far has a finite cost between 2 and 3. -/
def SweepState.Priced (st : SweepState K) : Prop :=
  st.split.cost = st.minCost ∧ ∃ m : K, st.minCost = XFloat.fin m ∧ 2 ≤ m ∧ m ≤ 3

/-- The point lies in the box: between the two corners on every axis (without tolerance). -/
def BBox.Within (bbox : BBox K) (p : Vector K) : Prop :=
  (bbox.Left.X ≤ p.X ∧ p.X ≤ bbox.Right.X) ∧ (bbox.Left.Y ≤ p.Y ∧ p.Y ≤ bbox.Right.Y) ∧
    (bbox.Left.Z ≤ p.Z ∧ p.Z ≤ bbox.Right.Z)

/-- The box has `Left <= Right` on every axis. -/
def BBox.Ordered (bbox : BBox K) : Prop :=
  bbox.Left.X ≤ bbox.Right.X ∧ bbox.Left.Y ≤ bbox.Right.Y ∧ bbox.Left.Z ≤ bbox.Right.Z

/-- The number of announced tasks that a task stands for as long as their completion
signals are not received: the task itself until it has finished, and its children that
are announced and not yet started. -/
def BuildPhase.pending : BuildPhase K → Int
  | BuildPhase.started => 1
  | BuildPhase.announced _ _ => 3
  | BuildPhase.leftStarted _ => 2
  | BuildPhase.bothStarted => 1
  | BuildPhase.finished => 0

/-- The number of build tasks announced whose completion signal has not been received. -/
def BuildState.pending (s : BuildState K) : Int :=
  (s.tasks.map (fun task => task.phase.pending)).sum

/-- The node invariant of the specification, for the node that the build makes from
`objects` and `bbox`: the node holds `bbox` and the number of the objects, and it is either
a leaf (no children, the object list it was built from) or an internal node (an empty
object list, a split axis among 0, 1, 2, and two children that satisfy the invariant for
the two boxes of `bbox.Split(axis, value)` and the two parts of `classify`). -/
def KDTreeNode.BuiltFrom : KDTreeNode K → List (IGeometryObject K) → BBox K → Prop
  | KDTreeNode.nil, _, _ => False
  | KDTreeNode.node left right nodeBox splitPlane nodeSize nodeObjects, objects, bbox =>
    nodeBox = bbox ∧ nodeSize = objects.length ∧
      ((left = KDTreeNode.nil ∧ right = KDTreeNode.nil ∧ nodeObjects = objects) ∨
        (nodeObjects = [] ∧
          (splitPlane.index = 0 ∨ splitPlane.index = 1 ∨ splitPlane.index = 2) ∧
          ∃ (boxes : BBox K × BBox K)
            (parts : List (IGeometryObject K) × List (IGeometryObject K)) (cost : XFloat K),
            bbox.Split splitPlane.index splitPlane.value = some boxes ∧
            classify objects ⟨splitPlane.value, splitPlane.index, cost⟩ = some parts ∧
            left.BuiltFrom parts.1 boxes.1 ∧ right.BuiltFrom parts.2 boxes.2))

/-- The node is a leaf: it has no children. -/
def KDTreeNode.isLeaf : KDTreeNode K → Bool
  | KDTreeNode.node KDTreeNode.nil KDTreeNode.nil _ _ _ _ => true
  | _ => false

/-- The light is unoccluded at the point: the shadow ray `NewRay(point, light.Position)`
reports no hit, or a hit whose parameter is `Greater` than the parameter of the light on
that ray.  A panic of the traversal counts as occluded. -/
def Scene.unoccluded (sqrt : K → K) (scene : Scene K) (point : Vector K) (light : Light K) :
    Bool :=
  match scene.castRayKD sqrt (NewRay sqrt point light.Position) with
  | none => false
  | some hit =>
    !hit.Coefficient.HasIntersection ||
      Greater hit.Coefficient.IntersectionCoef
        ((NewRay sqrt point light.Position).GetLineCoef light.Position)

/-- The contribution of a light in the words of the specification:
`max(0, (normal . unit direction to light) * light.Power / (Ref.Distance / Ref.Power) /
squared distance to light)`. -/
def lightContribution (sqrt : K → K) (point : Vector K) (object : IGeometryObject K)
    (light : Light K) : K :=
  max 0 ((object.GetNormal point).Dot ((light.Position.Sub point).Norm sqrt) * light.Power /
    (light.Ref.Distance / light.Ref.Power) / (light.Position.Sub point).SqrLength)

/-- A value that the sum of `getLightIntensity` can take: a number that is not negative,
`+Inf` or NaN. -/
def XFloat.Tally : XFloat K → Prop
  | XFloat.fin a => 0 ≤ a
  | XFloat.pinf => True
  | XFloat.ninf => False
  | XFloat.nan => True

/-- The kind of a material in the words of the specification, with the tolerance equality
`|a - b| < EPS`. -/
def specMaterialType (reflect refract alpha : K) : MaterialType :=
  if ¬ |alpha - 1| < EPS then MaterialType.Transparent
  else if |reflect - 0| < EPS ∧ |refract - 0| < EPS then MaterialType.Diffuse
  else if |refract - 0| < EPS then MaterialType.ReflectDiffuse
  else MaterialType.ReflectRefract

/-- The cost model of the specification: `cost(pL, nL, pR, nR) = TRAVERSAL_COST +
INTERSECTION_COST * (pL * nL + pR * nR)` with the constants 2 and 1. -/
def sahCost (pL : K) (nL : Int) (pR : K) (nR : Int) : K :=
  2 + 1 * (pL * (nL : K) + pR * (nR : K))

/-- The slice `coefs` of `BBox.Intersect` before it is sorted: the parameters of the valid
hits on the six faces, in the order `pd, pu, pl, pr, pn, pf`. -/
def BBox.faceCoefs (sqrt : K → K) (bbox : BBox K) (ray : Ray K) : List K :=
  let pd := bbox.CreatePlaneAndIntersect sqrt ray
    ⟨bbox.Left.X, bbox.Left.Y, bbox.Left.Z⟩ ⟨bbox.Right.X, bbox.Left.Y, bbox.Left.Z⟩
    ⟨bbox.Left.X, bbox.Right.Y, bbox.Left.Z⟩
  let pu := bbox.CreatePlaneAndIntersect sqrt ray
    ⟨bbox.Left.X, bbox.Left.Y, bbox.Right.Z⟩ ⟨bbox.Right.X, bbox.Left.Y, bbox.Right.Z⟩
    ⟨bbox.Left.X, bbox.Right.Y, bbox.Right.Z⟩
  let pl := bbox.CreatePlaneAndIntersect sqrt ray
    ⟨bbox.Left.X, bbox.Left.Y, bbox.Left.Z⟩ ⟨bbox.Left.X, bbox.Right.Y, bbox.Left.Z⟩
    ⟨bbox.Left.X, bbox.Right.Y, bbox.Right.Z⟩
  let pr := bbox.CreatePlaneAndIntersect sqrt ray
    ⟨bbox.Right.X, bbox.Left.Y, bbox.Left.Z⟩ ⟨bbox.Right.X, bbox.Right.Y, bbox.Left.Z⟩
    ⟨bbox.Right.X, bbox.Right.Y, bbox.Right.Z⟩
  let pn := bbox.CreatePlaneAndIntersect sqrt ray
    ⟨bbox.Left.X, bbox.Left.Y, bbox.Left.Z⟩ ⟨bbox.Right.X, bbox.Left.Y, bbox.Left.Z⟩
    ⟨bbox.Right.X, bbox.Left.Y, bbox.Right.Z⟩
  let pf := bbox.CreatePlaneAndIntersect sqrt ray
    ⟨bbox.Left.X, bbox.Right.Y, bbox.Left.Z⟩ ⟨bbox.Right.X, bbox.Right.Y, bbox.Left.Z⟩
    ⟨bbox.Right.X, bbox.Right.Y, bbox.Right.Z⟩
  ([pd, pu, pl, pr, pn, pf].filter (fun p => p.HasIntersection)).map
    (fun p => p.IntersectionCoef)

end Definitions

/-! ### square roots of rationals, for the concrete evaluations -/

/-- Newton steps towards the integer square root of `n`, starting from `guess`. -/
def isqrtIter (n : Nat) : Nat → Nat → Nat
  | 0, guess => guess
  | steps + 1, guess =>
    let next := (guess + n / guess) / 2
    if next < guess then isqrtIter n steps next else guess

/-- The integer square root of `n`, for `n` below `2^1000` (the iteration halves the guess
until it is close to the root, then converges in a few steps). -/
def isqrt (n : Nat) : Nat := if n ≤ 1 then n else isqrtIter n 512 n

/-- A square root on `ℚ` that is exact on the squares of rationals. -/
def qsqrt (q : ℚ) : ℚ := if q ≤ 0 then 0 else (isqrt q.num.toNat : ℚ) / (isqrt q.den : ℚ)

/-! ### rounding to `float64`, for the concrete evaluations -/

/-- The loop of `ilog2`. -/
def ilog2Iter : Nat → Nat → Nat
  | 0, _ => 0
  | steps + 1, n => if n < 2 then 0 else ilog2Iter steps (n / 2) + 1

/-- The number `e` with `2^e <= n < 2^(e+1)`, for `1 <= n < 2^2200`. -/
def ilog2 (n : Nat) : Nat := ilog2Iter 2200 n

/-- The integer nearest to `N / D`, the even one of the two when `N / D` lies halfway. -/
def roundHalfEven (N D : Nat) : Nat :=
  let f := N / D
  let r := N % D
  if 2 * r < D then f else if D < 2 * r then f + 1 else if f % 2 = 0 then f else f + 1

/-- The `float64` nearest to the rational `q`, ties to even: 53 significant bits, below
`2^-1022` the multiples of `2^-1074`.  Overflow to an infinity is not part of the model. -/
def round64 (q : ℚ) : ℚ :=
  if q = 0 then 0
  else
    let n := q.num.natAbs
    let d := q.den
    let a := ilog2 n
    let b := ilog2 d
    let e : Int := if d * 2 ^ a ≤ n * 2 ^ b then (a : Int) - b else (a : Int) - b - 1
    let k : Int := max (e - 52) (-1074)
    let v : ℚ :=
      if 0 ≤ k then ((roundHalfEven n (d * 2 ^ k.toNat) * 2 ^ k.toNat : Nat) : ℚ)
      else ((roundHalfEven (n * 2 ^ (-k).toNat) d : Nat) : ℚ) / ((2 ^ (-k).toNat : Nat) : ℚ)
    if q < 0 then -v else v

/-- Go `math.Sqrt` on `float64`: the `float64` nearest to the square root, for `q` between
`2^-150` and `2^150` (the bound keeps `isqrt` within its steps).  The root is located
between two neighbours of a grid of more than 60 bits, finer than the `float64` grid and
its midpoints, and the rounding of a point strictly between the two is the rounding of
the root. -/
def sqrt64 (q : ℚ) : ℚ :=
  if q ≤ 0 then 0
  else
    let j : Nat := 64 + ilog2 q.den
    let x : Nat := q.num.natAbs * 4 ^ j / q.den
    let t := isqrt x
    if t * t * q.den = q.num.natAbs * 4 ^ j then round64 ((t : ℚ) / ((2 ^ j : Nat) : ℚ))
    else round64 (((2 * t + 1 : Nat) : ℚ) / ((2 ^ (j + 1) : Nat) : ℚ))


/-! ### concrete inputs -/

/-- A material as `OpenScene` makes them: `NewMaterial(color, 0, 0, 1, 0, name)`. -/
def grayMaterial : Material ℚ := NewMaterial ⟨1 / 2, 1 / 2, 1 / 2⟩ 0 0 1 0 none

/-- The unit triangle `(x,0,0), (x,1,0), (x,0,1)` in the plane `X = x`. -/
def unitTriangle (x : ℚ) : Triangle ℚ :=
  NewTriangle qsqrt ⟨⟨x, 0, 0⟩, ⟨x, 1, 0⟩, ⟨x, 0, 1⟩⟩ ⟨⟨0, 0, 0⟩, ⟨0, 0, 0⟩, ⟨0, 0, 0⟩⟩
    grayMaterial

/-- A scene of one unit triangle in the plane `X = 0`, kept in a single leaf, with one
light of `Ref = {1, 1}` and power 1 at `(2, 1/4, 1/4)`. -/
def leafScene : Scene ℚ :=
  { objects := [(unitTriangle 0).toObject qsqrt],
    KDTree := ⟨KDTreeNode.node KDTreeNode.nil KDTreeNode.nil (unitTriangle 0).GetBoundingBox
      ⟨0, 0⟩ 1 [(unitTriangle 0).toObject qsqrt]⟩,
    Lights := [⟨⟨1, 1⟩, 1, ⟨2, 1 / 4, 1 / 4⟩⟩] }

/-- The scene `leafScene` with a light whose `Ref` is left at its zero value, as a light
read from a scene file without the key `Ref` is. -/
def zeroRefScene : Scene ℚ :=
  { objects := [(unitTriangle 0).toObject qsqrt],
    KDTree := ⟨KDTreeNode.node KDTreeNode.nil KDTreeNode.nil (unitTriangle 0).GetBoundingBox
      ⟨0, 0⟩ 1 [(unitTriangle 0).toObject qsqrt]⟩,
    Lights := [⟨⟨0, 0⟩, 1, ⟨2, 1 / 4, 1 / 4⟩⟩] }

/-- The triangle `(x,0,0), (x+2,-1,0), (x+2,0,-1)`, whose edge cross product `(1,2,2)` has
length 3 and whose bounding box is `[x,x+2] x [-1,0] x [-1,0]`. -/
def slantedTriangle (x : ℚ) : Triangle ℚ :=
  NewTriangle qsqrt ⟨⟨x, 0, 0⟩, ⟨x + 2, -1, 0⟩, ⟨x + 2, 0, -1⟩⟩
    ⟨⟨0, 0, 0⟩, ⟨0, 0, 0⟩, ⟨0, 0, 0⟩⟩ grayMaterial

/-- A ray of unit direction `(-2k, k^2 - 1, 0) / (k^2 + 1)`, `k = 10^11`, that meets the
plane `X = 0` at the point `(0, 1/4, 1/4)` for the parameter `1/8`; its direction is at an
angle of about `2e-11` with that plane. -/
def grazingRay : Ray ℚ :=
  { Begin := ⟨1 / 8 * (2 * 100000000000) / (100000000000 * 100000000000 + 1),
      1 / 4 - 1 / 8 * (100000000000 * 100000000000 - 1) / (100000000000 * 100000000000 + 1),
      1 / 4⟩,
    Direction := ⟨-(2 * 100000000000) / (100000000000 * 100000000000 + 1),
      (100000000000 * 100000000000 - 1) / (100000000000 * 100000000000 + 1), 0⟩ }

/-- The triangle `(x0,0,0), (x1,1,0), (x1,0,1)`, whose bounding box is
`[x0,x1] x [0,1] x [0,1]`. -/
def wedgeTriangle (x0 x1 : ℚ) : Triangle ℚ :=
  NewTriangle qsqrt ⟨⟨x0, 0, 0⟩, ⟨x1, 1, 0⟩, ⟨x1, 0, 1⟩⟩ ⟨⟨0, 0, 0⟩, ⟨0, 0, 0⟩, ⟨0, 0, 0⟩⟩
    grayMaterial

/-- Four triangles with the boxes `[-1,0]`, `[-e,e]`, `[-e,e]` and `[-e,2]` on the axis X,
where `e = 2^-30` (about `9.3e-10`, below `EPS`), and `[0,1] x [0,1]` on the two other
axes. -/
def thinScene : List (IGeometryObject ℚ) :=
  [(wedgeTriangle (-1) 0).toObject qsqrt,
   (wedgeTriangle (-1 / 1073741824) (1 / 1073741824)).toObject qsqrt,
   (wedgeTriangle (-1 / 1073741824) (1 / 1073741824)).toObject qsqrt,
   (wedgeTriangle (-1 / 1073741824) 2).toObject qsqrt]

/-- The triangle `(0,0,0), (10000,0,0), (0,10000,0)`. -/
def wideTriangle : Points3 ℚ := ⟨⟨0, 0, 0⟩, ⟨10000, 0, 0⟩, ⟨0, 10000, 0⟩⟩

/-- A triangle whose three corners are the point `(1, 1, 1)`. -/
def pointTriangle : Triangle ℚ :=
  NewTriangle qsqrt ⟨⟨1, 1, 1⟩, ⟨1, 1, 1⟩, ⟨1, 1, 1⟩⟩ ⟨⟨0, 0, 0⟩, ⟨0, 0, 0⟩, ⟨0, 0, 0⟩⟩
    grayMaterial

/-! ## Part II: theorems -/

section Theorems

variable {K : Type} [LinearOrderedField K]

/-! ### the tolerant comparisons -/

theorem EPS_pos : (0 : K) < EPS := by
  unfold EPS
  positivity

theorem Equal_iff (a b : K) : Equal a b = true ↔ |a - b| < EPS := by
  simp [Equal]

theorem Less_iff (a b : K) : Less a b = true ↔ a + EPS < b := by
  simp [Less]

theorem Greater_iff (a b : K) : Greater a b = true ↔ b < a - EPS := by
  simp [Greater]

theorem LessEqual_iff (a b : K) : LessEqual a b = true ↔ a + EPS < b ∨ |a - b| < EPS := by
  simp [LessEqual, Less_iff, Equal_iff]

theorem GreaterEqual_iff (a b : K) :
    GreaterEqual a b = true ↔ b < a - EPS ∨ |a - b| < EPS := by
  simp [GreaterEqual, Greater_iff, Equal_iff]

theorem LessEqual_lt {a b : K} (h : LessEqual a b = true) : a - EPS < b := by
  rw [LessEqual_iff, abs_lt] at h
  have hE : (0 : K) < EPS := EPS_pos
  rcases h with h | h
  · linarith
  · linarith [h.1]

theorem GreaterEqual_gt {a b : K} (h : GreaterEqual a b = true) : b < a + EPS := by
  rw [GreaterEqual_iff, abs_lt] at h
  have hE : (0 : K) < EPS := EPS_pos
  rcases h with h | h
  · linarith
  · linarith [h.2]

theorem Equal_self (a : K) : Equal a a = true := by
  rw [Equal_iff]
  simpa using (EPS_pos : (0 : K) < EPS)

/-! ### C4: `CreateFromPoints` and `Contains` -/

/-- C4, at the failing input.  The box built from the two points `(0,0,0)` and `(1e-9,0,0)`
does not `Contains` the second of them (nor the first): the coordinates differ by exactly
`EPS`, where `LessEqual` is neither `Less` nor `Equal`. -/
theorem CreateFromPoints_Contains_fails :
    (CreateFromPoints [(⟨0, 0, 0⟩ : Vector ℚ), ⟨1 / 1000000000, 0, 0⟩]).map
        (fun B => (B.Contains ⟨1 / 1000000000, 0, 0⟩, B.Contains ⟨0, 0, 0⟩))
      = some (false, false) := by
  decide!

theorem CreateFromPoints_three (p0 p1 p2 : Vector K) :
    CreateFromPoints [p0, p1, p2] = some (CreateFromPoints3 p0 p1 p2) := rfl

/-! ### C5: `BBox.Split` -/

/-- C5.  For a box with `Left <= Right`, an axis in `{0,1,2}` and a value `v` between the
two corners on that axis, `Split` returns two boxes whose componentwise union is the box,
with `left.Right[axis] = v = right.Left[axis]` and every other corner coordinate that of
the box; a point lying in both children has coordinate `v` on the axis (and a point that
both children `Contains`, with the program's tolerance, has a coordinate `Equal` to `v`). -/
theorem BBox_Split_covers (B : BBox K) (axis : Int) (v : K) (hB : B.Ordered)
    (hax : axis = 0 ∨ axis = 1 ∨ axis = 2)
    (hv : B.Left.coord axis ≤ v ∧ v ≤ B.Right.coord axis) :
    ∃ l r : BBox K, B.Split axis v = some (l, r) ∧
      (⟨Min l.Left r.Left, Max l.Right r.Right⟩ : BBox K) = B ∧
      l.Right.coord axis = v ∧ r.Left.coord axis = v ∧
      l.Left = B.Left ∧ r.Right = B.Right ∧
      (∀ j : Int, (j = 0 ∨ j = 1 ∨ j = 2) → j ≠ axis →
        l.Right.coord j = B.Right.coord j ∧ r.Left.coord j = B.Left.coord j) ∧
      (∀ p : Vector K, l.Within p → r.Within p → p.coord axis = v) ∧
      (∀ p : Vector K, l.Contains p = true → r.Contains p = true →
        Equal (p.coord axis) v = true) := by
  obtain ⟨hx, hy, hz⟩ := hB
  obtain ⟨bl, br⟩ := B
  obtain ⟨lx, ly, lz⟩ := bl
  obtain ⟨rx, ry, rz⟩ := br
  simp only at hx hy hz
  have hE : (0 : K) < EPS := EPS_pos
  rcases hax with rfl | rfl | rfl
  · simp only [Vector.coord] at hv
    norm_num at hv
    refine ⟨⟨⟨lx, ly, lz⟩, ⟨v, ry, rz⟩⟩, ⟨⟨v, ly, lz⟩, ⟨rx, ry, rz⟩⟩, by simp [BBox.Split], ?_, ?_, ?_, rfl, rfl, ?_, ?_, ?_⟩
    · simp [Min, Max, hv.1, hv.2]
    · simp [Vector.coord]
    · simp [Vector.coord]
    · rintro j (rfl | rfl | rfl) hj <;> simp_all [Vector.coord]
    · rintro ⟨px, py, pz⟩ h1 h2
      simp only [BBox.Within] at h1 h2
      simp only [Vector.coord]
      norm_num
      exact le_antisymm (by tauto) (by tauto)
    · rintro ⟨px, py, pz⟩ h1 h2
      simp only [BBox.Contains, Vector.LessEqual, Vector.GreaterEqual, Bool.and_eq_true] at h1 h2
      simp only [Vector.coord, Equal_iff, abs_lt]
      norm_num
      obtain ⟨_, ⟨h1x, h1y⟩, h1z⟩ := h1
      obtain ⟨⟨⟨h2x, h2y⟩, h2z⟩, _⟩ := h2
      have a1 := GreaterEqual_gt h1x
      have a2 := GreaterEqual_gt h1y
      have a3 := GreaterEqual_gt h1z
      have b1 := LessEqual_lt h2x
      have b2 := LessEqual_lt h2y
      have b3 := LessEqual_lt h2z
      constructor <;> linarith
  · simp only [Vector.coord] at hv
    norm_num at hv
    refine ⟨⟨⟨lx, ly, lz⟩, ⟨rx, v, rz⟩⟩, ⟨⟨lx, v, lz⟩, ⟨rx, ry, rz⟩⟩, by simp [BBox.Split], ?_, ?_, ?_, rfl, rfl, ?_, ?_, ?_⟩
    · simp [Min, Max, hv.1, hv.2]
    · simp [Vector.coord]
    · simp [Vector.coord]
    · rintro j (rfl | rfl | rfl) hj <;> simp_all [Vector.coord]
    · rintro ⟨px, py, pz⟩ h1 h2
      simp only [BBox.Within] at h1 h2
      simp only [Vector.coord]
      norm_num
      exact le_antisymm (by tauto) (by tauto)
    · rintro ⟨px, py, pz⟩ h1 h2
      simp only [BBox.Contains, Vector.LessEqual, Vector.GreaterEqual, Bool.and_eq_true] at h1 h2
      simp only [Vector.coord, Equal_iff, abs_lt]
      norm_num
      obtain ⟨_, ⟨h1x, h1y⟩, h1z⟩ := h1
      obtain ⟨⟨⟨h2x, h2y⟩, h2z⟩, _⟩ := h2
      have a1 := GreaterEqual_gt h1x
      have a2 := GreaterEqual_gt h1y
      have a3 := GreaterEqual_gt h1z
      have b1 := LessEqual_lt h2x
      have b2 := LessEqual_lt h2y
      have b3 := LessEqual_lt h2z
      constructor <;> linarith
  · simp only [Vector.coord] at hv
    norm_num at hv
    refine ⟨⟨⟨lx, ly, lz⟩, ⟨rx, ry, v⟩⟩, ⟨⟨lx, ly, v⟩, ⟨rx, ry, rz⟩⟩, by simp [BBox.Split], ?_, ?_, ?_, rfl, rfl, ?_, ?_, ?_⟩
    · simp [Min, Max, hv.1, hv.2]
    · simp [Vector.coord]
    · simp [Vector.coord]
    · rintro j (rfl | rfl | rfl) hj <;> simp_all [Vector.coord]
    · rintro ⟨px, py, pz⟩ h1 h2
      simp only [BBox.Within] at h1 h2
      simp only [Vector.coord]
      norm_num
      exact le_antisymm (by tauto) (by tauto)
    · rintro ⟨px, py, pz⟩ h1 h2
      simp only [BBox.Contains, Vector.LessEqual, Vector.GreaterEqual, Bool.and_eq_true] at h1 h2
      simp only [Vector.coord, Equal_iff, abs_lt]
      norm_num
      obtain ⟨_, ⟨h1x, h1y⟩, h1z⟩ := h1
      obtain ⟨⟨⟨h2x, h2y⟩, h2z⟩, _⟩ := h2
      have a1 := GreaterEqual_gt h1x
      have a2 := GreaterEqual_gt h1y
      have a3 := GreaterEqual_gt h1z
      have b1 := LessEqual_lt h2x
      have b2 := LessEqual_lt h2y
      have b3 := LessEqual_lt h2z
      constructor <;> linarith

/-- C5 at a concrete input: the box `[0,2]^3` split on axis 1 at the value 1. -/
theorem BBox_Split_covers_witness :
    ∃ l r : BBox ℚ, (⟨⟨0, 0, 0⟩, ⟨2, 2, 2⟩⟩ : BBox ℚ).Split 1 1 = some (l, r) ∧
      l.Right = ⟨2, 1, 2⟩ ∧ r.Left = ⟨0, 1, 0⟩ := by
  obtain ⟨l, r, h, _⟩ := BBox_Split_covers (⟨⟨0, 0, 0⟩, ⟨2, 2, 2⟩⟩ : BBox ℚ) 1 1
    (by norm_num [BBox.Ordered]) (by decide) (by norm_num [Vector.coord])
  refine ⟨l, r, h, ?_⟩
  have h2 : (⟨⟨0, 0, 0⟩, ⟨2, 2, 2⟩⟩ : BBox ℚ).Split 1 1
      = some (⟨⟨0, 0, 0⟩, ⟨2, 1, 2⟩⟩, ⟨⟨0, 1, 0⟩, ⟨2, 2, 2⟩⟩) := by decide!
  rw [h2] at h
  injection h with h
  injection h with h1 h2
  rw [← h1, ← h2]
  exact ⟨rfl, rfl⟩

/-! ### C9: a ray aimed at the centroid of a triangle -/

theorem sqrt_unique (sqrt : K → K) (hs0 : ∀ x, 0 ≤ x → 0 ≤ sqrt x)
    (hs : ∀ x, 0 ≤ x → sqrt x * sqrt x = x) {x y : K} (hy : 0 ≤ y) (hxy : y * y = x) :
    sqrt x = y := by
  have hx : 0 ≤ x := by rw [← hxy]; exact mul_nonneg hy hy
  have h1 := hs x hx
  have h2 := hs0 x hx
  have h3 : sqrt x * sqrt x = y * y := by rw [h1, hxy]
  exact (mul_self_inj h2 hy).1 h3

theorem Vector.SqrLength_nonneg (v : Vector K) : 0 ≤ v.SqrLength := by
  unfold Vector.SqrLength
  have h1 := mul_self_nonneg v.X
  have h2 := mul_self_nonneg v.Y
  have h3 := mul_self_nonneg v.Z
  linarith

theorem Vector.eq_zero_of_SqrLength (v : Vector K) (h : v.SqrLength = 0) :
    v.X = 0 ∧ v.Y = 0 ∧ v.Z = 0 := by
  unfold Vector.SqrLength at h
  have h1 := mul_self_nonneg v.X
  have h2 := mul_self_nonneg v.Y
  have h3 := mul_self_nonneg v.Z
  refine ⟨?_, ?_, ?_⟩ <;> apply mul_self_eq_zero.1 <;> linarith

theorem centroid_dot (ps : Points3 K) (o : Vector K) :
    (ps.centroid.Sub o).Dot ((ps.p1.Sub ps.p0).Cross (ps.p2.Sub ps.p0))
      = (ps.p0.Sub o).Dot ((ps.p1.Sub ps.p0).Cross (ps.p2.Sub ps.p0)) := by
  simp only [Points3.centroid, Vector.Sub, Vector.Dot, Vector.Cross, Vector.Add, Vector.Div]
  ring

theorem centroid_cross01 (ps : Points3 K) :
    ((ps.centroid.Sub ps.p0).Cross (ps.centroid.Sub ps.p1)).SqrLength
      = ((ps.p1.Sub ps.p0).Cross (ps.p2.Sub ps.p0)).SqrLength / 9 := by
  simp only [Points3.centroid, Vector.Sub, Vector.SqrLength, Vector.Cross, Vector.Add, Vector.Div]
  ring

theorem centroid_cross12 (ps : Points3 K) :
    ((ps.centroid.Sub ps.p1).Cross (ps.centroid.Sub ps.p2)).SqrLength
      = ((ps.p1.Sub ps.p0).Cross (ps.p2.Sub ps.p0)).SqrLength / 9 := by
  simp only [Points3.centroid, Vector.Sub, Vector.SqrLength, Vector.Cross, Vector.Add, Vector.Div]
  ring

theorem centroid_cross20 (ps : Points3 K) :
    ((ps.centroid.Sub ps.p2).Cross (ps.centroid.Sub ps.p0)).SqrLength
      = ((ps.p1.Sub ps.p0).Cross (ps.p2.Sub ps.p0)).SqrLength / 9 := by
  simp only [Points3.centroid, Vector.Sub, Vector.SqrLength, Vector.Cross, Vector.Add, Vector.Div]
  ring

theorem sqrt_div_nine (sqrt : K → K) (hs0 : ∀ x, 0 ≤ x → 0 ≤ sqrt x)
    (hs : ∀ x, 0 ≤ x → sqrt x * sqrt x = x) {S : K} (hS : 0 ≤ S) :
    sqrt (S / 9) = sqrt S / 3 := by
  apply sqrt_unique sqrt hs0 hs
  · exact div_nonneg (hs0 S hS) (by norm_num)
  · have := hs S hS
    field_simp
    linear_combination 9 * this

/-- What `Triangle.Intersect` returns, with the loop over the three edges written out. -/
theorem Triangle.Intersect_eq (sqrt : K → K) (trg : Triangle K) (ray : Ray K)
    (hden : ray.Direction.Dot trg.normal ≠ 0) :
    trg.Intersect sqrt ray =
      (let coef := (trg.planeCoefficient - ray.Begin.Dot trg.normal) / ray.Direction.Dot trg.normal
       let point := ray.Begin.Add (ray.Direction.Mult coef)
       let area := 0 + ((point.Sub trg.points.p0).Cross (point.Sub trg.points.p1)).Length sqrt
         + ((point.Sub trg.points.p1).Cross (point.Sub trg.points.p2)).Length sqrt
         + ((point.Sub trg.points.p2).Cross (point.Sub trg.points.p0)).Length sqrt
       if !Equal area trg.surfaceArea || Less (area * trg.surfaceArea) 0 then ⟨false, 0⟩
       else ⟨true, coef⟩) := by
  unfold Triangle.Intersect
  rw [if_neg hden]
  rfl


theorem Vector.Norm_Dot (sqrt : K → K) (u v : Vector K) :
    (u.Norm sqrt).Dot v = u.Dot v / sqrt u.SqrLength := by
  simp only [Vector.Norm, Vector.Length, Vector.Dot]
  ring

theorem Vector.Dot_Norm (sqrt : K → K) (u v : Vector K) :
    v.Dot (u.Norm sqrt) = v.Dot u / sqrt u.SqrLength := by
  simp only [Vector.Norm, Vector.Length, Vector.Dot]
  ring

theorem Vector.Dot_comm (u v : Vector K) : u.Dot v = v.Dot u := by
  simp only [Vector.Dot]
  ring

theorem Vector.Sub_Dot (u v w : Vector K) : (u.Sub v).Dot w = u.Dot w - v.Dot w := by
  simp only [Vector.Dot, Vector.Sub]
  ring

/-- A ray from `o` along the normalised `w`, followed for the length of `w`, ends at
`o + w`. -/
theorem Vector.Add_Norm_Mult (sqrt : K → K) (o w : Vector K) (hl : sqrt w.SqrLength ≠ 0) :
    o.Add ((w.Norm sqrt).Mult (sqrt w.SqrLength)) = o.Add w := by
  simp only [Vector.Norm, Vector.Length, Vector.Add, Vector.Mult]
  rw [div_mul_cancel₀ _ hl, div_mul_cancel₀ _ hl, div_mul_cancel₀ _ hl]

theorem Vector.Add_Sub_cancel (o c : Vector K) : o.Add (c.Sub o) = c := by
  obtain ⟨cx, cy, cz⟩ := c
  simp [Vector.Add, Vector.Sub]

/-- The parameter at which the ray from `origin` to the centroid meets the plane of the
triangle is the distance between the two points. -/
theorem centroid_coef (sqrt : K → K)
    (hs : ∀ x, 0 ≤ x → sqrt x * sqrt x = x) (ps : Points3 K) (o : Vector K)
    (hs_ne : sqrt ((ps.p1.Sub ps.p0).Cross (ps.p2.Sub ps.p0)).SqrLength ≠ 0)
    (hk : (ps.p0.Sub o).Dot ((ps.p1.Sub ps.p0).Cross (ps.p2.Sub ps.p0)) ≠ 0) :
    sqrt (ps.centroid.Sub o).SqrLength ≠ 0 ∧
    ((((ps.p1.Sub ps.p0).Cross (ps.p2.Sub ps.p0)).Norm sqrt).Dot ps.p0
        - o.Dot (((ps.p1.Sub ps.p0).Cross (ps.p2.Sub ps.p0)).Norm sqrt)) /
      ((ps.centroid.Sub o).Norm sqrt).Dot (((ps.p1.Sub ps.p0).Cross (ps.p2.Sub ps.p0)).Norm sqrt)
      = sqrt (ps.centroid.Sub o).SqrLength := by
  have hl_ne : sqrt (ps.centroid.Sub o).SqrLength ≠ 0 := by
    intro h0
    have h1 := hs _ (ps.centroid.Sub o).SqrLength_nonneg
    rw [h0, mul_zero] at h1
    obtain ⟨hx, hy, hz⟩ := (ps.centroid.Sub o).eq_zero_of_SqrLength h1.symm
    apply hk
    rw [← centroid_dot]
    simp only [Vector.Dot]
    rw [hx, hy, hz]
    ring
  refine ⟨hl_ne, ?_⟩
  rw [Vector.Norm_Dot, Vector.Dot_Norm, Vector.Norm_Dot, Vector.Dot_Norm, centroid_dot,
    Vector.Sub_Dot] at *
  rw [Vector.Dot_comm _ ps.p0]
  field_simp
  ring


/-- Go `Triangle.Intersect` reports the hit `c` when the plane parameter is `c`, the point
reached is `P`, and the three sub-triangle areas at `P` add up to the stored area. -/
theorem Triangle.Intersect_hit (sqrt : K → K) (trg : Triangle K) (ray : Ray K) (c : K)
    (P : Vector K) (hden : ray.Direction.Dot trg.normal ≠ 0)
    (hc : (trg.planeCoefficient - ray.Begin.Dot trg.normal) / ray.Direction.Dot trg.normal = c)
    (hP : ray.Begin.Add (ray.Direction.Mult c) = P)
    (harea : 0 + ((P.Sub trg.points.p0).Cross (P.Sub trg.points.p1)).Length sqrt
         + ((P.Sub trg.points.p1).Cross (P.Sub trg.points.p2)).Length sqrt
         + ((P.Sub trg.points.p2).Cross (P.Sub trg.points.p0)).Length sqrt = trg.surfaceArea)
    (hnn : 0 ≤ trg.surfaceArea) : trg.Intersect sqrt ray = ⟨true, c⟩ := by
  have hE : (0 : K) < EPS := EPS_pos
  have hless : Less (trg.surfaceArea * trg.surfaceArea) 0 = false := by
    rw [← Bool.not_eq_true, Less_iff]
    have := mul_nonneg hnn hnn
    linarith
  rw [Triangle.Intersect_eq sqrt trg ray hden]
  simp only [hc, hP, harea, Equal_self, hless]
  rfl

/-- In exact arithmetic, with the exact non-negative square root, the ray
`NewRay(origin, centroid)` makes `Triangle.Intersect` report a hit for every triangle of
non-zero area built by `NewTriangle` and every origin off its plane; the coefficient is
positive and is the distance from the origin to the centroid.  The area test of
`Triangle.Intersect` is met with equality there. -/
theorem Triangle_Intersect_centroid_exact (sqrt : K → K) (hs0 : ∀ x, 0 ≤ x → 0 ≤ sqrt x)
    (hs : ∀ x, 0 ≤ x → sqrt x * sqrt x = x) (points textureCoords : Points3 K)
    (material : Material K) (origin : Vector K)
    (harea : (NewTriangle sqrt points textureCoords material).surfaceArea ≠ 0)
    (hoff : origin.Dot (NewTriangle sqrt points textureCoords material).normal ≠
      (NewTriangle sqrt points textureCoords material).planeCoefficient) :
    ((NewTriangle sqrt points textureCoords material).Intersect sqrt
        (NewRay sqrt origin points.centroid)).HasIntersection = true ∧
      ((NewTriangle sqrt points textureCoords material).Intersect sqrt
        (NewRay sqrt origin points.centroid)).IntersectionCoef
        = (points.centroid.Sub origin).Length sqrt ∧
      0 < ((NewTriangle sqrt points textureCoords material).Intersect sqrt
        (NewRay sqrt origin points.centroid)).IntersectionCoef := by
  have hS0 := ((points.p1.Sub points.p0).Cross (points.p2.Sub points.p0)).SqrLength_nonneg
  have hs_ne : sqrt ((points.p1.Sub points.p0).Cross (points.p2.Sub points.p0)).SqrLength ≠ 0 :=
    harea
  have hs_nn := hs0 _ hS0
  have hk : (points.p0.Sub origin).Dot ((points.p1.Sub points.p0).Cross
      (points.p2.Sub points.p0)) ≠ 0 := by
    intro h0
    apply hoff
    show origin.Dot (((points.p1.Sub points.p0).Cross (points.p2.Sub points.p0)).Norm sqrt)
      = (((points.p1.Sub points.p0).Cross (points.p2.Sub points.p0)).Norm sqrt).Dot points.p0
    rw [Vector.Sub_Dot] at h0
    rw [Vector.Norm_Dot, Vector.Dot_Norm, Vector.Dot_comm _ points.p0]
    congr 1
    linarith
  obtain ⟨hl_ne, hcoef⟩ := centroid_coef sqrt hs points origin hs_ne hk
  have hl_nn := hs0 _ (points.centroid.Sub origin).SqrLength_nonneg
  have hl_pos : 0 < sqrt (points.centroid.Sub origin).SqrLength :=
    lt_of_le_of_ne hl_nn (Ne.symm hl_ne)
  have hE : (0 : K) < EPS := EPS_pos
  have hres : (NewTriangle sqrt points textureCoords material).Intersect sqrt
      (NewRay sqrt origin points.centroid) = ⟨true, sqrt (points.centroid.Sub origin).SqrLength⟩ := by
    have hden : ((points.centroid.Sub origin).Norm sqrt).Dot
        (((points.p1.Sub points.p0).Cross (points.p2.Sub points.p0)).Norm sqrt) ≠ 0 := by
      intro h0
      rw [h0, div_zero] at hcoef
      exact hl_ne hcoef.symm
    apply Triangle.Intersect_hit sqrt _ _ _ points.centroid hden hcoef
    · show origin.Add (((points.centroid.Sub origin).Norm sqrt).Mult
        (sqrt (points.centroid.Sub origin).SqrLength)) = points.centroid
      rw [Vector.Add_Norm_Mult sqrt _ _ hl_ne, Vector.Add_Sub_cancel]
    · show 0 + ((points.centroid.Sub points.p0).Cross (points.centroid.Sub points.p1)).Length sqrt
          + ((points.centroid.Sub points.p1).Cross (points.centroid.Sub points.p2)).Length sqrt
          + ((points.centroid.Sub points.p2).Cross (points.centroid.Sub points.p0)).Length sqrt
          = sqrt ((points.p1.Sub points.p0).Cross (points.p2.Sub points.p0)).SqrLength
      simp only [Vector.Length, centroid_cross01, centroid_cross12, centroid_cross20,
        sqrt_div_nine sqrt hs0 hs hS0]
      ring
    · exact hs_nn
  rw [hres]
  exact ⟨rfl, rfl, hl_pos⟩

/-- The exact evaluation at a concrete input, over the reals with `Real.sqrt`: the triangle
`(0,0,0), (1,0,0), (0,1,0)` and the origin `(0,0,1)`. -/
theorem Triangle_Intersect_centroid_exact_witness :
    ((NewTriangle Real.sqrt ⟨⟨0, 0, 0⟩, ⟨1, 0, 0⟩, ⟨0, 1, 0⟩⟩ ⟨⟨0, 0, 0⟩, ⟨0, 0, 0⟩, ⟨0, 0, 0⟩⟩
        ⟨⟨1, 1, 1⟩, 0, 0, 1, MaterialType.Diffuse, 0, none⟩).Intersect Real.sqrt
      (NewRay Real.sqrt ⟨0, 0, 1⟩
        (Points3.mk (Vector.mk (0 : ℝ) 0 0) ⟨1, 0, 0⟩ ⟨0, 1, 0⟩).centroid)).HasIntersection
      = true :=
  (Triangle_Intersect_centroid_exact Real.sqrt (fun x _ => Real.sqrt_nonneg x)
    (fun x hx => Real.mul_self_sqrt hx) ⟨⟨0, 0, 0⟩, ⟨1, 0, 0⟩, ⟨0, 1, 0⟩⟩
    ⟨⟨0, 0, 0⟩, ⟨0, 0, 0⟩, ⟨0, 0, 0⟩⟩ ⟨⟨1, 1, 1⟩, 0, 0, 1, MaterialType.Diffuse, 0, none⟩
    ⟨0, 0, 1⟩
    (by simp [NewTriangle, calculateArea, Points3.get, Vector.Length, Vector.Cross, Vector.Sub,
      Vector.SqrLength])
    (by simp [NewTriangle, calculateNormal, Points3.get, Vector.Norm, Vector.Length,
      Vector.Cross, Vector.Sub, Vector.SqrLength, Vector.Dot])).1

/-- With the identity for `rnd`, the rounded `Triangle.Intersect` is the exact one. -/
theorem Rounded_Intersect_id (sqrt : K → K) (trg : Triangle K) (ray : Ray K) :
    Rounded.Intersect id sqrt trg ray = trg.Intersect sqrt ray := rfl

/-- With the identity for `rnd`, the rounded `NewTriangle` is the exact one. -/
theorem Rounded_NewTriangle_id (sqrt : K → K) (points textureCoords : Points3 K)
    (material : Material K) :
    Rounded.NewTriangle id sqrt points textureCoords material =
      NewTriangle sqrt points textureCoords material := rfl

/-- With the identity for `rnd`, the rounded `NewRay` is the exact one. -/
theorem Rounded_NewRay_id (sqrt : K → K) (begin_ end_ : Vector K) :
    Rounded.NewRay id sqrt begin_ end_ = NewRay sqrt begin_ end_ := rfl

/-- Three values of the rounding: the `float64` nearest to `1/3` is `0x3FD5555555555555`,
the rounded root of 2 is `0x3FF6A09E667F3BCD`, and the `float64` constant `EPS` is
`0x3E112E0BE826D695`, a little above `1e-9`. -/
theorem round64_values :
    round64 (1 / 3) = 6004799503160661 / 2 ^ 54 ∧
    sqrt64 2 = 6369051672525773 / 2 ^ 52 ∧
    round64 EPS = 4835703278458517 / 2 ^ 82 ∧
    (1 / 1000000000 : ℚ) < round64 EPS := by
  decide!

/-- C9, at the failing input.  For the triangle `(0,0,0), (10000,0,0), (0,10000,0)`, of
area `5e7`, and the origin `(7, 11, 13)` off its plane, the ray `NewRay(origin, centroid)`
gets no hit from `Triangle.Intersect` in `float64` arithmetic.  The stored `surfaceArea` is
`1e8` and the normal is `(0, 0, 1)`; the centroid is the `float64` nearest to
`(10000/3, 10000/3, 0)`; the denominator `direction . normal` is not zero; the point that
the ray reaches in the plane is the centroid; the three areas at that point add up to
`1e8 - 2^-26`, one unit in the last place below `1e8`; the difference `1.49e-8` is not
below `EPS = 1e-9`, so `Equal(area, surfaceArea)` fails and the first `return` is taken. -/
theorem Triangle_Intersect_centroid_rounded :
    (Rounded.NewTriangle round64 sqrt64 wideTriangle wideTriangle grayMaterial).surfaceArea
      = 100000000 ∧
    (Rounded.NewTriangle round64 sqrt64 wideTriangle wideTriangle grayMaterial).normal
      = ⟨0, 0, 1⟩ ∧
    Rounded.centroid round64 wideTriangle =
      ⟨7330077518506667 / 2199023255552, 7330077518506667 / 2199023255552, 0⟩ ∧
    Rounded.Dot round64
      (Rounded.NewRay round64 sqrt64 ⟨7, 11, 13⟩ (Rounded.centroid round64 wideTriangle)).Direction
      (Rounded.NewTriangle round64 sqrt64 wideTriangle wideTriangle grayMaterial).normal
      = -6376051066410947 / 2305843009213693952 ∧
    Rounded.point round64
      (Rounded.NewTriangle round64 sqrt64 wideTriangle wideTriangle grayMaterial)
      (Rounded.NewRay round64 sqrt64 ⟨7, 11, 13⟩ (Rounded.centroid round64 wideTriangle))
      = Rounded.centroid round64 wideTriangle ∧
    Rounded.area round64 sqrt64
      (Rounded.NewTriangle round64 sqrt64 wideTriangle wideTriangle grayMaterial)
      (Rounded.point round64
        (Rounded.NewTriangle round64 sqrt64 wideTriangle wideTriangle grayMaterial)
        (Rounded.NewRay round64 sqrt64 ⟨7, 11, 13⟩ (Rounded.centroid round64 wideTriangle)))
      = 100000000 - 1 / 67108864 ∧
    round64 EPS < 1 / 67108864 ∧
    Rounded.Intersect round64 sqrt64
      (Rounded.NewTriangle round64 sqrt64 wideTriangle wideTriangle grayMaterial)
      (Rounded.NewRay round64 sqrt64 ⟨7, 11, 13⟩ (Rounded.centroid round64 wideTriangle))
      = ⟨false, 0⟩ := by
  decide!

/-! ### C10: a ray parallel to the plane of a triangle -/

theorem XFloat.Dot_toX (v w : Vector K) : XFloat.Dot v.toX w.toX = XFloat.fin (v.Dot w) := rfl

/-- Where the denominator `direction · normal` is not zero (and `sqrt` sends non-negative
numbers to non-negative numbers), the extended evaluation of `Triangle.Intersect` is the
evaluation of the exact model. -/
theorem XFloat_Intersect_agrees (zeroNeg : Bool) (sqrt : K → K) (trg : Triangle K)
    (ray : Ray K) (hden : ray.Direction.Dot trg.normal ≠ 0) :
    XFloat.Intersect zeroNeg sqrt trg ray = (trg.Intersect sqrt ray).toX := by
  have hsq : ∀ v : Vector K, XFloat.Length sqrt v.toX = XFloat.fin (v.Length sqrt) := by
    intro v
    have h := v.SqrLength_nonneg
    unfold Vector.SqrLength at h
    simp only [XFloat.Length, XFloat.SqrLength, Vector.toX, XFloat.mul, XFloat.add, XFloat.sqrt,
      Vector.Length, Vector.SqrLength]
    rw [if_neg (not_lt.2 h)]
  have hsub : ∀ v w : Vector K, XFloat.Sub v.toX w.toX = (v.Sub w).toX := by
    intro v w
    simp only [XFloat.Sub, Vector.toX, XFloat.sub, XFloat.neg, XFloat.add, Vector.Sub,
      sub_eq_add_neg]
  have hcross : ∀ v w : Vector K, XFloat.Cross v.toX w.toX = (v.Cross w).toX := by
    intro v w
    simp only [XFloat.Cross, Vector.toX, XFloat.sub, XFloat.neg, XFloat.add, XFloat.mul,
      Vector.Cross, sub_eq_add_neg]
  have hadd : ∀ v w : Vector K, XFloat.Add v.toX w.toX = (v.Add w).toX := by
    intro v w
    simp only [XFloat.Add, Vector.toX, XFloat.add, Vector.Add]
  have hmul : ∀ (v : Vector K) (c : K), XFloat.Mult v.toX (XFloat.fin c) = (v.Mult c).toX := by
    intro v c
    simp only [XFloat.Mult, Vector.toX, XFloat.mul, Vector.Mult]
  have hdiv : ∀ a : K, XFloat.div zeroNeg (XFloat.fin a)
      (XFloat.fin (ray.Direction.Dot trg.normal)) =
      XFloat.fin (a / ray.Direction.Dot trg.normal) := by
    intro a
    simp only [XFloat.div, if_neg hden]
  have hEq : ∀ a b : K, XFloat.Equal (XFloat.fin a) (XFloat.fin b) = Equal a b := by
    intro a b
    simp only [XFloat.Equal, XFloat.sub, XFloat.neg, XFloat.add, XFloat.abs, XFloat.lt, Equal,
      sub_eq_add_neg]
  have hLess : ∀ a b : K, XFloat.Less (XFloat.fin a) (XFloat.fin b) = Less a b := by
    intro a b
    simp only [XFloat.Less, XFloat.add, XFloat.lt, Less]
  unfold XFloat.Intersect Triangle.Intersect
  simp only [List.foldl, XFloat.Dot_toX, XFloat.sub, XFloat.neg, XFloat.add, hdiv, hmul, hadd,
    hsub, hcross, hsq, XFloat.mul, hEq, hLess, ← sub_eq_add_neg]
  split_ifs <;> rfl

/-- For a direction parallel to the plane the exact `Triangle.Intersect` returns the
outcome of the extended evaluation: no hit. -/
theorem Triangle.Intersect_of_parallel (sqrt : K → K) (trg : Triangle K) (ray : Ray K)
    (hpar : ray.Direction.Dot trg.normal = 0) : trg.Intersect sqrt ray = ⟨false, 0⟩ := by
  unfold Triangle.Intersect
  rw [if_pos hpar]

theorem castRay_deep (sqrt : K → K) (scene : Scene K) (ray : Ray K) (l : XFloat K)
    (depth : Nat)
    (h : depth > MAX_RAY_TRACING_DEPTH) :
    scene.castRay sqrt ray l depth = ⟨some Intersection.zero, [], []⟩ := by
  rw [Scene.castRay]
  simp [h]

theorem RunOK_leaf {α : Type} (depth n : Nat) (v : α) (hle : depth ≤ MAX_RAY_TRACING_DEPTH) :
    RunOK depth (n + 1) (⟨v, [depth], []⟩ : Traced α) := by
  have : 1 ≤ 2 ^ n := Nat.one_le_two_pow
  refine ⟨?_, ?_, ?_⟩
  · intro q hq
    simp only [List.mem_singleton] at hq
    omega
  · intro c hc
    simp at hc
  · simp only [List.length_singleton, pow_succ]
    omega

theorem RunOK_one {α β : Type} (depth n : Nat) (v : α) (r1 : Traced β)
    (h1 : RunOK (depth + 1) n r1) (hle : depth ≤ MAX_RAY_TRACING_DEPTH) :
    RunOK depth (n + 1)
      (⟨v, depth :: r1.queried, (depth, depth + 1) :: r1.called⟩ : Traced α) := by
  obtain ⟨hq1, hc1, hn1⟩ := h1
  refine ⟨?_, ?_, ?_⟩
  · intro q hq
    simp only [List.mem_cons] at hq
    rcases hq with rfl | hq
    · omega
    · have := hq1 q hq
      omega
  · intro c hc
    simp only [List.mem_cons] at hc
    rcases hc with rfl | hc
    · simp only [true_and]
      omega
    · have := hc1 c hc
      omega
  · simp only [List.length_cons, pow_succ]
    omega

theorem RunOK_two {α β : Type} (depth n : Nat) (v : α) (r1 r2 : Traced β)
    (h1 : RunOK (depth + 1) n r1) (h2 : RunOK (depth + 1) n r2)
    (hle : depth ≤ MAX_RAY_TRACING_DEPTH) :
    RunOK depth (n + 1)
      (⟨v, depth :: (r1.queried ++ r2.queried),
        (depth, depth + 1) :: (r1.called ++ (depth, depth + 1) :: r2.called)⟩ : Traced α) := by
  obtain ⟨hq1, hc1, hn1⟩ := h1
  obtain ⟨hq2, hc2, hn2⟩ := h2
  refine ⟨?_, ?_, ?_⟩
  · intro q hq
    simp only [List.mem_cons, List.mem_append] at hq
    rcases hq with rfl | hq | hq
    · omega
    · have := hq1 q hq
      omega
    · have := hq2 q hq
      omega
  · intro c hc
    simp only [List.mem_cons, List.mem_append] at hc
    rcases hc with rfl | hc | rfl | hc
    · simp only [true_and]
      omega
    · have := hc1 c hc
      omega
    · simp only [true_and]
      omega
    · have := hc2 c hc
      omega
  · simp only [List.length_cons, List.length_append, pow_succ]
    omega

theorem castRay_RunOK (sqrt : K → K) (scene : Scene K) :
    ∀ (n depth : Nat), depth + n = MAX_RAY_TRACING_DEPTH + 1 →
      ∀ (ray : Ray K) (l : XFloat K), RunOK depth n (scene.castRay sqrt ray l depth) := by
  intro n
  induction n with
  | zero =>
    intro depth hd ray l
    rw [castRay_deep sqrt scene ray l depth (by omega)]
    simp [RunOK]
  | succ n ih =>
    intro depth hd ray l
    have hd' : depth + 1 + n = MAX_RAY_TRACING_DEPTH + 1 := by omega
    have hle : depth ≤ MAX_RAY_TRACING_DEPTH := by omega
    have ih' := ih (depth + 1) hd'
    rw [Scene.castRay]
    split
    · omega
    · split
      · exact RunOK_leaf depth n _ hle
      · split
        · exact RunOK_leaf depth n _ hle
        · split
          · exact RunOK_leaf depth n _ hle
          · split
            · exact RunOK_leaf depth n _ hle
            · dsimp only
              split
              · split
                · exact RunOK_one depth n _ _ (ih' _ _) hle
                · exact RunOK_one depth n _ _ (ih' _ _) hle
              · split
                · exact RunOK_one depth n _ _ (ih' _ _) hle
                · split
                  · exact RunOK_two depth n _ _ _ (ih' _ _) (ih' _ _) hle
                  · exact RunOK_two depth n _ _ _ (ih' _ _) (ih' _ _) hle
              · exact RunOK_leaf depth n _ hle
              · split
                · exact RunOK_one depth n _ _ (ih' _ _) hle
                · exact RunOK_one depth n _ _ (ih' _ _) hle
theorem IsAnswer_mono {ray : Ray K} {objs objs' : List (IGeometryObject K)} {r : Intersection K}
    (h : IsAnswer ray objs r) (hsub : ∀ o ∈ objs, o ∈ objs') : IsAnswer ray objs' r := by
  rcases h with h | ⟨obj, hm, h⟩
  · exact Or.inl h
  · exact Or.inr ⟨obj, hsub obj hm, h⟩

theorem scan_foldl_IsAnswer (ray : Ray K) (objs : List (IGeometryObject K)) :
    ∀ (pre : List (IGeometryObject K)) (st : ScanState K),
      IsAnswer ray pre st.intersection ∧ st.currentCoef ≤ MaxFloat64 →
      IsAnswer ray (pre ++ objs) (objs.foldl (scanStep ray) st).intersection ∧
        (objs.foldl (scanStep ray) st).currentCoef ≤ MaxFloat64 := by
  have hE : (0 : K) < EPS := EPS_pos
  induction objs with
  | nil => intro pre st h; simpa using h
  | cons o rest ih =>
    intro pre st h
    have h' : IsAnswer ray (pre ++ [o]) (scanStep ray st o).intersection ∧
        (scanStep ray st o).currentCoef ≤ MaxFloat64 := by
      unfold scanStep
      dsimp only
      split
      · rename_i hc
        simp only [Bool.and_eq_true] at hc
        have hlt := (Less_iff _ _).1 hc.1.2
        have hmax : Less (o.Intersect ray).IntersectionCoef (MaxFloat64 : K) = true := by
          rw [Less_iff]
          linarith [h.2]
        exact ⟨Or.inr ⟨o, by simp, ⟨hc.1.1, hc.2, hmax⟩, rfl⟩, by linarith [h.2]⟩
      · exact ⟨IsAnswer_mono h.1 (by intro x hx; simp [hx]), h.2⟩
    have := ih (pre ++ [o]) (scanStep ray st o) h'
    simpa using this

theorem scanObjects_IsAnswer (ray : Ray K) (objs : List (IGeometryObject K)) :
    IsAnswer ray objs (scanObjects ray objs) := by
  have := (scan_foldl_IsAnswer ray objs [] ⟨Intersection.zero, MaxFloat64⟩
    ⟨Or.inl rfl, le_refl _⟩).1
  simpa [scanObjects] using this

/-- An answer of `findIntersection` is no hit or the hit on an object of a visited leaf. -/
theorem findIntersection_IsAnswer (sqrt : K → K) (ray : Ray K) :
    ∀ (node : KDTreeNode K) (r : Intersection K), findIntersection sqrt node ray = some r →
      IsAnswer ray (node.visited sqrt ray) r := by
  intro node
  induction node with
  | nil => intro r h; simp [findIntersection] at h
  | node left right bbox sp n objs ihl ihr =>
    intro r h
    unfold findIntersection at h
    unfold KDTreeNode.visited
    split at h
    · injection h with h
      exact Or.inl h.symm
    · rename_i hc
      rw [if_neg hc]
      split at h
      · rename_i hlen
        rw [if_pos hlen]
        injection h with h
        rw [← h]
        exact scanObjects_IsAnswer ray objs
      · rename_i hlen
        rw [if_neg hlen]
        split at h
        · rename_i l' r' hl hr
          have al' : IsAnswer ray (left.visited sqrt ray ++ right.visited sqrt ray) l' :=
            IsAnswer_mono (ihl l' hl) (by intro x hx; simp [hx])
          have ar' : IsAnswer ray (left.visited sqrt ray ++ right.visited sqrt ray) r' :=
            IsAnswer_mono (ihr r' hr) (by intro x hx; simp [hx])
          split at h
          · split at h <;> injection h with h <;> rw [← h] <;> assumption
          · injection h with h
            rw [← h]
            exact ar'
        · simp at h

theorem visited_subset (sqrt : K → K) (ray : Ray K) :
    ∀ (node : KDTreeNode K), ∀ o ∈ node.visited sqrt ray, o ∈ node.leafObjects := by
  intro node
  induction node with
  | nil => intro o ho; simp [KDTreeNode.visited] at ho
  | node left right bbox sp n objs ihl ihr =>
    intro o ho
    unfold KDTreeNode.visited at ho
    simp only [KDTreeNode.leafObjects, List.mem_append]
    split at ho
    · simp at ho
    · split at ho
      · exact Or.inl ho
      · rcases List.mem_append.1 ho with ho | ho
        · exact Or.inr (Or.inl (ihl o ho))
        · exact Or.inr (Or.inr (ihr o ho))

theorem findIntersection_some (sqrt : K → K) (ray : Ray K) :
    ∀ (node : KDTreeNode K), node.Sound → ∃ r, findIntersection sqrt node ray = some r := by
  intro node
  induction node with
  | nil => intro h; exact h.elim
  | node left right bbox sp n objs ihl ihr =>
    intro h
    unfold findIntersection
    split
    · exact ⟨_, rfl⟩
    · rename_i hc
      split
      · exact ⟨_, rfl⟩
      · rename_i hobjs
        have hn : n ≠ 0 := by
          intro h0
          apply hc
          simp [h0]
        have ho : objs = [] := by
          cases objs with
          | nil => rfl
          | cons a b => simp at hobjs
        obtain ⟨hl, hr⟩ := h hn ho
        obtain ⟨l', hl'⟩ := ihl hl
        obtain ⟨r', hr'⟩ := ihr hr
        rw [hl', hr']
        dsimp only
        split
        · split <;> exact ⟨_, rfl⟩
        · exact ⟨_, rfl⟩

theorem CastRay_eq_findIntersection (sqrt : K → K) (tree : KDTree K) (ray : Ray K) :
    tree.CastRay sqrt ray = findIntersection sqrt tree.root ray := by
  unfold KDTree.CastRay
  split
  · rename_i hroot
    rw [hroot]
    rfl
  · rename_i l rt b sp n objs hroot
    rw [hroot]
    split
    · rename_i hc
      unfold findIntersection
      rw [if_pos (by simp only [Bool.or_eq_true]; exact Or.inr hc)]
    · rfl

theorem CastRay_IsAnswer (sqrt : K → K) (tree : KDTree K) (ray : Ray K) (r : Intersection K)
    (h : tree.CastRay sqrt ray = some r) : IsAnswer ray (tree.root.visited sqrt ray) r := by
  rw [CastRay_eq_findIntersection] at h
  exact findIntersection_IsAnswer sqrt ray _ r h

theorem CastRay_some (sqrt : K → K) (tree : KDTree K) (ray : Ray K) (h : tree.root.Sound) :
    ∃ r, tree.CastRay sqrt ray = some r := by
  rw [CastRay_eq_findIntersection]
  exact findIntersection_some sqrt ray _ h

theorem castRayKD_some (sqrt : K → K) (scene : Scene K) (ray : Ray K)
    (h : scene.KDTree.root.Sound) : ∃ r, scene.castRayKD sqrt ray = some r :=
  CastRay_some sqrt scene.KDTree _ h

theorem XFloat.Tally_max (c : XFloat K) : (XFloat.max c (XFloat.fin 0)).Tally := by
  cases c <;> simp [XFloat.max, XFloat.Tally]

theorem XFloat.Tally_add {x y : XFloat K} (hx : x.Tally) (hy : y.Tally) : (x.add y).Tally := by
  cases x <;> cases y <;> simp_all [XFloat.add, XFloat.Tally]
  exact add_nonneg hx hy

theorem lightStep_Tally (sqrt : K → K) (scene : Scene K) (point : Vector K)
    (object : IGeometryObject K) (acc : Option (XFloat K)) (light : Light K)
    (hacc : ∀ x, acc = some x → x.Tally) :
    ∀ y, lightStep sqrt scene point object acc light = some y → y.Tally := by
  intro y hy
  unfold lightStep at hy
  split at hy
  · simp at hy
  · rename_i x
    have hx := hacc x rfl
    dsimp only at hy
    split at hy
    · simp at hy
    · split at hy
      · injection hy with hy
        rw [← hy]
        exact XFloat.Tally_add hx (XFloat.Tally_max _)
      · injection hy with hy
        rw [← hy]
        exact hx

theorem lightStep_some (sqrt : K → K) (scene : Scene K) (point : Vector K)
    (object : IGeometryObject K) (x : XFloat K) (light : Light K) (h : scene.KDTree.root.Sound) :
    ∃ y, lightStep sqrt scene point object (some x) light = some y := by
  obtain ⟨r, hr⟩ := castRayKD_some sqrt scene (NewRay sqrt point light.Position) h
  unfold lightStep
  dsimp only
  rw [hr]
  dsimp only
  split <;> exact ⟨_, rfl⟩

theorem lights_foldl (sqrt : K → K) (scene : Scene K) (point : Vector K)
    (object : IGeometryObject K) (lights : List (Light K)) :
    ∀ acc : Option (XFloat K), (∀ x, acc = some x → x.Tally) →
      (∀ y, lights.foldl (lightStep sqrt scene point object) acc = some y → y.Tally) ∧
      (scene.KDTree.root.Sound → (∃ x, acc = some x) →
        ∃ y, lights.foldl (lightStep sqrt scene point object) acc = some y) := by
  induction lights with
  | nil =>
    intro acc hacc
    exact ⟨fun y hy => hacc y hy, fun _ hx => hx⟩
  | cons light rest ih =>
    intro acc hacc
    have h1 := ih (lightStep sqrt scene point object acc light)
      (lightStep_Tally sqrt scene point object acc light hacc)
    refine ⟨h1.1, ?_⟩
    rintro hs ⟨x, rfl⟩
    exact h1.2 hs (lightStep_some sqrt scene point object x light hs)

/-- The clamp `math.Min(sum + 0.2, 1.0)` of a sum: a number between 0.2 and 1, or NaN. -/
theorem XFloat.min_Tally {x : XFloat K} (hx : x.Tally) :
    XFloat.min (x.add (XFloat.fin 0.2)) (XFloat.fin 1) = XFloat.nan ∨
      ∃ g : K, XFloat.min (x.add (XFloat.fin 0.2)) (XFloat.fin 1) = XFloat.fin g ∧
        0.2 ≤ g ∧ g ≤ 1 := by
  cases x with
  | fin a =>
    right
    refine ⟨Min.min (a + 0.2) 1, rfl, le_min ?_ (by norm_num), min_le_right _ _⟩
    have : (0 : K) ≤ a := hx
    linarith
  | pinf =>
    right
    exact ⟨1, rfl, by norm_num, le_refl _⟩
  | ninf => exact absurd hx (by simp [XFloat.Tally])
  | nan =>
    left
    rfl

/-- Go `getLightIntensity` returns a number between 0.2 and 1, or NaN. -/
theorem getLightIntensity_range (sqrt : K → K) (scene : Scene K) (point : Vector K)
    (object : IGeometryObject K) (r : XFloat K)
    (h : scene.getLightIntensity sqrt point object = some r) :
    r = XFloat.nan ∨ ∃ g : K, r = XFloat.fin g ∧ 0.2 ≤ g ∧ g ≤ 1 := by
  unfold Scene.getLightIntensity at h
  split at h
  · simp at h
  · rename_i x hx
    have h0 := (lights_foldl sqrt scene point object scene.Lights (some (XFloat.fin 0))
      (by intro x hx; injection hx with hx; rw [← hx]; exact le_refl (0 : K))).1 x hx
    injection h with h
    rw [← h]
    exact XFloat.min_Tally h0

theorem getLightIntensity_some (sqrt : K → K) (scene : Scene K) (point : Vector K)
    (object : IGeometryObject K) (h : scene.KDTree.root.Sound) :
    ∃ g, scene.getLightIntensity sqrt point object = some g := by
  obtain ⟨y, hy⟩ := (lights_foldl sqrt scene point object scene.Lights (some (XFloat.fin 0))
      (by intro x hx; injection hx with hx; rw [← hx]; exact le_refl (0 : K))).2 h ⟨_, rfl⟩
  unfold Scene.getLightIntensity
  rw [hy]
  exact ⟨_, rfl⟩

/-- C6.  The evaluation of `traceRay` ends, whatever the scene: every nested call of
`castRay` is made with its caller's depth plus one, a call with `depth > 10` returns no hit
without querying the scene or calling `castRay`, no query of the scene happens at a depth
above 10, and one `traceRay` makes fewer than `2^11` queries. -/
theorem traceRay_depth_bounded (sqrt : K → K) (scene : Scene K) (ray : Ray K) :
    (∀ c ∈ (scene.traceRay sqrt ray).called, c.2 = c.1 + 1) ∧
    (∀ (ray' : Ray K) (l : XFloat K) (depth : Nat), depth > 10 →
      scene.castRay sqrt ray' l depth = ⟨some Intersection.zero, [], []⟩) ∧
    (∀ q ∈ (scene.traceRay sqrt ray).queried, q ≤ 10) ∧
    (scene.traceRay sqrt ray).queried.length < 2 ^ 11 := by
  have h := castRay_RunOK sqrt scene 11 0 rfl ray (XFloat.fin 0)
  have hq : (scene.traceRay sqrt ray).queried =
      (scene.castRay sqrt ray (XFloat.fin 0) 0).queried := by
    unfold Scene.traceRay
    dsimp only
    split
    · rfl
    · split <;> rfl
  have hc : (scene.traceRay sqrt ray).called =
      (scene.castRay sqrt ray (XFloat.fin 0) 0).called := by
    unfold Scene.traceRay
    dsimp only
    split
    · rfl
    · split <;> rfl
  rw [hq, hc]
  obtain ⟨h1, h2, h3⟩ := h
  refine ⟨fun c hc => (h2 c hc).1, fun ray' l depth hd => castRay_deep sqrt scene ray' l depth hd,
    fun q hq => (h1 q hq).2, ?_⟩
  omega

theorem leafScene_Sound : leafScene.KDTree.root.Sound := by
  intro _ h
  cases h

/-- Scaling a colour of channels in `[0,1]` by the clamped light and normalising it twice
gives the scaled colour: the clamped light is a number of `[0,1]` or NaN. -/
theorem Normalize_Mult_of_range (c : Color K) (m : XFloat K)
    (hc : (0 ≤ c.R ∧ c.R ≤ 1) ∧ (0 ≤ c.G ∧ c.G ≤ 1) ∧ (0 ≤ c.B ∧ c.B ≤ 1))
    (hm : m = XFloat.nan ∨ ∃ v : K, m = XFloat.fin v ∧ 0 ≤ v ∧ v ≤ 1) :
    (c.toX.Mult m).Normalize = c.toX.Mult m := by
  obtain ⟨⟨r0, r1⟩, ⟨g0, g1⟩, ⟨b0, b1⟩⟩ := hc
  rcases hm with rfl | ⟨v, rfl, m0, m1⟩
  · rfl
  · simp only [Color.Normalize, Color.Mult, Color.toX, XFloat.mul, XFloat.abs, XFloat.min]
    rw [abs_of_nonneg (mul_nonneg r0 m0), abs_of_nonneg (mul_nonneg g0 m0),
      abs_of_nonneg (mul_nonneg b0 m0), min_eq_left (mul_le_one₀ r1 m0 m1),
      min_eq_left (mul_le_one₀ g1 m0 m1), min_eq_left (mul_le_one₀ b1 m0 m1)]

theorem min_one_intensity {g : XFloat K}
    (hg : g = XFloat.nan ∨ ∃ v : K, g = XFloat.fin v ∧ 0.2 ≤ v ∧ v ≤ 1) :
    XFloat.min (XFloat.fin 1) (g.add (XFloat.fin 0)) = XFloat.min (XFloat.fin 1) g ∧
    (XFloat.min (XFloat.fin 1) g = XFloat.nan ∨
      ∃ v : K, XFloat.min (XFloat.fin 1) g = XFloat.fin v ∧ 0 ≤ v ∧ v ≤ 1) := by
  rcases hg with rfl | ⟨v, rfl, h0, h1⟩
  · exact ⟨rfl, Or.inl rfl⟩
  · refine ⟨?_, Or.inr ⟨Min.min 1 v, rfl, le_min zero_le_one ?_, min_le_left _ _⟩⟩
    · simp only [XFloat.add, add_zero]
    · linarith [show (0 : K) ≤ 0.2 by norm_num]

/-- C8.  In a scene whose tree can be traversed, the scene query of a primary ray returns
an answer `r`.  If `r` is no hit, `traceRay` returns exactly `(0.2, 0.2, 0.2)`.  If `r` is a
hit on an object whose material is `Diffuse` with colour channels in `[0,1]`, `traceRay`
returns the material colour multiplied by `min(1, getLightIntensity(hit point, object))`,
after the single scene query of depth 0 and without any nested `castRay`. -/
theorem traceRay_background_diffuse (sqrt : K → K) (scene : Scene K) (ray : Ray K)
    (hs : scene.KDTree.root.Sound) :
    ∃ r : Intersection K, scene.castRayKD sqrt ray = some r ∧
      (r.Coefficient.HasIntersection = false →
        (scene.traceRay sqrt ray).value =
          some ⟨XFloat.fin 0.2, XFloat.fin 0.2, XFloat.fin 0.2⟩) ∧
      (∀ obj : IGeometryObject K, r.Coefficient.HasIntersection = true → r.Object = some obj →
        obj.GetMaterial.MaterialType = MaterialType.Diffuse →
        (0 ≤ obj.GetMaterial.Color.R ∧ obj.GetMaterial.Color.R ≤ 1) ∧
          (0 ≤ obj.GetMaterial.Color.G ∧ obj.GetMaterial.Color.G ≤ 1) ∧
          (0 ≤ obj.GetMaterial.Color.B ∧ obj.GetMaterial.Color.B ≤ 1) →
        ∃ g : XFloat K, scene.getLightIntensity sqrt r.Point obj = some g ∧
          scene.traceRay sqrt ray =
            ⟨some (obj.GetMaterial.Color.toX.Mult (XFloat.min (XFloat.fin 1) g)), [0], []⟩) := by
  obtain ⟨r, hr⟩ := castRayKD_some sqrt scene ray hs
  refine ⟨r, hr, ?_, ?_⟩
  · intro hmiss
    unfold Scene.traceRay
    rw [Scene.castRay]
    simp [MAX_RAY_TRACING_DEPTH, hr, hmiss]
  · intro obj hhit hobj hdiff hcol
    obtain ⟨g, hg⟩ := getLightIntensity_some sqrt scene r.Point obj hs
    obtain ⟨he, hm⟩ := min_one_intensity (getLightIntensity_range sqrt scene r.Point obj g hg)
    have hN := Normalize_Mult_of_range obj.GetMaterial.Color (XFloat.min (XFloat.fin 1) g)
      hcol hm
    refine ⟨g, hg, ?_⟩
    unfold Scene.traceRay
    rw [Scene.castRay]
    simp [MAX_RAY_TRACING_DEPTH, hr, hhit, hobj, hg, hdiff, he, hN]

/-- C8 at a concrete input: the one-triangle scene and the ray from `(1, 1/4, 1/4)` along
`(-1, 0, 0)`, which hits the (diffuse) triangle. -/
theorem traceRay_background_diffuse_witness :
    ∃ r : Intersection ℚ,
      leafScene.castRayKD qsqrt ⟨⟨1, 1 / 4, 1 / 4⟩, ⟨-1, 0, 0⟩⟩ = some r ∧
      r.hitCoef = some (99999 / 100000) := by
  obtain ⟨r, hr, _, _⟩ :=
    traceRay_background_diffuse qsqrt leafScene ⟨⟨1, 1 / 4, 1 / 4⟩, ⟨-1, 0, 0⟩⟩ leafScene_Sound
  refine ⟨r, hr, ?_⟩
  have h2 : (leafScene.castRayKD qsqrt ⟨⟨1, 1 / 4, 1 / 4⟩, ⟨-1, 0, 0⟩⟩).map
      Intersection.hitCoef = some (some (99999 / 100000)) := by decide!
  rw [hr] at h2
  simpa using h2

/-! ### the build and the nearest hit -/

theorem classify_subset (split : BBoxSplit K) :
    ∀ (objects : List (IGeometryObject K)) (parts : List (IGeometryObject K) ×
      List (IGeometryObject K)), classify objects split = some parts →
      (∀ o ∈ parts.1, o ∈ objects) ∧ (∀ o ∈ parts.2, o ∈ objects) := by
  intro objects
  induction objects with
  | nil =>
    intro parts h
    simp only [classify, Option.some.injEq] at h
    rw [← h]
    simp
  | cons obj rest ih =>
    intro parts h
    unfold classify at h
    dsimp only at h
    split at h
    · rename_i mn mx parts' _ _ hrest
      obtain ⟨h1, h2⟩ := ih parts' hrest
      injection h with h
      rw [← h]
      constructor
      · intro o ho
        dsimp only at ho
        split at ho
        · rcases List.mem_cons.1 ho with rfl | ho
          · exact List.mem_cons_self _ _
          · exact List.mem_cons_of_mem _ (h1 o ho)
        · exact List.mem_cons_of_mem _ (h1 o ho)
      · intro o ho
        dsimp only at ho
        split at ho
        · rcases List.mem_cons.1 ho with rfl | ho
          · exact List.mem_cons_self _ _
          · exact List.mem_cons_of_mem _ (h2 o ho)
        · exact List.mem_cons_of_mem _ (h2 o ho)
    · simp at h

/-- Every tree that the build returns can be traversed without reading through a nil
child, and holds input objects only. -/
theorem recBuild_Sound_subset :
    ∀ (depthBound : Nat) (objects : List (IGeometryObject K)) (bbox : BBox K)
      (node : KDTreeNode K), recBuild depthBound objects bbox = some node →
      node.Sound ∧ ∀ o ∈ node.leafObjects, o ∈ objects := by
  intro depthBound
  induction depthBound with
  | zero => intro objects bbox node h; simp [recBuild] at h
  | succ n ih =>
    intro objects bbox node h
    unfold recBuild at h
    split at h
    · simp at h
    · split at h
      · injection h with h
        rw [← h]
        constructor
        · intro hn ho
          rw [ho] at hn
          simp at hn
        · intro o ho
          simpa [KDTreeNode.leafObjects] using ho
      · split at h
        · rename_i boxes parts _ hcl
          obtain ⟨hp1, hp2⟩ := classify_subset _ objects parts hcl
          split at h
          · rename_i left right hl hr
            obtain ⟨sl, subl⟩ := ih _ _ _ hl
            obtain ⟨sr, subr⟩ := ih _ _ _ hr
            injection h with h
            rw [← h]
            constructor
            · intro _ _
              exact ⟨sl, sr⟩
            · intro o ho
              simp only [KDTreeNode.leafObjects, List.nil_append, List.mem_append] at ho
              rcases ho with ho | ho
              · exact hp1 o (subl o ho)
              · exact hp2 o (subr o ho)
          · simp at h
        · simp at h

/-- Every tree that `BuildTree` returns can be traversed, and its leaves hold input
objects only. -/
theorem BuildTree_Sound_subset (depthBound : Nat) (objects : List (IGeometryObject K))
    (tree : KDTree K) (hb : BuildTree depthBound objects = some tree) :
    tree.root.Sound ∧ ∀ o ∈ tree.root.leafObjects, o ∈ objects := by
  unfold BuildTree at hb
  split at hb
  · simp at hb
  · rename_i bbox _
    split at hb
    · simp at hb
    · rename_i root hroot
      injection hb with hb
      rw [← hb]
      exact recBuild_Sound_subset depthBound objects bbox root hroot

theorem BBox.SurfaceArea_nonneg (B : BBox K) : 0 ≤ B.SurfaceArea := by
  simp only [BBox.SurfaceArea, Vector.Dot, Vector.Sub]
  have h1 := mul_self_nonneg (B.Right.X - B.Left.X)
  have h2 := mul_self_nonneg (B.Right.Y - B.Left.Y)
  have h3 := mul_self_nonneg (B.Right.Z - B.Left.Z)
  linarith

theorem sq_min_sub_le (l r : K) :
    (min l r - l) * (min l r - l) ≤ (r - l) * (r - l) ∧
    (r - min l r) * (r - min l r) ≤ (r - l) * (r - l) := by
  rcases le_total l r with h | h
  · rw [min_eq_left h]
    constructor
    · nlinarith [mul_self_nonneg (r - l)]
    · exact le_refl _
  · rw [min_eq_right h]
    constructor
    · exact le_refl _
    · nlinarith [mul_self_nonneg (r - l)]

/-- Splitting a box at its own minimum on an axis gives two boxes whose `SurfaceArea` is at
most that of the box. -/
theorem Split_GetMin_area (B : BBox K) (dim : Int) (hdim : dim = 0 ∨ dim = 1 ∨ dim = 2) :
    ∃ (mn mx : K) (boxes : BBox K × BBox K), B.GetMin dim = some mn ∧ B.GetMax dim = some mx ∧
      mn ≤ mx ∧ B.Split dim mn = some boxes ∧
      boxes.1.SurfaceArea ≤ B.SurfaceArea ∧ boxes.2.SurfaceArea ≤ B.SurfaceArea := by
  obtain ⟨⟨lx, ly, lz⟩, ⟨rx, ry, rz⟩⟩ := B
  rcases hdim with rfl | rfl | rfl
  · refine ⟨min lx rx, max lx rx,
      (⟨⟨lx, ly, lz⟩, ⟨min lx rx, ry, rz⟩⟩, ⟨⟨min lx rx, ly, lz⟩, ⟨rx, ry, rz⟩⟩), by simp [BBox.GetMin], by simp [BBox.GetMax],
      min_le_max, by simp [BBox.Split], ?_, ?_⟩
    · simp only [BBox.SurfaceArea, Vector.Dot, Vector.Sub]
      have := (sq_min_sub_le lx rx).1
      linarith
    · simp only [BBox.SurfaceArea, Vector.Dot, Vector.Sub]
      have := (sq_min_sub_le lx rx).2
      linarith
  · refine ⟨min ly ry, max ly ry,
      (⟨⟨lx, ly, lz⟩, ⟨rx, min ly ry, rz⟩⟩, ⟨⟨lx, min ly ry, lz⟩, ⟨rx, ry, rz⟩⟩), by simp [BBox.GetMin], by simp [BBox.GetMax],
      min_le_max, by simp [BBox.Split], ?_, ?_⟩
    · simp only [BBox.SurfaceArea, Vector.Dot, Vector.Sub]
      have := (sq_min_sub_le ly ry).1
      linarith
    · simp only [BBox.SurfaceArea, Vector.Dot, Vector.Sub]
      have := (sq_min_sub_le ly ry).2
      linarith
  · refine ⟨min lz rz, max lz rz,
      (⟨⟨lx, ly, lz⟩, ⟨rx, ry, min lz rz⟩⟩, ⟨⟨lx, ly, min lz rz⟩, ⟨rx, ry, rz⟩⟩), by simp [BBox.GetMin], by simp [BBox.GetMax],
      min_le_max, by simp [BBox.Split], ?_, ?_⟩
    · simp only [BBox.SurfaceArea, Vector.Dot, Vector.Sub]
      have := (sq_min_sub_le lz rz).1
      linarith
    · simp only [BBox.SurfaceArea, Vector.Dot, Vector.Sub]
      have := (sq_min_sub_le lz rz).2
      linarith

theorem three_lt_MaxFloat64 : (3 : K) + EPS < MaxFloat64 := by
  have h1 : (EPS : K) < 1 := by
    unfold EPS
    rw [div_lt_one (by norm_num)]
    norm_num
  have h2 : (4 : K) ≤ MaxFloat64 := by
    unfold MaxFloat64
    have : (4 : ℕ) ≤ 2 ^ 1024 - 2 ^ 971 := by norm_num
    exact_mod_cast this
  linarith

theorem XFloat.div_fin (zeroNeg : Bool) (a : K) {b : K} (hb : b ≠ 0) :
    XFloat.div zeroNeg (XFloat.fin a) (XFloat.fin b) = XFloat.fin (a / b) := by
  simp only [XFloat.div, if_neg hb]

theorem XFloat.Equal_fin (a b : K) :
    XFloat.Equal (XFloat.fin a) (XFloat.fin b) = RayTracing.Equal a b := by
  simp only [XFloat.Equal, XFloat.sub, XFloat.neg, XFloat.add, XFloat.abs, XFloat.lt,
    RayTracing.Equal, sub_eq_add_neg]

theorem XFloat.Less_fin (a b : K) :
    XFloat.Less (XFloat.fin a) (XFloat.fin b) = RayTracing.Less a b := by
  simp only [XFloat.Less, XFloat.add, XFloat.lt, RayTracing.Less]

theorem XFloat.GreaterEqual_fin (a b : K) :
    XFloat.GreaterEqual (XFloat.fin a) (XFloat.fin b) = RayTracing.GreaterEqual a b := by
  simp only [XFloat.GreaterEqual, XFloat.Greater, XFloat.Equal, XFloat.sub, XFloat.neg,
    XFloat.add, XFloat.abs, XFloat.lt, RayTracing.GreaterEqual, RayTracing.Greater,
    RayTracing.Equal, sub_eq_add_neg, gt_iff_lt]

/-- The cost of the only candidate plane of a single object, on one axis: finite, between 2
and 3. -/
theorem surfaceAreaHeuristic_single (B : BBox K) (dim : Int) (mn : K) (boxes : BBox K × BBox K)
    (harea : B.SurfaceArea ≠ 0) (hs : B.Split dim mn = some boxes)
    (h1 : boxes.1.SurfaceArea ≤ B.SurfaceArea) (h2 : boxes.2.SurfaceArea ≤ B.SurfaceArea)
    (m r : Int) (hmr : (m = 1 ∧ r = 0) ∨ (m = 0 ∧ r = 1)) :
    ∃ c : K, surfaceAreaHeuristic mn dim B 0 m r = some (XFloat.fin c) ∧ 2 ≤ c ∧ c ≤ 3 := by
  have hE : (0 : K) < EPS := EPS_pos
  have hE1 : (EPS : K) < 1 := by
    unfold EPS
    rw [div_lt_one (by norm_num)]
    norm_num
  have hpos : 0 < B.SurfaceArea := lt_of_le_of_ne B.SurfaceArea_nonneg (Ne.symm harea)
  have pl0 : 0 ≤ boxes.1.SurfaceArea / B.SurfaceArea :=
    div_nonneg boxes.1.SurfaceArea_nonneg hpos.le
  have pr0 : 0 ≤ boxes.2.SurfaceArea / B.SurfaceArea :=
    div_nonneg boxes.2.SurfaceArea_nonneg hpos.le
  have pl1 : boxes.1.SurfaceArea / B.SurfaceArea ≤ 1 := (div_le_one hpos).2 h1
  have pr1 : boxes.2.SurfaceArea / B.SurfaceArea ≤ 1 := (div_le_one hpos).2 h2
  unfold surfaceAreaHeuristic
  rw [hs]
  dsimp only
  rw [XFloat.div_fin false _ harea, XFloat.div_fin false _ harea]
  have hne : ∀ x : K, 2 ≤ x → Equal x 0 = false := by
    intro x hx
    rw [← Bool.not_eq_true, Equal_iff, sub_zero, abs_of_nonneg (by linarith), not_lt]
    linarith
  rcases hmr with ⟨rfl, rfl⟩ | ⟨rfl, rfl⟩
  · simp only [costFunction, XFloat.mul, XFloat.add, XFloat.Equal_fin, TRAVERSAL_COEF,
      INTERSECTION_COEF, Int.cast_zero, Int.cast_one, zero_add, add_zero, mul_zero, mul_one,
      one_mul]
    rw [hne _ (by linarith), hne _ (by linarith)]
    simp only [Bool.or_self, Bool.false_eq_true, if_false, XFloat.max]
    refine ⟨_, rfl, le_max_of_le_left (by linarith), max_le (by linarith) (by linarith)⟩
  · simp only [costFunction, XFloat.mul, XFloat.add, XFloat.Equal_fin, TRAVERSAL_COEF,
      INTERSECTION_COEF, Int.cast_zero, Int.cast_one, zero_add, add_zero, mul_zero, mul_one,
      one_mul]
    rw [hne _ (by linarith)]
    simp only [Bool.or_self, Bool.false_eq_true, if_false, XFloat.max]
    refine ⟨_, rfl, le_max_of_le_left (by linarith), max_le (by linarith) (by linarith)⟩

theorem Equal_comm (a b : K) : Equal a b = Equal b a := by
  simp only [Equal, abs_sub_comm]

/-- One axis of `findPlane` for a single object: one candidate plane, of finite cost between
2 and 3, which replaces the best plane so far when its cost is `Less`. -/
theorem findPlaneDim_single (obj : IGeometryObject K) (dim : Int)
    (hdim : dim = 0 ∨ dim = 1 ∨ dim = 2) (harea : obj.GetBoundingBox.SurfaceArea ≠ 0)
    (st : SweepState K) :
    ∃ v c : K, 2 ≤ c ∧ c ≤ 3 ∧ findPlaneDim [obj] obj.GetBoundingBox dim st =
      some (if XFloat.Less (XFloat.fin c) st.minCost then
        ⟨⟨v, dim, XFloat.fin c⟩, XFloat.fin c⟩ else st) := by
  have hE : (0 : K) < EPS := EPS_pos
  obtain ⟨mn, mx, boxes, hmin, hmax, hle, hsplit, h1, h2⟩ :=
    Split_GetMin_area obj.GetBoundingBox dim hdim
  by_cases heq : Equal mn mx = true
  · obtain ⟨c, hc, c2, c3⟩ := surfaceAreaHeuristic_single obj.GetBoundingBox dim mn boxes harea
      hsplit h1 h2 1 0 (Or.inl ⟨rfl, rfl⟩)
    refine ⟨mn, c, c2, c3, ?_⟩
    simp only [findPlaneDim, collectEvents, hmin, hmax, heq, if_true, sortSlice, List.foldl,
      insertBack, List.reverse_cons, List.reverse_nil, List.nil_append, List.length_singleton,
      sweep, Nat.lt_one_iff, List.get?_cons_zero, List.drop_zero, scanGroup, Equal_self,
      zero_add, Nat.cast_one, add_zero, sub_self, hc]
  · have hless : Less mx mn = false := by
      rw [← Bool.not_eq_true, Less_iff, not_lt]
      linarith
    have heq' : Equal mx mn = false := by
      rw [Equal_comm]
      simpa using heq
    have hne : Equal mn mx = false := by simpa using heq
    obtain ⟨c, hc, c2, c3⟩ := surfaceAreaHeuristic_single obj.GetBoundingBox dim mn boxes harea
      hsplit h1 h2 0 1 (Or.inr ⟨rfl, rfl⟩)
    refine ⟨mn, c, c2, c3, ?_⟩
    simp only [findPlaneDim, collectEvents, hmin, hmax, hne, sortSlice, List.foldl,
      insertBack, eventLess, hless, heq', List.reverse_cons, List.reverse_nil, List.nil_append,
      List.length_singleton, sweep, Nat.lt_one_iff, List.get?_cons_zero, List.drop_zero,
      scanGroup, Equal_self, zero_add, Nat.cast_one, add_zero, sub_zero, hc, Bool.false_and,
      Bool.or_self, Bool.false_eq_true, if_false, List.singleton_append, if_true]

/-- For a single object whose box has a non-zero `SurfaceArea`, `findPlane` returns a plane
of finite cost between 2 and 3. -/
theorem findPlane_single (obj : IGeometryObject K)
    (harea : obj.GetBoundingBox.SurfaceArea ≠ 0) :
    ∃ (split : BBoxSplit K) (c : K), findPlane [obj] obj.GetBoundingBox = some split ∧
      split.cost = XFloat.fin c ∧ 2 ≤ c ∧ c ≤ 3 := by
  have hkeep : ∀ (st : SweepState K) (v c : K) (dim : Int), 2 ≤ c → c ≤ 3 → st.Priced →
      (if XFloat.Less (XFloat.fin c) st.minCost then
        (⟨⟨v, dim, XFloat.fin c⟩, XFloat.fin c⟩ : SweepState K) else st).Priced := by
    intro st v c dim c2 c3 hst
    split
    · exact ⟨rfl, c, rfl, c2, c3⟩
    · exact hst
  obtain ⟨v0, c0, a0, b0, h0⟩ := findPlaneDim_single obj 0 (Or.inl rfl) harea
    ⟨⟨0, 0, XFloat.fin 0⟩, XFloat.fin MaxFloat64⟩
  have hl0 : XFloat.Less (XFloat.fin c0) (XFloat.fin (MaxFloat64 : K)) = true := by
    rw [XFloat.Less_fin, Less_iff]
    linarith [three_lt_MaxFloat64 (K := K)]
  simp only [hl0, if_true] at h0
  obtain ⟨v1, c1, a1, b1, h1⟩ := findPlaneDim_single obj 1 (Or.inr (Or.inl rfl)) harea
    ⟨⟨v0, 0, XFloat.fin c0⟩, XFloat.fin c0⟩
  have k1 := hkeep ⟨⟨v0, 0, XFloat.fin c0⟩, XFloat.fin c0⟩ v1 c1 1 a1 b1 ⟨rfl, c0, rfl, a0, b0⟩
  obtain ⟨v2, c2, a2, b2, h2⟩ := findPlaneDim_single obj 2 (Or.inr (Or.inr rfl)) harea
    (if XFloat.Less (XFloat.fin c1)
        (SweepState.mk (BBoxSplit.mk v0 0 (XFloat.fin c0)) (XFloat.fin c0)).minCost then
      (⟨⟨v1, 1, XFloat.fin c1⟩, XFloat.fin c1⟩ : SweepState K)
      else ⟨⟨v0, 0, XFloat.fin c0⟩, XFloat.fin c0⟩)
  have k2 := hkeep _ v2 c2 2 a2 b2 k1
  obtain ⟨e1, m, e2, m2, m3⟩ := k2
  unfold findPlane
  rw [h0]
  dsimp only
  rw [h1]
  dsimp only
  rw [h2]
  dsimp only
  exact ⟨_, m, rfl, by rw [e1, e2], m2, m3⟩

/-- The build of a single object whose box has a non-zero `SurfaceArea` is one leaf. -/
theorem BuildTree_single (obj : IGeometryObject K) (depthBound : Nat)
    (harea : obj.GetBoundingBox.SurfaceArea ≠ 0) :
    BuildTree (depthBound + 1) [obj] = some ⟨KDTreeNode.node KDTreeNode.nil KDTreeNode.nil
      obj.GetBoundingBox ⟨0, 0⟩ 1 [obj]⟩ := by
  have hE1 : (EPS : K) < 1 := by
    unfold EPS
    rw [div_lt_one (by norm_num)]
    norm_num
  have hbox : getBoundingBox [obj] = some obj.GetBoundingBox := by
    simp [getBoundingBox, BBox.Expand, Min, Max]
  obtain ⟨split, c, hsplit, hcost, c2, c3⟩ := findPlane_single obj harea
  have hge : XFloat.GreaterEqual split.cost
      (XFloat.fin (((([obj] : List (IGeometryObject K)).length : Int) * 1 : Int) : K)) = true := by
    rw [hcost, XFloat.GreaterEqual_fin, GreaterEqual_iff]
    left
    simp only [List.length_singleton, Nat.cast_one, mul_one, Int.cast_one]
    linarith
  unfold BuildTree
  rw [hbox]
  dsimp only
  unfold recBuild
  rw [hsplit]
  dsimp only
  rw [if_pos hge]
  rfl

/-- A face spanned by three equal corners is never hit. -/
theorem CreatePlaneAndIntersect_point (sqrt : K → K) (bbox : BBox K) (ray : Ray K)
    (p : Vector K) : bbox.CreatePlaneAndIntersect sqrt ray p p p = RayCoefIntersection.zero := by
  have hn : ((p.Sub p).Cross (p.Sub p)).Norm sqrt = ⟨0, 0, 0⟩ := by
    simp [Vector.Norm, Vector.Cross, Vector.Sub]
  unfold BBox.CreatePlaneAndIntersect
  simp only [hn]
  have h0 : ray.Direction.Dot ⟨0, 0, 0⟩ = 0 := by simp [Vector.Dot]
  rw [h0, Equal_self]
  rfl

/-- A box whose `SurfaceArea` is zero reports no entry of any ray. -/
theorem BBox.Intersect_of_SurfaceArea_zero (sqrt : K → K) (bbox : BBox K) (ray : Ray K)
    (h : bbox.SurfaceArea = 0) : (bbox.Intersect sqrt ray).1.HasIntersection = false := by
  obtain ⟨⟨lx, ly, lz⟩, ⟨rx, ry, rz⟩⟩ := bbox
  have h' : (Vector.mk (rx - lx) (ry - ly) (rz - lz)).SqrLength = 0 := by
    simp only [BBox.SurfaceArea, Vector.Dot, Vector.Sub] at h
    simp only [Vector.SqrLength]
    linarith
  obtain ⟨hx, hy, hz⟩ := Vector.eq_zero_of_SqrLength _ h'
  simp only at hx hy hz
  have ex : rx = lx := by linarith
  have ey : ry = ly := by linarith
  have ez : rz = lz := by linarith
  subst ex ey ez
  unfold BBox.Intersect
  simp only [CreatePlaneAndIntersect_point]
  simp [RayCoefIntersection.zero]

theorem scanObjects_single (ray : Ray K) (obj : IGeometryObject K) (ht : Takeable ray obj) :
    scanObjects ray [obj] = hitAt ray obj := by
  obtain ⟨t1, t2, t3⟩ := ht
  simp [scanObjects, scanStep, t1, t2, t3, hitAt]

/-! ### C1: `CastRay` against the brute-force scan -/

/-- The leaf loop keeps the first of two hits that lie within `EPS` of each other: for the
two triangles `slantedTriangle 0` and `slantedTriangle (-5e-10)`, hit at `t = 2` and at
`t = 2 - 5e-10`, `CastRay` reports `t = 2`, and the smallest `t` is `2 - 5e-10`. -/
theorem CastRay_keeps_first_within_EPS :
    ((BuildTree 1 [(slantedTriangle 0).toObject qsqrt,
        (slantedTriangle (-1 / 2000000000)).toObject qsqrt]).bind (fun tree =>
        tree.CastRay qsqrt ⟨⟨-1, -1 / 4, -1 / 4⟩, ⟨1, 0, 0⟩⟩)).map
        Intersection.hitCoef = some (some 2) ∧
      bruteForceNearest ⟨⟨-1, -1 / 4, -1 / 4⟩, ⟨1, 0, 0⟩⟩
        [(slantedTriangle 0).toObject qsqrt, (slantedTriangle (-1 / 2000000000)).toObject qsqrt]
        = some (2 - 1 / 2000000000) := by
  decide!

/-- The box test prunes a hit: `grazingRay` meets the unit triangle of the plane `X = 0` at
`t = 1/8`, but its direction is `Equal`-parallel to the two faces of the box that it
crosses, the box reports no entry, and `CastRay` reports no hit. -/
theorem CastRay_prunes_grazing_ray :
    ((unitTriangle 0).toObject qsqrt).Intersect grazingRay = ⟨true, 1 / 8⟩ ∧
      grazingRay.Direction.SqrLength = 1 ∧
      ((unitTriangle 0).GetBoundingBox.Intersect qsqrt grazingRay).1.HasIntersection = false ∧
      ((BuildTree 1 [(unitTriangle 0).toObject qsqrt]).bind (fun tree =>
        tree.CastRay qsqrt grazingRay)).map Intersection.hitCoef = some none := by
  decide!

/-! ### C2: `CastRay` on the tree of a single object -/

/-- C2 fails as stated.  `Intersect` of `slantedTriangle 0` reports a hit, with `t = -2`, for the
ray from `(3, -1/4, -1/4)` along `(1, 0, 0)` (the triangle lies behind the origin of the
ray), and `CastRay` on the tree built from the one-element list reports no hit. -/
theorem CastRay_single_behind :
    ((slantedTriangle 0).toObject qsqrt).Intersect ⟨⟨3, -1 / 4, -1 / 4⟩, ⟨1, 0, 0⟩⟩ = ⟨true, -2⟩ ∧
    ((BuildTree 1 [(slantedTriangle 0).toObject qsqrt]).bind (fun tree =>
        tree.CastRay qsqrt ⟨⟨3, -1 / 4, -1 / 4⟩, ⟨1, 0, 0⟩⟩)).map
        Intersection.hitCoef = some none := by
  decide!

/-- C2, amended.  For a single object and a ray for which the object's `Intersect` reports
a hit with `Greater(t, 0)` (and `Less(t, MaxFloat64)`) and for which the object's bounding
box reports an entry, the build returns a tree, a single leaf, and `CastRay` on it reports
the hit on that object, with the `t` of the direct `Intersect` call and the point
`Begin + Direction * t`. -/
theorem CastRay_single_hit (sqrt : K → K) (obj : IGeometryObject K) (ray : Ray K)
    (depthBound : Nat) (ht : Takeable ray obj)
    (hbox : (obj.GetBoundingBox.Intersect sqrt ray).1.HasIntersection = true) :
    ∃ tree : KDTree K, BuildTree (depthBound + 1) [obj] = some tree ∧
      tree.CastRay sqrt ray = some
        { Coefficient := ⟨true, (obj.Intersect ray).IntersectionCoef⟩,
          Point := ray.Begin.Add (ray.Direction.Mult (obj.Intersect ray).IntersectionCoef),
          Object := some obj,
          Color := ⟨XFloat.fin 0, XFloat.fin 0, XFloat.fin 0⟩ } := by
  have harea : obj.GetBoundingBox.SurfaceArea ≠ 0 := by
    intro h0
    rw [BBox.Intersect_of_SurfaceArea_zero sqrt _ ray h0] at hbox
    exact Bool.false_ne_true hbox
  refine ⟨_, BuildTree_single obj depthBound harea, ?_⟩
  rw [CastRay_eq_findIntersection]
  unfold findIntersection
  simp only [hbox, Bool.not_true, Bool.or_false, List.length_singleton]
  rw [if_neg (by simp), if_pos (by simp), scanObjects_single ray obj ht]
  rfl

/-- C2, amended, at a concrete input: `slantedTriangle 0` and the ray from `(-1, -1/4, -1/4)`
along `(1, 0, 0)`, which meets the triangle at `t = 2`. -/
theorem CastRay_single_hit_witness :
    ∃ tree : KDTree ℚ, BuildTree 1 [(slantedTriangle 0).toObject qsqrt] = some tree ∧
      (tree.CastRay qsqrt ⟨⟨-1, -1 / 4, -1 / 4⟩, ⟨1, 0, 0⟩⟩).map Intersection.hitCoef
        = some (some 2) := by
  obtain ⟨tree, hb, hc⟩ := CastRay_single_hit qsqrt ((slantedTriangle 0).toObject qsqrt)
    ⟨⟨-1, -1 / 4, -1 / 4⟩, ⟨1, 0, 0⟩⟩ 0 ⟨by decide!, by decide!, by decide!⟩ (by decide!)
  refine ⟨tree, hb, ?_⟩
  rw [hc]
  decide!

/-! ### C3: the objects of the leaves -/

/-- C3, at the failing input.  The build of the three disjoint, evenly spaced unit triangles
in the planes `X = -10`, `X = 0` and `X = 10` splits at `X = 0` and returns two leaves
holding the first and the third triangle: the second one, which lies in the splitting
plane, is in no leaf, and the leaves hold 2 objects for 3 inputs.  The same happens to
the triangle in the plane `X = 1` of the four triangles in the planes `X = 0, 1, 2, 3`. -/
theorem BuildTree_loses_object :
    (BuildTree 2 [(unitTriangle (-10)).toObject qsqrt, (unitTriangle 0).toObject qsqrt,
        (unitTriangle 10).toObject qsqrt]).map
      (fun tree => tree.root.leafObjects.map (fun obj => obj.GetBoundingBox)) =
      some [⟨⟨-10, 0, 0⟩, ⟨-10, 1, 1⟩⟩, ⟨⟨10, 0, 0⟩, ⟨10, 1, 1⟩⟩] ∧
    (BuildTree 2 [(unitTriangle 0).toObject qsqrt, (unitTriangle 1).toObject qsqrt,
        (unitTriangle 2).toObject qsqrt, (unitTriangle 3).toObject qsqrt]).map
      (fun tree => tree.root.leafObjects.map (fun obj => obj.GetBoundingBox)) =
      some [⟨⟨0, 0, 0⟩, ⟨0, 1, 1⟩⟩, ⟨⟨2, 0, 0⟩, ⟨2, 1, 1⟩⟩, ⟨⟨3, 0, 0⟩, ⟨3, 1, 1⟩⟩] := by
  decide!

/-! ### C11: a ray aimed at the centre of a sphere -/

theorem sqrt_zero (sqrt : K → K) (hs : ∀ x, 0 ≤ x → sqrt x * sqrt x = x) : sqrt 0 = 0 :=
  mul_self_eq_zero.1 (hs 0 le_rfl)

theorem Norm_Dot_self (sqrt : K → K) (hs : ∀ x, 0 ≤ x → sqrt x * sqrt x = x)
    (w : Vector K) (hl : sqrt w.SqrLength ≠ 0) :
    (w.Norm sqrt).Dot w = sqrt w.SqrLength := by
  have hLL := hs w.SqrLength (Vector.SqrLength_nonneg _)
  simp only [Vector.Norm, Vector.Length, Vector.Dot]
  field_simp
  rw [hLL]
  simp only [Vector.SqrLength]

theorem Sub_Norm_Mult_self (sqrt : K → K) (hs : ∀ x, 0 ≤ x → sqrt x * sqrt x = x)
    (w : Vector K) (hl : sqrt w.SqrLength ≠ 0) :
    w.Sub ((w.Norm sqrt).Mult ((w.Norm sqrt).Dot w)) = ⟨0, 0, 0⟩ := by
  rw [Norm_Dot_self sqrt hs w hl]
  simp only [Vector.Norm, Vector.Length, Vector.Mult, Vector.Sub]
  congr 1 <;> field_simp

/-- The distance from the line of `NewRay(start, c)` to the point `c` is 0. -/
theorem NewRay_Distance_end (sqrt : K → K) (hs : ∀ x, 0 ≤ x → sqrt x * sqrt x = x)
    (start c : Vector K) (hl : (c.Sub start).Length sqrt ≠ 0) :
    (NewRay sqrt start c).Distance sqrt c = 0 := by
  show Vector.Length sqrt ((c.Sub start).Sub (((c.Sub start).Norm sqrt).Mult
      (((c.Sub start).Norm sqrt).Dot (c.Sub start)))) = 0
  rw [Sub_Norm_Mult_self sqrt hs _ hl]
  simp [Vector.Length, Vector.SqrLength, sqrt_zero sqrt hs]

/-- The parameter of the point `c` on `NewRay(start, c)` is the distance from `start` to
`c`. -/
theorem NewRay_GetLineCoef_end (sqrt : K → K) (hs : ∀ x, 0 ≤ x → sqrt x * sqrt x = x)
    (start c : Vector K) (hl : (c.Sub start).Length sqrt ≠ 0) :
    (NewRay sqrt start c).GetLineCoef c = (c.Sub start).Length sqrt := by
  show (c.Sub start).Dot ((c.Sub start).Norm sqrt) = _
  rw [Vector.Dot_comm]
  exact Norm_Dot_self sqrt hs _ hl

/-- C11.  For every radius `r > 0`, the sphere of radius `r` centred at the origin and every
start point at distance `2r` from the centre, `Sphere.Intersect` on the ray
`NewRay(start, centre)` returns `HasIntersection = true` with `IntersectionCoef = r`
(with an exact square root). -/
theorem Sphere_Intersect_toward_centre (sqrt : K → K) (hs0 : ∀ x, 0 ≤ x → 0 ≤ sqrt x)
    (hs : ∀ x, 0 ≤ x → sqrt x * sqrt x = x) (r : K) (hr : 0 < r) (start : Vector K)
    (hd : (start.Sub ⟨0, 0, 0⟩).Length sqrt = 2 * r) :
    (Sphere.mk ⟨0, 0, 0⟩ r).Intersect sqrt (NewRay sqrt start ⟨0, 0, 0⟩) =
      { HasIntersection := true, IntersectionCoef := r } := by
  have hw : (Vector.Sub ⟨0, 0, 0⟩ start).Length sqrt = 2 * r := by
    rw [← hd]
    unfold Vector.Length
    congr 1
    simp only [Vector.Sub, Vector.SqrLength]
    ring
  have hl : (Vector.Sub ⟨0, 0, 0⟩ start).Length sqrt ≠ 0 := by rw [hw]; linarith
  have h1 := NewRay_Distance_end sqrt hs start ⟨0, 0, 0⟩ hl
  have h2 := NewRay_GetLineCoef_end sqrt hs start ⟨0, 0, 0⟩ hl
  rw [hw] at h2
  have he := EPS_pos (K := K)
  have hg : Greater (0 : K) r = false := by
    simp only [Greater, decide_eq_false_iff_not, not_lt]
    linarith
  have hh : sqrt |r * r - 0 * 0| = r := by
    apply sqrt_unique sqrt hs0 hs hr.le
    rw [abs_of_nonneg] <;> nlinarith
  have hm : min (2 * r - r) (2 * r + r) = r := by
    rw [min_eq_left] <;> linarith
  have hlt : Less r 0 = false := by
    simp only [Less, decide_eq_false_iff_not, not_lt]
    linarith
  simp only [Sphere.Intersect, h1, h2, hg, hh, hm, hlt]
  simp

/-- C11 at a concrete input, over the reals with `Real.sqrt`: the unit sphere and the start
point `(2, 0, 0)`. -/
theorem Sphere_Intersect_toward_centre_witness :
    (Sphere.mk (⟨0, 0, 0⟩ : Vector ℝ) 1).Intersect Real.sqrt
      (NewRay Real.sqrt ⟨2, 0, 0⟩ ⟨0, 0, 0⟩) = ⟨true, 1⟩ :=
  Sphere_Intersect_toward_centre Real.sqrt (fun x _ => Real.sqrt_nonneg x)
    (fun x hx => Real.mul_self_sqrt hx) 1 one_pos ⟨2, 0, 0⟩
    (by
      simp only [Vector.Length, Vector.Sub, Vector.SqrLength]
      rw [show ((2 : ℝ) - 0) * (2 - 0) + (0 - 0) * (0 - 0) + (0 - 0) * (0 - 0) = 2 * 2 by ring]
      rw [Real.sqrt_mul_self (by norm_num)]
      norm_num)

/-! ### C12: the kind of a material -/

/-- C12.  For every colour, reflect, refract and alpha, `NewMaterial` stores the inputs
unchanged and sets the kind by the precedence of the specification, with the tolerance
equality: Transparent if alpha is not equal to 1; otherwise Diffuse if reflect and refract
are equal to 0; otherwise ReflectDiffuse if refract is equal to 0; otherwise
ReflectRefract. -/
theorem NewMaterial_kind (color : Color K) (reflect refract alpha : K) (materialId : Int)
    (materialName : Option String) :
    NewMaterial color reflect refract alpha materialId materialName =
      { Color := color, Reflect := reflect, Refract := refract, Alpha := alpha,
        MaterialType := specMaterialType reflect refract alpha,
        MaterialId := materialId, MaterialName := materialName } := by
  unfold NewMaterial specMaterialType
  simp only [Equal]
  by_cases h1 : |alpha - 1| < EPS <;> by_cases h2 : |reflect - 0| < EPS <;>
    by_cases h3 : |refract - 0| < EPS <;> simp [h1, h2, h3]

/-! ### C13: axis indices outside 0, 1, 2 -/

/-- The panics of `Split`, `GetMin` and `GetMax`: `GetMin` and `GetMax` panic exactly for the
axes outside 0, 1, 2; `Split` panics exactly for the axes above 2, and for a negative axis
it returns two copies of the box. -/
theorem BBox_axis_panics (bbox : BBox K) (axis : Int) (value : K) :
    (bbox.Split axis value = none ↔ 2 < axis) ∧
      (axis < 0 → bbox.Split axis value = some (bbox, bbox)) ∧
      (bbox.GetMin axis = none ↔ ¬(axis = 0 ∨ axis = 1 ∨ axis = 2)) ∧
      (bbox.GetMax axis = none ↔ ¬(axis = 0 ∨ axis = 1 ∨ axis = 2)) := by
  refine ⟨?_, ?_, ?_, ?_⟩
  · unfold BBox.Split
    by_cases h : axis > 2 <;> simp [h]
  · intro h
    unfold BBox.Split
    have h0 : ¬ axis > 2 := by omega
    have h1 : axis ≠ 0 := by omega
    have h2 : axis ≠ 1 := by omega
    have h3 : axis ≠ 2 := by omega
    simp [h0, h1, h2, h3]
  · unfold BBox.GetMin
    by_cases h0 : axis = 0 <;> by_cases h1 : axis = 1 <;> by_cases h2 : axis = 2 <;>
      simp [h0, h1, h2]
  · unfold BBox.GetMax
    by_cases h0 : axis = 0 <;> by_cases h1 : axis = 1 <;> by_cases h2 : axis = 2 <;>
      simp [h0, h1, h2]

/-- C13, at the failing input.  For the box `[0,1]^3` and the axis `-1`, `Split` does not
panic: it returns two copies of the box, while `GetMin` and `GetMax` panic for that axis.
The claim says that each of the three fails for every axis outside 0, 1, 2. -/
theorem BBox_Split_negative_axis :
    (⟨⟨0, 0, 0⟩, ⟨1, 1, 1⟩⟩ : BBox ℚ).Split (-1) (1 / 2) =
        some (⟨⟨0, 0, 0⟩, ⟨1, 1, 1⟩⟩, ⟨⟨0, 0, 0⟩, ⟨1, 1, 1⟩⟩) ∧
      (⟨⟨0, 0, 0⟩, ⟨1, 1, 1⟩⟩ : BBox ℚ).GetMin (-1) = none ∧
      (⟨⟨0, 0, 0⟩, ⟨1, 1, 1⟩⟩ : BBox ℚ).GetMax (-1) = none := by
  decide!

/-! ### C14: the normal of a sphere -/

/-- C14 fails as stated.  The point `(1 + 5e-10, 0, 0)` is farther from the centre of the
unit sphere at the origin than the radius, and `GetNormal` does not panic there: it
returns `(1, 0, 0)`, because the guard is `Greater(length, Radius)`, with the tolerance. -/
theorem Sphere_GetNormal_beyond_radius :
    (Sphere.mk (⟨0, 0, 0⟩ : Vector ℚ) 1).Radius <
        (Vector.Sub ⟨1 + 1 / 2000000000, 0, 0⟩ (Sphere.mk (⟨0, 0, 0⟩ : Vector ℚ) 1).Center).Length
          qsqrt ∧
      (Sphere.mk (⟨0, 0, 0⟩ : Vector ℚ) 1).GetNormal qsqrt ⟨1 + 1 / 2000000000, 0, 0⟩ =
        some ⟨1, 0, 0⟩ := by
  decide!

/-- C14, amended.  `Sphere.GetNormal` panics exactly when the distance from the centre to
the point is `Greater` than the radius, that is, exceeds `Radius + EPS`; for every other
point that is not the centre it returns the vector of length 1 that points from the
centre to the point (with an exact square root). -/
theorem Sphere_GetNormal_unit (sqrt : K → K) (hs0 : ∀ x, 0 ≤ x → 0 ≤ sqrt x)
    (hs : ∀ x, 0 ≤ x → sqrt x * sqrt x = x) (s : Sphere K) (pos : Vector K) :
    (s.GetNormal sqrt pos = none ↔ s.Radius + EPS < (pos.Sub s.Center).Length sqrt) ∧
      (¬ s.Radius + EPS < (pos.Sub s.Center).Length sqrt → pos ≠ s.Center →
        ∃ n : Vector K, s.GetNormal sqrt pos = some n ∧ n.Length sqrt = 1 ∧
          0 < (pos.Sub s.Center).Length sqrt ∧
          n.Mult ((pos.Sub s.Center).Length sqrt) = pos.Sub s.Center) := by
  have hg : Greater ((pos.Sub s.Center).Length sqrt) s.Radius = true ↔
      s.Radius + EPS < (pos.Sub s.Center).Length sqrt := by
    rw [Greater_iff]
    constructor <;> intro h <;> linarith
  constructor
  · unfold Sphere.GetNormal
    by_cases h : Greater ((pos.Sub s.Center).Length sqrt) s.Radius = true
    · simp [h, hg.1 h]
    · have h2 : ¬ s.Radius + EPS < (pos.Sub s.Center).Length sqrt := fun hh => h (hg.2 hh)
      simp [h, h2]
  · intro hin hne
    have h : ¬ Greater ((pos.Sub s.Center).Length sqrt) s.Radius = true := fun hh => hin (hg.1 hh)
    have hsq0 : (pos.Sub s.Center).SqrLength ≠ 0 := by
      intro h0
      obtain ⟨hx, hy, hz⟩ := Vector.eq_zero_of_SqrLength _ h0
      apply hne
      simp only [Vector.Sub] at hx hy hz
      cases pos
      cases hc : s.Center
      rw [hc] at hx hy hz
      simp only at hx hy hz
      congr 1 <;> linarith
    have hnn := Vector.SqrLength_nonneg (pos.Sub s.Center)
    have hLL := hs _ hnn
    have hL0 := hs0 _ hnn
    have hLne : sqrt (pos.Sub s.Center).SqrLength ≠ 0 := by
      intro h0
      rw [h0] at hLL
      apply hsq0
      rw [← hLL]
      ring
    have hLpos : 0 < sqrt (pos.Sub s.Center).SqrLength := lt_of_le_of_ne hL0 (Ne.symm hLne)
    refine ⟨(pos.Sub s.Center).Norm sqrt, ?_, ?_, hLpos, ?_⟩
    · unfold Sphere.GetNormal
      simp [h]
    · unfold Vector.Length
      apply sqrt_unique sqrt hs0 hs zero_le_one
      simp only [Vector.Norm, Vector.Length, Vector.SqrLength]
      simp only [Vector.SqrLength] at hLL hLne
      field_simp
      rw [hLL]
    · simp only [Vector.Norm, Vector.Length, Vector.Mult]
      cases hv : pos.Sub s.Center
      rw [hv] at hLne
      congr 1 <;> field_simp

/-- C14, amended, at a concrete input, over the reals with `Real.sqrt`: the unit sphere at
the origin and the point `(1, 0, 0)` on it. -/
theorem Sphere_GetNormal_unit_witness :
    ∃ n : Vector ℝ, (Sphere.mk (⟨0, 0, 0⟩ : Vector ℝ) 1).GetNormal Real.sqrt ⟨1, 0, 0⟩ = some n ∧
      n.Length Real.sqrt = 1 := by
  have h := (Sphere_GetNormal_unit Real.sqrt (fun x _ => Real.sqrt_nonneg x)
    (fun x hx => Real.mul_self_sqrt hx) (Sphere.mk (⟨0, 0, 0⟩ : Vector ℝ) 1) ⟨1, 0, 0⟩).2
    (by
      have he := EPS_pos (K := ℝ)
      simp only [Vector.Length, Vector.Sub, Vector.SqrLength]
      norm_num
      linarith)
    (by intro h; have := congrArg Vector.X h; norm_num at this)
  obtain ⟨n, h1, h2, _⟩ := h
  exact ⟨n, h1, h2⟩

/-! ### C15: termination of the build -/

/-- A call of `recBuild` that starts a call of `recBuild` on its own arguments never
returns: no bound on the depth of the recursion is enough. -/
theorem recBuild_of_self_call (objects : List (IGeometryObject K)) (bbox : BBox K)
    (split : BBoxSplit K) (rightBox : BBox K) (rightPart : List (IGeometryObject K))
    (hf : findPlane objects bbox = some split)
    (hc : XFloat.GreaterEqual split.cost
      (XFloat.fin (((objects.length : Int) * 1 : Int) : K)) = false)
    (hs : bbox.Split split.axis split.value = some (bbox, rightBox))
    (hcl : classify objects split = some (objects, rightPart)) :
    ∀ depthBound : Nat, recBuild depthBound objects bbox = none
  | 0 => rfl
  | depthBound + 1 => by
    have ih := recBuild_of_self_call objects bbox split rightBox rightPart hf hc hs hcl depthBound
    unfold recBuild
    simp only [hf, hc, hs, hcl, ih, Bool.false_eq_true, if_false]

/-- Go `classify` keeps in the left part, in the order of the input, every object whose
minimum on the axis is `Less` than `value + EPS`. -/
theorem classify_all_left (split : BBoxSplit K) :
    ∀ objects : List (IGeometryObject K),
      (∀ obj ∈ objects, ∃ mn mx : K, obj.GetBoundingBox.GetMin split.axis = some mn ∧
        obj.GetBoundingBox.GetMax split.axis = some mx ∧
        Less mn (split.value + EPS) = true) →
      ∃ rightPart, classify objects split = some (objects, rightPart)
  | [], _ => ⟨[], rfl⟩
  | obj :: rest, h => by
    obtain ⟨mn, mx, h1, h2, h3⟩ := h obj (List.mem_cons_self _ _)
    obtain ⟨rp, hrp⟩ := classify_all_left split rest
      (fun o ho => h o (List.mem_cons_of_mem _ ho))
    refine ⟨if Less (split.value - EPS) mx then obj :: rp else rp, ?_⟩
    unfold classify
    simp only [h1, h2, hrp, h3, if_true]

/-- Every triangle of `thinScene` begins left of the plane `X = 0`. -/
theorem thinScene_left (c : XFloat ℚ) :
    ∃ rightPart, classify thinScene ⟨0, 0, c⟩ = some (thinScene, rightPart) := by
  apply classify_all_left
  intro obj ho
  simp only [thinScene, List.mem_cons, List.mem_singleton, List.not_mem_nil, or_false] at ho
  dsimp only
  rcases ho with rfl | rfl | rfl | rfl
  · exact ⟨-1, 0, by decide!, by decide!, by decide!⟩
  · exact ⟨-1 / 1073741824, 1 / 1073741824, by decide!, by decide!, by decide!⟩
  · exact ⟨-1 / 1073741824, 1 / 1073741824, by decide!, by decide!, by decide!⟩
  · exact ⟨-1 / 1073741824, 2, by decide!, by decide!, by decide!⟩

/-- The planes that `findPlane` picks for `thinScene`, in its bounding box and in the left
half of it. -/
theorem thinScene_findPlane :
    getBoundingBox thinScene = some ⟨⟨-1, 0, 0⟩, ⟨2, 1, 1⟩⟩ ∧
      findPlane thinScene ⟨⟨-1, 0, 0⟩, ⟨2, 1, 1⟩⟩ = some ⟨0, 0, XFloat.fin (31 / 11)⟩ ∧
      findPlane thinScene ⟨⟨-1, 0, 0⟩, ⟨0, 1, 1⟩⟩ = some ⟨0, 0, XFloat.fin (11 / 3)⟩ := by
  decide!

/-- C15, at the failing input.  The build of the four triangles of `thinScene` recurses for
ever.  In the bounding box `[-1,2] x [0,1] x [0,1]`, `findPlane` picks the plane `X = 0`
(cost `31/11 < 4`), `Split` gives the left box `[-1,0] x [0,1] x [0,1]`, and `classify`
puts all four triangles in the left part.  In that left box `findPlane` picks `X = 0`
again (cost `11/3`, which is not `GreaterEqual` to 4), `Split` returns the same box as the
left box and `classify` the same four triangles as the left part: `recBuild` starts
`recBuild` on its own arguments, without a panic, and for no bound on the depth of the
recursion does the build return a tree. -/
theorem BuildTree_recurses_forever :
    getBoundingBox thinScene = some ⟨⟨-1, 0, 0⟩, ⟨2, 1, 1⟩⟩ ∧
      (findPlane thinScene ⟨⟨-1, 0, 0⟩, ⟨2, 1, 1⟩⟩ = some ⟨0, 0, XFloat.fin (31 / 11)⟩ ∧
        XFloat.GreaterEqual (XFloat.fin (31 / 11 : ℚ)) (XFloat.fin 4) = false ∧
        (⟨⟨-1, 0, 0⟩, ⟨2, 1, 1⟩⟩ : BBox ℚ).Split 0 0 =
          some (⟨⟨-1, 0, 0⟩, ⟨0, 1, 1⟩⟩, ⟨⟨0, 0, 0⟩, ⟨2, 1, 1⟩⟩) ∧
        ∃ rightPart, classify thinScene ⟨0, 0, XFloat.fin (31 / 11)⟩ =
          some (thinScene, rightPart)) ∧
      (findPlane thinScene ⟨⟨-1, 0, 0⟩, ⟨0, 1, 1⟩⟩ = some ⟨0, 0, XFloat.fin (11 / 3)⟩ ∧
        XFloat.GreaterEqual (XFloat.fin (11 / 3 : ℚ)) (XFloat.fin 4) = false ∧
        (⟨⟨-1, 0, 0⟩, ⟨0, 1, 1⟩⟩ : BBox ℚ).Split 0 0 =
          some (⟨⟨-1, 0, 0⟩, ⟨0, 1, 1⟩⟩, ⟨⟨0, 0, 0⟩, ⟨0, 1, 1⟩⟩) ∧
        ∃ rightPart, classify thinScene ⟨0, 0, XFloat.fin (11 / 3)⟩ =
          some (thinScene, rightPart)) ∧
      ∀ depthBound : Nat, BuildTree depthBound thinScene = none := by
  obtain ⟨hb, hf0, hf1⟩ := thinScene_findPlane
  obtain ⟨rp0, hc0⟩ := thinScene_left (XFloat.fin (31 / 11))
  obtain ⟨rp1, hc1⟩ := thinScene_left (XFloat.fin (11 / 3))
  have hs0 : (⟨⟨-1, 0, 0⟩, ⟨2, 1, 1⟩⟩ : BBox ℚ).Split 0 0 =
      some (⟨⟨-1, 0, 0⟩, ⟨0, 1, 1⟩⟩, ⟨⟨0, 0, 0⟩, ⟨2, 1, 1⟩⟩) := by decide!
  have hs1 : (⟨⟨-1, 0, 0⟩, ⟨0, 1, 1⟩⟩ : BBox ℚ).Split 0 0 =
      some (⟨⟨-1, 0, 0⟩, ⟨0, 1, 1⟩⟩, ⟨⟨0, 0, 0⟩, ⟨0, 1, 1⟩⟩) := by decide!
  have hg0 : XFloat.GreaterEqual (XFloat.fin (31 / 11 : ℚ)) (XFloat.fin 4) = false := by decide!
  have hg1 : XFloat.GreaterEqual (XFloat.fin (11 / 3 : ℚ)) (XFloat.fin 4) = false := by decide!
  have hlen : (((thinScene.length : Int) * 1 : Int) : ℚ) = 4 := by decide!
  have hloop := recBuild_of_self_call thinScene ⟨⟨-1, 0, 0⟩, ⟨0, 1, 1⟩⟩
    ⟨0, 0, XFloat.fin (11 / 3)⟩ _ rp1 hf1 (by rw [hlen]; exact hg1) hs1 hc1
  refine ⟨hb, ⟨hf0, hg0, hs0, rp0, hc0⟩, ⟨hf1, hg1, hs1, rp1, hc1⟩, ?_⟩
  intro depthBound
  unfold BuildTree
  rw [hb]
  cases depthBound with
  | zero => rfl
  | succ d =>
    have : recBuild (d + 1) thinScene ⟨⟨-1, 0, 0⟩, ⟨2, 1, 1⟩⟩ = none := by
      unfold recBuild
      simp only [hf0, hlen, hg0, hs0, hc0, hloop d, Bool.false_eq_true, if_false]
    simp only [this]

/-! ### C16: the jobs of `Render` -/

theorem Render_mem {F : Type} (viewport : Viewport F) (job : renderInput) :
    job ∈ Render viewport ↔
      (0 ≤ job.x ∧ job.x < viewport.Width) ∧ (0 ≤ job.y ∧ job.y < viewport.Height) ∧
        job.antialiasing = false := by
  unfold Render
  simp only [List.mem_flatMap, List.mem_range, List.mem_map, Int.ofNat_eq_coe]
  constructor
  · rintro ⟨x, hx, y, hy, rfl⟩
    dsimp only
    exact ⟨⟨by omega, by omega⟩, ⟨by omega, by omega⟩, rfl⟩
  · rintro ⟨⟨hx0, hx1⟩, ⟨hy0, hy1⟩, ha⟩
    refine ⟨job.x.toNat, by omega, job.y.toNat, by omega, ?_⟩
    obtain ⟨jx, jy, ja⟩ := job
    simp only at hx0 hy0 ha ⊢
    subst ha
    rw [Int.toNat_of_nonneg hx0, Int.toNat_of_nonneg hy0]

theorem Render_cells_nodup {F : Type} (viewport : Viewport F) :
    ((Render viewport).map renderInput.cell).Nodup := by
  unfold Render
  rw [List.map_flatMap]
  rw [List.nodup_flatMap]
  constructor
  · intro x _
    simp only [List.map_map]
    refine (List.nodup_range _).map ?_
    intro a b h
    simp only [Function.comp, renderInput.cell, Prod.mk.injEq, Int.ofNat_eq_coe] at h
    omega
  · refine (List.nodup_range _).pairwise_of_forall_ne ?_
    intro a _ b _ hab
    simp only [Function.onFun, List.disjoint_left, List.mem_map, List.mem_range]
    rintro c ⟨j, ⟨y, _, rfl⟩, rfl⟩ ⟨j2, ⟨y2, _, rfl⟩, h⟩
    simp only [renderInput.cell, Prod.mk.injEq, Int.ofNat_eq_coe] at h
    omega

theorem Render_length {F : Type} (viewport : Viewport F) :
    (Render viewport).length = viewport.Width.toNat * viewport.Height.toNat := by
  unfold Render
  simp only [List.length_flatMap, List.length_map, List.length_range, Function.comp_def,
    List.map_const', List.sum_replicate, smul_eq_mul]

/-- C16.  For every viewport with `Width >= 0` and `Height >= 0`, the jobs that `Render`
sends contain each coordinate `(x, y)` with `0 <= x < Width` and `0 <= y < Height` exactly
once and no other coordinate, all with `antialiasing = false`; there are `Width * Height`
jobs, and no two of them write the same cell of the pixel grid. -/
theorem Render_jobs_partition {F : Type} (viewport : Viewport F) (hw : 0 ≤ viewport.Width)
    (hh : 0 ≤ viewport.Height) :
    (∀ x y : Int, (0 ≤ x ∧ x < viewport.Width) ∧ (0 ≤ y ∧ y < viewport.Height) →
        (Render viewport).count ⟨x, y, false⟩ = 1) ∧
      (∀ job ∈ Render viewport, (0 ≤ job.x ∧ job.x < viewport.Width) ∧
        (0 ≤ job.y ∧ job.y < viewport.Height) ∧ job.antialiasing = false) ∧
      ((Render viewport).length : Int) = viewport.Width * viewport.Height ∧
      ((Render viewport).map renderInput.cell).Nodup := by
  have hn : (Render viewport).Nodup := (Render_cells_nodup viewport).of_map _
  refine ⟨?_, fun job hj => (Render_mem viewport job).1 hj, ?_, Render_cells_nodup viewport⟩
  · intro x y hxy
    apply List.count_eq_one_of_mem hn
    exact (Render_mem viewport _).2 ⟨hxy.1, hxy.2, rfl⟩
  · rw [Render_length]
    push_cast
    rw [Int.toNat_of_nonneg hw, Int.toNat_of_nonneg hh]

/-- C16 at a concrete input: a viewport of 2 by 3 pixels sends the job of the pixel
`(1, 2)` exactly once. -/
theorem Render_jobs_partition_witness :
    (Render (⟨⟨0, 0, 0⟩, ⟨0, 0, 0⟩, ⟨0, 0, 0⟩, ⟨0, 0, 0⟩, 2, 3⟩ : Viewport ℚ)).count ⟨1, 2, false⟩
      = 1 :=
  (Render_jobs_partition (⟨⟨0, 0, 0⟩, ⟨0, 0, 0⟩, ⟨0, 0, 0⟩, ⟨0, 0, 0⟩, 2, 3⟩ : Viewport ℚ)
    (by decide) (by decide)).1 1 2 (by decide)

/-! ### C17: the cost of a plane -/

/-- C17 fails as stated.  For the voxel `[0,1]^3`, the plane `X = 0` and the counts `(0, 1, 0)`,
the child boxes have the area ratios `2/3` and `1`, the two costs are `2 + 2/3` (on-plane
object on the left) and `3` (on the right), and `surfaceAreaHeuristic` returns `3`, the
larger one; the minimum is `8/3`. -/
theorem surfaceAreaHeuristic_not_min :
    surfaceAreaHeuristic 0 0 (⟨⟨0, 0, 0⟩, ⟨1, 1, 1⟩⟩ : BBox ℚ) 0 1 0 = some (XFloat.fin 3) ∧
      (⟨⟨0, 0, 0⟩, ⟨1, 1, 1⟩⟩ : BBox ℚ).Split 0 0 =
        some (⟨⟨0, 0, 0⟩, ⟨0, 1, 1⟩⟩, ⟨⟨0, 0, 0⟩, ⟨1, 1, 1⟩⟩) ∧
      (⟨⟨0, 0, 0⟩, ⟨0, 1, 1⟩⟩ : BBox ℚ).SurfaceArea /
        (⟨⟨0, 0, 0⟩, ⟨1, 1, 1⟩⟩ : BBox ℚ).SurfaceArea = 2 / 3 ∧
      (⟨⟨0, 0, 0⟩, ⟨1, 1, 1⟩⟩ : BBox ℚ).SurfaceArea /
        (⟨⟨0, 0, 0⟩, ⟨1, 1, 1⟩⟩ : BBox ℚ).SurfaceArea = 1 ∧
      min (sahCost (2 / 3 : ℚ) (0 + 1) 1 0) (sahCost (2 / 3 : ℚ) 0 1 (1 + 0)) = 8 / 3 := by
  decide!

theorem sahCost_ge_two (pL pR : K) (nL nR : Int) (hpL : 0 ≤ pL) (hpR : 0 ≤ pR) (hL : 0 ≤ nL)
    (hR : 0 ≤ nR) : 2 ≤ sahCost pL nL pR nR := by
  unfold sahCost
  have h1 : (0 : K) ≤ (nL : K) := by exact_mod_cast hL
  have h2 : (0 : K) ≤ (nR : K) := by exact_mod_cast hR
  have := mul_nonneg hpL h1
  have := mul_nonneg hpR h2
  linarith

/-- Go `costFunction` on finite probabilities is the cost model of the specification. -/
theorem costFunction_fin (pL pR : K) (nL nR : Int) :
    costFunction (XFloat.fin pL) nL (XFloat.fin pR) nR = XFloat.fin (sahCost pL nL pR nR) := by
  simp only [costFunction, XFloat.mul, XFloat.add, TRAVERSAL_COEF, INTERSECTION_COEF, sahCost]

/-- C17, amended.  For every voxel of non-zero `SurfaceArea`, every axis for which `Split`
does not panic, every plane coordinate and all counts `nL, nM, nR >= 0`,
`surfaceAreaHeuristic` returns the maximum of the two costs `cost(pL, nL+nM, pR, nR)` and
`cost(pL, nL, pR, nM+nR)`, where `cost(pL,nL,pR,nR) = 2 + 1*(pL*nL + pR*nR)` and `pL`, `pR`
are the ratios of the `SurfaceArea` of the two child boxes to that of the voxel. -/
theorem surfaceAreaHeuristic_max (planeCoord : K) (axis : Int) (voxel : BBox K)
    (boxes : BBox K × BBox K) (nL nM nR : Int)
    (hs : voxel.Split axis planeCoord = some boxes) (harea : voxel.SurfaceArea ≠ 0)
    (hL : 0 ≤ nL) (hM : 0 ≤ nM) (hR : 0 ≤ nR) :
    surfaceAreaHeuristic planeCoord axis voxel nL nM nR = some (XFloat.fin (max
      (sahCost (boxes.1.SurfaceArea / voxel.SurfaceArea) (nL + nM)
        (boxes.2.SurfaceArea / voxel.SurfaceArea) nR)
      (sahCost (boxes.1.SurfaceArea / voxel.SurfaceArea) nL
        (boxes.2.SurfaceArea / voxel.SurfaceArea) (nM + nR)))) := by
  have hE : (0 : K) < EPS := EPS_pos
  have hE1 : (EPS : K) < 1 := by
    unfold EPS
    rw [div_lt_one (by norm_num)]
    norm_num
  have hpos : 0 < voxel.SurfaceArea := lt_of_le_of_ne voxel.SurfaceArea_nonneg (Ne.symm harea)
  have pl0 : 0 ≤ boxes.1.SurfaceArea / voxel.SurfaceArea :=
    div_nonneg boxes.1.SurfaceArea_nonneg hpos.le
  have pr0 : 0 ≤ boxes.2.SurfaceArea / voxel.SurfaceArea :=
    div_nonneg boxes.2.SurfaceArea_nonneg hpos.le
  have hne : ∀ x : K, 2 ≤ x → Equal x 0 = false := by
    intro x hx
    rw [← Bool.not_eq_true, Equal_iff, sub_zero, abs_of_nonneg (by linarith), not_lt]
    linarith
  unfold surfaceAreaHeuristic
  rw [hs]
  dsimp only
  rw [XFloat.div_fin false _ harea, XFloat.div_fin false _ harea, costFunction_fin,
    costFunction_fin, XFloat.Equal_fin, XFloat.Equal_fin,
    hne _ (sahCost_ge_two _ _ _ _ pl0 pr0 (by omega) hR),
    hne _ (sahCost_ge_two _ _ _ _ pl0 pr0 hL (by omega))]
  simp only [Bool.or_self, Bool.false_eq_true, if_false, XFloat.max]

/-- C17, amended, at a concrete input: the voxel `[0,1]^3`, the plane `X = 0` and the counts
`(0, 1, 0)`. -/
theorem surfaceAreaHeuristic_max_witness :
    surfaceAreaHeuristic 0 0 (⟨⟨0, 0, 0⟩, ⟨1, 1, 1⟩⟩ : BBox ℚ) 0 1 0 = some (XFloat.fin (max
      (sahCost ((⟨⟨0, 0, 0⟩, ⟨0, 1, 1⟩⟩ : BBox ℚ).SurfaceArea /
          (⟨⟨0, 0, 0⟩, ⟨1, 1, 1⟩⟩ : BBox ℚ).SurfaceArea) (0 + 1)
        ((⟨⟨0, 0, 0⟩, ⟨1, 1, 1⟩⟩ : BBox ℚ).SurfaceArea /
          (⟨⟨0, 0, 0⟩, ⟨1, 1, 1⟩⟩ : BBox ℚ).SurfaceArea) 0)
      (sahCost ((⟨⟨0, 0, 0⟩, ⟨0, 1, 1⟩⟩ : BBox ℚ).SurfaceArea /
          (⟨⟨0, 0, 0⟩, ⟨1, 1, 1⟩⟩ : BBox ℚ).SurfaceArea) 0
        ((⟨⟨0, 0, 0⟩, ⟨1, 1, 1⟩⟩ : BBox ℚ).SurfaceArea /
          (⟨⟨0, 0, 0⟩, ⟨1, 1, 1⟩⟩ : BBox ℚ).SurfaceArea) (1 + 0)))) :=
  surfaceAreaHeuristic_max 0 0 (⟨⟨0, 0, 0⟩, ⟨1, 1, 1⟩⟩ : BBox ℚ)
    (⟨⟨0, 0, 0⟩, ⟨0, 1, 1⟩⟩, ⟨⟨0, 0, 0⟩, ⟨1, 1, 1⟩⟩) 0 1 0 (by decide!) (by decide!)
    (by decide) (by decide) (by decide)

/-! ### C18: the planes that `findPlane` examines -/

/-- C18, at the failing input.  For the two triangles with the boxes `[0,1] x [0,1] x [0,1]`
and `[2,4] x [0,1] x [0,1]`, in their bounding box `[0,4] x [0,1] x [0,1]`, `findPlane`
returns the plane `X = 1` with the cost `25/9`.  The plane `X = 2`, the minimum of the
second triangle on the axis 0, has one object on its left, none on it and one on its
right, and `surfaceAreaHeuristic` gives it the cost `8/3 < 25/9`: the loop
`for i := 0; i < len(objects); i++` over the four sorted events of the axis stops after
the first two and never reaches the events at `X = 2` and `X = 4`. -/
theorem findPlane_skips_candidates :
    getBoundingBox [(wedgeTriangle 0 1).toObject qsqrt, (wedgeTriangle 2 4).toObject qsqrt] =
        some ⟨⟨0, 0, 0⟩, ⟨4, 1, 1⟩⟩ ∧
      findPlane [(wedgeTriangle 0 1).toObject qsqrt, (wedgeTriangle 2 4).toObject qsqrt]
        ⟨⟨0, 0, 0⟩, ⟨4, 1, 1⟩⟩ = some ⟨1, 0, XFloat.fin (25 / 9)⟩ ∧
      (wedgeTriangle 0 1).GetBoundingBox = ⟨⟨0, 0, 0⟩, ⟨1, 1, 1⟩⟩ ∧
      (wedgeTriangle 2 4).GetBoundingBox = ⟨⟨2, 0, 0⟩, ⟨4, 1, 1⟩⟩ ∧
      (wedgeTriangle 2 4).GetBoundingBox.GetMin 0 = some 2 ∧
      surfaceAreaHeuristic 2 0 (⟨⟨0, 0, 0⟩, ⟨4, 1, 1⟩⟩ : BBox ℚ) 1 0 1 =
        some (XFloat.fin (8 / 3)) := by
  decide!

/-! ### C19: the two parts of `classify` -/

theorem Less_add_EPS (a v : K) : Less a (v + EPS) = decide (a < v) := by
  simp only [Less, add_lt_add_iff_right]

theorem Less_sub_EPS (v b : K) : Less (v - EPS) b = decide (v < b) := by
  simp only [Less, sub_add_cancel]

/-- What `classify` computes: the left part is the input filtered by `min < value`, the
right part the input filtered by `value < max`, both without tolerance (the `EPS` of
`Less` cancels the `EPS` of the argument) and both in the order of the input. -/
theorem classify_eq_filter (split : BBoxSplit K)
    (haxis : split.axis = 0 ∨ split.axis = 1 ∨ split.axis = 2) :
    ∀ objects : List (IGeometryObject K),
      classify objects split = some
        (objects.filter (fun obj =>
          (obj.GetBoundingBox.GetMin split.axis).any (fun mn => decide (mn < split.value))),
         objects.filter (fun obj =>
          (obj.GetBoundingBox.GetMax split.axis).any (fun mx => decide (split.value < mx))))
  | [] => rfl
  | obj :: rest => by
    have ih := classify_eq_filter split haxis rest
    obtain ⟨mn, hmn⟩ : ∃ mn, obj.GetBoundingBox.GetMin split.axis = some mn := by
      unfold BBox.GetMin
      rcases haxis with h | h | h <;> simp [h]
    obtain ⟨mx, hmx⟩ : ∃ mx, obj.GetBoundingBox.GetMax split.axis = some mx := by
      unfold BBox.GetMax
      rcases haxis with h | h | h <;> simp [h]
    unfold classify
    simp only [hmn, hmx, ih, Less_add_EPS, Less_sub_EPS, List.filter_cons, Option.any_some]

/-- C19, at the failing input.  The unit triangle in the plane `X = 0` has the minimum 0 and
the maximum 0 on the axis 0; for the split at `X = 0`, `classify` puts it in neither part:
both parts are empty.  The claim says that an object lying flat on the plane lands in both
parts, and that every object lands in at least one. -/
theorem classify_drops_object_on_plane :
    ((unitTriangle 0).toObject qsqrt).GetBoundingBox.GetMin 0 = some 0 ∧
      ((unitTriangle 0).toObject qsqrt).GetBoundingBox.GetMax 0 = some 0 ∧
      (classify [(unitTriangle 0).toObject qsqrt] ⟨0, 0, XFloat.fin 0⟩).map
        (fun parts => (parts.1.length, parts.2.length)) = some (0, 0) := by
  decide!

/-! ### C20: entry and exit of a ray in a box -/

/-- Go `BBox.Intersect` in terms of the slice of valid face hits. -/
theorem BBox.Intersect_of_faceCoefs (sqrt : K → K) (bbox : BBox K) (ray : Ray K) :
    bbox.Intersect sqrt ray =
      match ((bbox.faceCoefs sqrt ray).insertionSort (fun a b => a ≤ b)).getLast? with
      | none => (RayCoefIntersection.zero, RayCoefIntersection.zero)
      | some lastCoef =>
        if lastCoef < 0 then (RayCoefIntersection.zero, RayCoefIntersection.zero)
        else (⟨true, firstPositive lastCoef
          ((bbox.faceCoefs sqrt ray).insertionSort (fun a b => a ≤ b))⟩, ⟨true, lastCoef⟩) :=
  rfl

/-- On a sorted slice that holds a positive element, the loop of `BBox.Intersect` finds the
smallest positive element. -/
theorem firstPositive_of_pos (lastCoef : K) :
    ∀ l : List K, l.Sorted (fun a b => a ≤ b) → (∃ c ∈ l, 0 < c) →
      firstPositive lastCoef l ∈ l ∧ 0 < firstPositive lastCoef l ∧
        ∀ c ∈ l, 0 < c → firstPositive lastCoef l ≤ c
  | [], _, h => by
    obtain ⟨c, hc, _⟩ := h
    cases hc
  | a :: rest, hs, h => by
    unfold firstPositive
    by_cases ha : a > 0
    · rw [if_pos ha]
      refine ⟨List.mem_cons_self _ _, ha, ?_⟩
      intro c hc _
      rcases List.mem_cons.1 hc with rfl | hc
      · exact le_rfl
      · exact List.rel_of_sorted_cons hs c hc
    · rw [if_neg ha]
      have h2 : ∃ c ∈ rest, 0 < c := by
        obtain ⟨c, hc, hpos⟩ := h
        rcases List.mem_cons.1 hc with rfl | hc
        · exact absurd hpos ha
        · exact ⟨c, hc, hpos⟩
      obtain ⟨i1, i2, i3⟩ := firstPositive_of_pos lastCoef rest hs.of_cons h2
      refine ⟨List.mem_cons_of_mem _ i1, i2, ?_⟩
      intro c hc hpos
      rcases List.mem_cons.1 hc with rfl | hc
      · exact absurd hpos ha
      · exact i3 c hc hpos

theorem firstPositive_of_none (lastCoef : K) :
    ∀ l : List K, (∀ c ∈ l, ¬ 0 < c) → firstPositive lastCoef l = lastCoef
  | [], _ => rfl
  | a :: rest, h => by
    unfold firstPositive
    rw [if_neg (h a (List.mem_cons_self _ _))]
    exact firstPositive_of_none lastCoef rest (fun c hc => h c (List.mem_cons_of_mem _ hc))

/-- The last element of a sorted slice is its largest element. -/
theorem getLast_sorted (l : List K) (hs : l.Sorted (fun a b => a ≤ b)) (m : K)
    (hm : l.getLast? = some m) : m ∈ l ∧ ∀ c ∈ l, c ≤ m := by
  have hmem : m ∈ l := List.mem_of_getLast?_eq_some hm
  refine ⟨hmem, ?_⟩
  obtain ⟨ys, rfl⟩ := List.getLast?_eq_some_iff.1 hm
  intro c hc
  rcases List.mem_append.1 hc with hc | hc
  · exact (List.pairwise_append.1 hs).2.2 c hc m (List.mem_singleton_self m)
  · rw [List.mem_singleton.1 hc]

/-- C20.  For every box and ray, `BBox.Intersect` either returns two no-intersection results,
and then the list of valid face-hit parameters is empty or its largest element is
negative; or it returns `(entry, exit)`, both flagged as hits, where `exit` is the largest
valid hit parameter, `entry` is the smallest strictly positive valid hit parameter if
there is one and `exit` otherwise, and `exit >= 0` and `entry <= exit` hold. -/
theorem BBox_Intersect_entry_exit (sqrt : K → K) (bbox : BBox K) (ray : Ray K) :
    (bbox.Intersect sqrt ray = (⟨false, 0⟩, ⟨false, 0⟩) ∧
        (bbox.faceCoefs sqrt ray = [] ∨
          ∃ m ∈ bbox.faceCoefs sqrt ray, (∀ c ∈ bbox.faceCoefs sqrt ray, c ≤ m) ∧ m < 0)) ∨
      ∃ entry exit : K, bbox.Intersect sqrt ray = (⟨true, entry⟩, ⟨true, exit⟩) ∧
        exit ∈ bbox.faceCoefs sqrt ray ∧ (∀ c ∈ bbox.faceCoefs sqrt ray, c ≤ exit) ∧
        ((∃ c ∈ bbox.faceCoefs sqrt ray, 0 < c) →
          entry ∈ bbox.faceCoefs sqrt ray ∧ 0 < entry ∧
            ∀ c ∈ bbox.faceCoefs sqrt ray, 0 < c → entry ≤ c) ∧
        ((¬ ∃ c ∈ bbox.faceCoefs sqrt ray, 0 < c) → entry = exit) ∧
        0 ≤ exit ∧ entry ≤ exit := by
  rw [BBox.Intersect_of_faceCoefs]
  have hsorted := List.sorted_insertionSort (fun a b : K => a ≤ b) (bbox.faceCoefs sqrt ray)
  have hperm := List.perm_insertionSort (fun a b : K => a ≤ b) (bbox.faceCoefs sqrt ray)
  have hmem : ∀ c, c ∈ (bbox.faceCoefs sqrt ray).insertionSort (fun a b => a ≤ b) ↔
      c ∈ bbox.faceCoefs sqrt ray := fun c => hperm.mem_iff
  cases hl : ((bbox.faceCoefs sqrt ray).insertionSort (fun a b => a ≤ b)).getLast? with
  | none =>
    left
    refine ⟨rfl, Or.inl ?_⟩
    have h0 := List.getLast?_eq_none_iff.1 hl
    rw [h0] at hperm
    exact hperm.symm.eq_nil
  | some m =>
    obtain ⟨hm1, hm2⟩ := getLast_sorted _ hsorted m hl
    by_cases hneg : m < 0
    · left
      simp only [if_pos hneg]
      exact ⟨rfl, Or.inr ⟨m, (hmem m).1 hm1, fun c hc => hm2 c ((hmem c).2 hc), hneg⟩⟩
    · right
      simp only [if_neg hneg]
      refine ⟨_, m, rfl, (hmem m).1 hm1, fun c hc => hm2 c ((hmem c).2 hc), ?_, ?_,
        not_lt.1 hneg, ?_⟩
      · rintro ⟨c, hc, hpos⟩
        obtain ⟨i1, i2, i3⟩ := firstPositive_of_pos m _ hsorted ⟨c, (hmem c).2 hc, hpos⟩
        exact ⟨(hmem _).1 i1, i2, fun c hc hp => i3 c ((hmem c).2 hc) hp⟩
      · intro hnone
        exact firstPositive_of_none m _ (fun c hc hp => hnone ⟨c, (hmem c).1 hc, hp⟩)
      · by_cases hex : ∃ c ∈ bbox.faceCoefs sqrt ray, 0 < c
        · obtain ⟨c, hc, hpos⟩ := hex
          obtain ⟨i1, _, _⟩ := firstPositive_of_pos m _ hsorted ⟨c, (hmem c).2 hc, hpos⟩
          exact hm2 _ i1
        · rw [firstPositive_of_none m _ (fun c hc hp => hex ⟨c, (hmem c).1 hc, hp⟩)]

/-! ### C21: the value of `fresnel` -/

/-- Go `fresnel` returns 1 for every refractive index above 0 and every input for which
`sint`, the quantity that it tests, differs from `EPS`. -/
theorem fresnel_of_sint_ne (sqrt : K → K) (hs0 : ∀ x, 0 ≤ x → 0 ≤ sqrt x) (I N : Vector K)
    (ior : K) (hior : 0 < ior)
    (hne : (if Greater (Clamp (-1) 1 (N.Dot I)) 0 then ior else 1) /
        (if Greater (Clamp (-1) 1 (N.Dot I)) 0 then 1 else ior) *
        sqrt (max 0 (1 - Clamp (-1) 1 (N.Dot I) * Clamp (-1) 1 (N.Dot I))) ≠ EPS) :
    fresnel sqrt I N ior = 1 := by
  have hE := EPS_pos (K := K)
  have hq : 0 ≤ sqrt (max 0 (1 - Clamp (-1) 1 (N.Dot I) * Clamp (-1) 1 (N.Dot I))) :=
    hs0 _ (le_max_left _ _)
  have hr : 0 ≤ (if Greater (Clamp (-1) 1 (N.Dot I)) 0 then ior else 1) /
      (if Greater (Clamp (-1) 1 (N.Dot I)) 0 then 1 else ior) := by
    split <;> positivity
  have hsint := mul_nonneg hr hq
  unfold fresnel
  dsimp only
  rw [if_pos]
  rw [GreaterEqual_iff]
  rcases lt_or_gt_of_ne hne with h | h
  · right
    rw [sub_zero, abs_of_nonneg hsint]
    exact h
  · left
    linarith

/-- The square of `(a - b) / (a + b)` is below 1 for positive `a` and `b`. -/
theorem sq_div_lt_one {a b : K} (ha : 0 < a) (hb : 0 < b) :
    (a - b) / (a + b) * ((a - b) / (a + b)) < 1 := by
  have hab : 0 < a + b := add_pos ha hb
  rw [div_mul_div_comm, div_lt_one (mul_pos hab hab)]
  nlinarith [mul_pos ha hb]

/-- At `I = (3/5, 4/5, 0)`, `N = (1, 0, 0)`, `ior = 1.25e-9` Go `fresnel` returns a value
below 1 for every square root function that is exact at `16/25` and positive at
`1 - EPS^2`: the result does not depend on how the root of `1 - sint^2` is rounded. -/
theorem fresnel_lt_one_at_gap (sqrt : K → K)
    (h1 : sqrt (max 0 (1 - 3 / 5 * (3 / 5))) = 4 / 5)
    (h2 : 0 < sqrt (max 0 (1 - EPS * EPS))) :
    fresnel sqrt ⟨3 / 5, 4 / 5, 0⟩ ⟨1, 0, 0⟩ (1 / 800000000) < 1 := by
  have hE := EPS_pos (K := K)
  have hc : Clamp (-1) 1 (Vector.Dot (⟨1, 0, 0⟩ : Vector K) ⟨3 / 5, 4 / 5, 0⟩) = 3 / 5 := by
    simp only [Clamp, Vector.Dot]
    norm_num
  have hg : Greater (3 / 5 : K) 0 = true := by
    rw [Greater_iff]
    unfold EPS
    norm_num
  have hs : (1 / 800000000 : K) / 1 * (4 / 5) = EPS := by
    unfold EPS
    norm_num
  have hge : GreaterEqual (EPS : K) 0 = false := by
    rw [← Bool.not_eq_true, GreaterEqual_iff]
    rintro (h | h)
    · linarith
    · rw [sub_zero, abs_of_pos hE] at h
      exact lt_irrefl _ h
  unfold fresnel
  simp only [hc, hg, if_true, h1, hs, hge, Bool.false_eq_true, if_false]
  have hcos : |(3 / 5 : K)| = 3 / 5 := abs_of_pos (by norm_num)
  rw [hcos]
  have r1 := sq_div_lt_one (a := (1 : K) * (3 / 5))
    (b := 1 / 800000000 * sqrt (max 0 (1 - EPS * EPS))) (by norm_num) (by positivity)
  have r2 := sq_div_lt_one (a := 1 * sqrt (max 0 (1 - EPS * EPS)))
    (b := (1 / 800000000 : K) * (3 / 5)) (by positivity) (by norm_num)
  have e2 : ((1 / 800000000 : K) * (3 / 5) - 1 * sqrt (max 0 (1 - EPS * EPS))) /
      (1 / 800000000 * (3 / 5) + 1 * sqrt (max 0 (1 - EPS * EPS))) =
      -((1 * sqrt (max 0 (1 - EPS * EPS)) - 1 / 800000000 * (3 / 5)) /
        (1 * sqrt (max 0 (1 - EPS * EPS)) + 1 / 800000000 * (3 / 5))) := by
    rw [← neg_div, neg_sub, add_comm]
  rw [e2, neg_mul_neg]
  linarith

/-- C21, at the failing input. For the direction `I = (3/5, 4/5, 0)`, the normal
`N = (1, 0, 0)` and the refractive index `ior = 1.25e-9 > 0`, `cosi` is `3/5`, `sint` is
`ior * 4/5 = EPS` exactly, `GreaterEqual(sint, 0)` is false (neither `Greater` nor `Equal`
holds at the distance `EPS`), the `else` branch is evaluated, and `fresnel` returns a value
below 1.  The claim says that `fresnel` returns 1 and never evaluates that branch. -/
theorem fresnel_else_branch :
    Clamp (-1) 1 (Vector.Dot (⟨1, 0, 0⟩ : Vector ℚ) ⟨3 / 5, 4 / 5, 0⟩) = 3 / 5 ∧
      (1 / 800000000 : ℚ) / 1 * qsqrt (max 0 (1 - 3 / 5 * (3 / 5))) = EPS ∧
      GreaterEqual (EPS : ℚ) 0 = false ∧
      fresnel qsqrt ⟨3 / 5, 4 / 5, 0⟩ ⟨1, 0, 0⟩ (1 / 800000000) < 1 := by
  decide!

/-! ### C22: the light intensity -/

theorem lightContribution_nonneg (sqrt : K → K) (point : Vector K) (object : IGeometryObject K)
    (light : Light K) : 0 ≤ lightContribution sqrt point object light :=
  le_max_left _ _

/-- One pass of the loop of `getLightIntensity` leaves the sum as it is for an occluded
light. -/
theorem lightStep_occluded (sqrt : K → K) (scene : Scene K) (point : Vector K)
    (object : IGeometryObject K) (x : XFloat K) (light : Light K)
    (h : scene.KDTree.root.Sound) (hu : scene.unoccluded sqrt point light = false) :
    lightStep sqrt scene point object (some x) light = some x := by
  obtain ⟨r, hr⟩ := castRayKD_some sqrt scene (NewRay sqrt point light.Position) h
  unfold Scene.unoccluded at hu
  rw [hr] at hu
  dsimp only at hu
  unfold lightStep
  dsimp only
  rw [hr]
  dsimp only
  rw [if_neg]
  rw [hu]
  exact Bool.false_ne_true

/-- One pass of the loop of `getLightIntensity` adds the contribution of an unoccluded
light whose three denominators are not zero. -/
theorem lightStep_eq (sqrt : K → K) (scene : Scene K) (point : Vector K)
    (object : IGeometryObject K) (x : K) (light : Light K) (h : scene.KDTree.root.Sound)
    (hu : scene.unoccluded sqrt point light = true) (hp : light.Ref.Power ≠ 0)
    (hd : light.Ref.Distance ≠ 0) (hl : light.Position ≠ point) :
    lightStep sqrt scene point object (some (XFloat.fin x)) light =
      some (XFloat.fin (x + lightContribution sqrt point object light)) := by
  obtain ⟨r, hr⟩ := castRayKD_some sqrt scene (NewRay sqrt point light.Position) h
  have hq : light.Ref.Distance / light.Ref.Power ≠ 0 := div_ne_zero hd hp
  have hs : (light.Position.Sub point).SqrLength ≠ 0 := by
    intro h0
    obtain ⟨hx, hy, hz⟩ := (light.Position.Sub point).eq_zero_of_SqrLength h0
    apply hl
    obtain ⟨px, py, pz⟩ := point
    obtain ⟨_, _, ⟨lx, ly, lz⟩⟩ := light
    simp only [Vector.Sub] at hx hy hz
    simp only [Vector.mk.injEq]
    exact ⟨by linarith, by linarith, by linarith⟩
  unfold Scene.unoccluded at hu
  rw [hr] at hu
  dsimp only at hu
  unfold lightStep
  dsimp only
  rw [hr]
  dsimp only
  rw [if_pos hu, XFloat.div_fin false _ hp, XFloat.div_fin _ _ hq, XFloat.div_fin false _ hs]
  simp only [XFloat.mul, XFloat.max, XFloat.add]
  congr 2
  unfold lightContribution
  rw [max_comm]
  congr 1
  simp only [mul_div_assoc]

theorem lights_foldl_sum (sqrt : K → K) (scene : Scene K) (point : Vector K)
    (object : IGeometryObject K) (h : scene.KDTree.root.Sound) (lights : List (Light K))
    (hden : ∀ light ∈ lights, scene.unoccluded sqrt point light = true →
      light.Ref.Power ≠ 0 ∧ light.Ref.Distance ≠ 0 ∧ light.Position ≠ point) :
    ∀ x : K, lights.foldl (lightStep sqrt scene point object) (some (XFloat.fin x)) =
      some (XFloat.fin (x + ((lights.filter (fun light => scene.unoccluded sqrt point light)).map
        (lightContribution sqrt point object)).sum)) := by
  induction lights with
  | nil => intro x; simp
  | cons light rest ih =>
    intro x
    have ih' := ih (fun l hl => hden l (List.mem_cons_of_mem _ hl))
    rw [List.foldl_cons]
    by_cases hu : scene.unoccluded sqrt point light = true
    · obtain ⟨hp, hd, hl⟩ := hden light (List.mem_cons_self _ _) hu
      rw [lightStep_eq sqrt scene point object x light h hu hp hd hl, ih']
      simp [hu, add_assoc]
    · rw [lightStep_occluded sqrt scene point object _ light h (by simpa using hu), ih']
      simp [hu]

/-- C22 fails as stated.  In the scene of one unit triangle and one light whose `Ref` is
`{0, 0}`, at the point `(0, 1/4, 1/4)` of the triangle the light is unoccluded and its
contribution is NaN (`Ref.Distance / Ref.Power` is `0 / 0`), so `getLightIntensity` returns
NaN, which is no number of `[0.2, 1]`.  With `Ref.Power = 1`, `Ref.Distance = 0` and a
light in the plane of the triangle, at `(0, 2, 1/4)`, the quotient by
`Ref.Distance / Ref.Power = 0` is `+Inf` and its product with the cosine `0` is NaN
again. -/
theorem getLightIntensity_nan :
    zeroRefScene.unoccluded qsqrt ⟨0, 1 / 4, 1 / 4⟩ ⟨⟨0, 0⟩, 1, ⟨2, 1 / 4, 1 / 4⟩⟩ = true ∧
    zeroRefScene.getLightIntensity qsqrt ⟨0, 1 / 4, 1 / 4⟩ ((unitTriangle 0).toObject qsqrt) =
      some XFloat.nan ∧
    ({ zeroRefScene with Lights := [⟨⟨1, 0⟩, 1, ⟨0, 2, 1 / 4⟩⟩] } : Scene ℚ).getLightIntensity
      qsqrt ⟨0, 1 / 4, 1 / 4⟩ ((unitTriangle 0).toObject qsqrt) = some XFloat.nan := by
  decide!

/-- C22, amended.  For every scene whose tree can be traversed, every hit point and every
object, `getLightIntensity` returns a number between 0.2 and 1 or NaN.  When no unoccluded
light has a zero denominator (`Ref.Power`, `Ref.Distance`, the distance to the light), the
result is the number `min(S + 0.2, 1)`, where `S` is the sum over the unoccluded lights of
the contributions `max(0, (normal . unit direction to light) * light.Power /
(Ref.Distance / Ref.Power) / squared distance to light)`, each of them non-negative.  The
result is NaN only if an unoccluded light has a zero denominator, and it is 0.2 when the
scene has no lights or every light is occluded. -/
theorem getLightIntensity_sum (sqrt : K → K) (scene : Scene K) (point : Vector K)
    (object : IGeometryObject K) (hs : scene.KDTree.root.Sound) :
    ∃ r : XFloat K, scene.getLightIntensity sqrt point object = some r ∧
      (r = XFloat.nan ∨ ∃ g : K, r = XFloat.fin g ∧ 0.2 ≤ g ∧ g ≤ 1) ∧
      ((∀ light ∈ scene.Lights, scene.unoccluded sqrt point light = true →
          light.Ref.Power ≠ 0 ∧ light.Ref.Distance ≠ 0 ∧ light.Position ≠ point) →
        r = XFloat.fin (min (((scene.Lights.filter
          (fun light => scene.unoccluded sqrt point light)).map
          (lightContribution sqrt point object)).sum + 0.2) 1)) ∧
      (r = XFloat.nan → ∃ light ∈ scene.Lights, scene.unoccluded sqrt point light = true ∧
        (light.Ref.Power = 0 ∨ light.Ref.Distance = 0 ∨ light.Position = point)) ∧
      (∀ light ∈ scene.Lights, 0 ≤ lightContribution sqrt point object light) ∧
      (scene.Lights = [] → r = XFloat.fin 0.2) ∧
      ((∀ light ∈ scene.Lights, scene.unoccluded sqrt point light = false) →
        r = XFloat.fin 0.2) := by
  obtain ⟨r, hr⟩ := getLightIntensity_some sqrt scene point object hs
  have hsum : (∀ light ∈ scene.Lights, scene.unoccluded sqrt point light = true →
      light.Ref.Power ≠ 0 ∧ light.Ref.Distance ≠ 0 ∧ light.Position ≠ point) →
      r = XFloat.fin (min (((scene.Lights.filter
        (fun light => scene.unoccluded sqrt point light)).map
        (lightContribution sqrt point object)).sum + 0.2) 1) := by
    intro hden
    have hf := lights_foldl_sum sqrt scene point object hs scene.Lights hden 0
    unfold Scene.getLightIntensity at hr
    rw [hf, zero_add] at hr
    injection hr with hr
    rw [← hr]
    rfl
  have hnone : (∀ light ∈ scene.Lights, scene.unoccluded sqrt point light = false) →
      r = XFloat.fin 0.2 := by
    intro hall
    rw [hsum (fun light hl hu => by rw [hall light hl] at hu; cases hu)]
    rw [List.filter_eq_nil_iff.2 (fun light hl => by rw [hall light hl]; simp)]
    simp only [List.map_nil, List.sum_nil, zero_add]
    rw [min_eq_left]
    norm_num
  refine ⟨r, hr, getLightIntensity_range sqrt scene point object r hr, hsum, ?_,
    fun light _ => lightContribution_nonneg sqrt point object light, ?_, hnone⟩
  · intro hnan
    by_contra hno
    have hden : ∀ light ∈ scene.Lights, scene.unoccluded sqrt point light = true →
        light.Ref.Power ≠ 0 ∧ light.Ref.Distance ≠ 0 ∧ light.Position ≠ point := by
      intro light hl hu
      refine ⟨fun h => hno ⟨light, hl, hu, Or.inl h⟩, fun h => hno ⟨light, hl, hu, Or.inr (Or.inl h)⟩,
        fun h => hno ⟨light, hl, hu, Or.inr (Or.inr h)⟩⟩
    rw [hsum hden] at hnan
    cases hnan
  · intro hnil
    apply hnone
    rw [hnil]
    intro light hl
    cases hl

/-- C22, amended, at a concrete input: the scene of one unit triangle and one light of
`Ref = {1, 1}` at `(2, 1/4, 1/4)`, and the point `(0, 1/4, 1/4)` of the triangle; the light
is unoccluded, no denominator is zero, its contribution is `1/4` and the result is the
number `0.45`. -/
theorem getLightIntensity_sum_witness :
    leafScene.unoccluded qsqrt ⟨0, 1 / 4, 1 / 4⟩ ⟨⟨1, 1⟩, 1, ⟨2, 1 / 4, 1 / 4⟩⟩ = true ∧
    lightContribution qsqrt ⟨0, 1 / 4, 1 / 4⟩ ((unitTriangle 0).toObject qsqrt)
      ⟨⟨1, 1⟩, 1, ⟨2, 1 / 4, 1 / 4⟩⟩ = 1 / 4 ∧
    leafScene.getLightIntensity qsqrt ⟨0, 1 / 4, 1 / 4⟩ ((unitTriangle 0).toObject qsqrt) =
      some (XFloat.fin (9 / 20)) := by
  obtain ⟨r, h1, _, h3, _⟩ := getLightIntensity_sum qsqrt leafScene ⟨0, 1 / 4, 1 / 4⟩
    ((unitTriangle 0).toObject qsqrt) leafScene_Sound
  have hden : ∀ light ∈ leafScene.Lights,
      leafScene.unoccluded qsqrt ⟨0, 1 / 4, 1 / 4⟩ light = true →
      light.Ref.Power ≠ 0 ∧ light.Ref.Distance ≠ 0 ∧ light.Position ≠ ⟨0, 1 / 4, 1 / 4⟩ := by
    intro light hl _
    have he : light = ⟨⟨1, 1⟩, 1, ⟨2, 1 / 4, 1 / 4⟩⟩ := by simpa [leafScene] using hl
    rw [he]
    decide!
  have hv : min (((leafScene.Lights.filter
      (fun light => leafScene.unoccluded qsqrt ⟨0, 1 / 4, 1 / 4⟩ light)).map
      (lightContribution qsqrt ⟨0, 1 / 4, 1 / 4⟩ ((unitTriangle 0).toObject qsqrt))).sum + 0.2) 1
      = (9 / 20 : ℚ) := by decide!
  rw [h1, h3 hden, hv]
  exact ⟨by decide!, by decide!, rfl⟩

/-! ### C23: the reflected ray -/

/-- Go `GetReflectRay` for every input: the origin is the point, and the stored direction
is the point plus the mirror image `D - 2 (D . N) N` of the incoming direction. -/
theorem GetReflectRay_eq (ray : Ray K) (point normal : Vector K) :
    ray.GetReflectRay point normal =
      ⟨point, point.Add (ray.Direction.Sub (normal.Mult (2 * ray.Direction.Dot normal)))⟩ := by
  simp only [Ray.GetReflectRay, Vector.Mult, Vector.Sub, Vector.Add, Vector.Dot]
  congr 2 <;> ring

/-- C23, at the failing input.  For the ray from `(1, 0, 5)` of unit direction `D = (0, 0, -1)`, the hit point
`P = (1, 0, 0)` and the unit normal `N = (0, 0, 1)`, the mirror image of `D` about `N` is
`(0, 0, 1)`, and `GetReflectRay` returns the origin `P` with the direction `(1, 0, 1)`,
which is `P` plus the mirror image and has the squared length 2. -/
theorem GetReflectRay_not_mirror :
    (Ray.mk (⟨1, 0, 5⟩ : Vector ℚ) ⟨0, 0, -1⟩).GetReflectRay ⟨1, 0, 0⟩ ⟨0, 0, 1⟩ =
        ⟨⟨1, 0, 0⟩, ⟨1, 0, 1⟩⟩ ∧
      Vector.Sub (⟨0, 0, -1⟩ : Vector ℚ)
        (Vector.Mult ⟨0, 0, 1⟩ (2 * Vector.Dot (⟨0, 0, -1⟩ : Vector ℚ) ⟨0, 0, 1⟩)) = ⟨0, 0, 1⟩ ∧
      (⟨1, 0, 1⟩ : Vector ℚ).SqrLength = 2 := by
  decide!

/-! ### C24: the node invariant of the build -/

theorem sweep_axis (dim : Int) (boundingBox : BBox K) (nObjects : Nat)
    (events : List (IntersectionEvent K)) :
    ∀ (passes i : Nat) (leftSize rightSize : Int) (st st' : SweepState K),
      sweep dim boundingBox nObjects events passes i leftSize rightSize st = some st' →
      st'.split.axis = st.split.axis ∨ st'.split.axis = dim := by
  intro passes
  induction passes with
  | zero =>
    intro i l r st st' h
    simp only [sweep, Option.some.injEq] at h
    left
    rw [h]
  | succ passes ih =>
    intro i l r st st' h
    unfold sweep at h
    split at h
    · split at h
      · simp at h
      · dsimp only at h
        split at h
        · simp at h
        · rcases ih _ _ _ _ _ h with h1 | h1
          · split at h1
            · right
              exact h1
            · left
              exact h1
          · right
            exact h1
    · simp only [Option.some.injEq] at h
      left
      rw [h]

theorem findPlaneDim_axis (objects : List (IGeometryObject K)) (boundingBox : BBox K)
    (dim : Int) (st st' : SweepState K)
    (h : findPlaneDim objects boundingBox dim st = some st') :
    st'.split.axis = st.split.axis ∨ st'.split.axis = dim := by
  unfold findPlaneDim at h
  split at h
  · simp at h
  · exact sweep_axis _ _ _ _ _ _ _ _ _ _ h

/-- The axis of the plane that `findPlane` returns is 0, 1 or 2. -/
theorem findPlane_axis (objects : List (IGeometryObject K)) (boundingBox : BBox K)
    (split : BBoxSplit K) (h : findPlane objects boundingBox = some split) :
    split.axis = 0 ∨ split.axis = 1 ∨ split.axis = 2 := by
  unfold findPlane at h
  split at h
  · simp at h
  · rename_i st0 h0
    split at h
    · simp at h
    · rename_i st1 h1
      split at h
      · simp at h
      · rename_i st2 h2
        simp only [Option.some.injEq] at h
        subst h
        have a0 := findPlaneDim_axis _ _ _ _ _ h0
        have a1 := findPlaneDim_axis _ _ _ _ _ h1
        have a2 := findPlaneDim_axis _ _ _ _ _ h2
        simp only at a0
        omega

/-- C24.  Every node of every tree that the recursive build returns satisfies the node
invariant: it holds the box it was built with and the number of the objects it was built
from, and it is either a leaf (no children, exactly the object list it was built from) or
an internal node (two children, an empty object list, a split axis among 0, 1, 2, and
children built with the two boxes of its own box's `Split(axis, value)` from the two parts
of `classify`). -/
theorem recBuild_BuiltFrom :
    ∀ (depthBound : Nat) (objects : List (IGeometryObject K)) (bbox : BBox K)
      (node : KDTreeNode K), recBuild depthBound objects bbox = some node →
      node.BuiltFrom objects bbox := by
  intro depthBound
  induction depthBound with
  | zero =>
    intro objects bbox node h
    simp [recBuild] at h
  | succ d ih =>
    intro objects bbox node h
    unfold recBuild at h
    split at h
    · simp at h
    · rename_i split hf
      split at h
      · simp only [Option.some.injEq] at h
        subst h
        exact ⟨rfl, rfl, Or.inl ⟨rfl, rfl, rfl⟩⟩
      · split at h
        · rename_i boxes parts hs hc
          split at h
          · rename_i left right hl hr
            simp only [Option.some.injEq] at h
            subst h
            exact ⟨rfl, rfl, Or.inr ⟨rfl, findPlane_axis objects bbox split hf, boxes, parts,
              split.cost, hs, hc, ih _ _ _ hl, ih _ _ _ hr⟩⟩
          · simp at h
        · simp at h
/-- C24 at a concrete input: the build of the three unit triangles in the planes
`X = -10, 0, 10` in their bounding box. -/
theorem recBuild_BuiltFrom_witness :
    ∃ node : KDTreeNode ℚ,
      recBuild 2 [(unitTriangle (-10)).toObject qsqrt, (unitTriangle 0).toObject qsqrt,
        (unitTriangle 10).toObject qsqrt] ⟨⟨-10, 0, 0⟩, ⟨10, 1, 1⟩⟩ = some node ∧
      node.BuiltFrom [(unitTriangle (-10)).toObject qsqrt, (unitTriangle 0).toObject qsqrt,
        (unitTriangle 10).toObject qsqrt] ⟨⟨-10, 0, 0⟩, ⟨10, 1, 1⟩⟩ := by
  cases hb : recBuild 2 [(unitTriangle (-10)).toObject qsqrt, (unitTriangle 0).toObject qsqrt,
      (unitTriangle 10).toObject qsqrt] ⟨⟨-10, 0, 0⟩, ⟨10, 1, 1⟩⟩ with
  | none =>
    have h : (recBuild 2 [(unitTriangle (-10)).toObject qsqrt,
        (unitTriangle 0).toObject qsqrt, (unitTriangle 10).toObject qsqrt]
        ⟨⟨-10, 0, 0⟩, ⟨10, 1, 1⟩⟩).isSome = true := by
      decide!
    rw [hb] at h
    simp at h
  | some node => exact ⟨node, rfl, recBuild_BuiltFrom 2 _ _ node hb⟩

/-! ### C25: the tally of `BuildTree` -/

theorem sum_map_set {α : Type} (f : α → Int) :
    ∀ (l : List α) (i : Nat) (a b : α), l.get? i = some a →
      ((l.set i b).map f).sum = (l.map f).sum - f a + f b
  | [], i, a, b, h => by simp at h
  | x :: rest, 0, a, b, h => by
    simp only [List.get?_cons_zero, Option.some.injEq] at h
    subst h
    simp only [List.set_cons_zero, List.map_cons, List.sum_cons]
    ring
  | x :: rest, i + 1, a, b, h => by
    simp only [List.get?_cons_succ] at h
    simp only [List.set_cons_succ, List.map_cons, List.sum_cons,
      sum_map_set f rest i a b h]
    ring

theorem BuildPhase.pending_nonneg {F : Type} (p : BuildPhase F) : 0 ≤ p.pending := by
  cases p <;> simp [BuildPhase.pending]

theorem BuildPhase.pending_pos {F : Type} (p : BuildPhase F) (h : p ≠ BuildPhase.finished) :
    0 < p.pending := by
  cases p <;> simp [BuildPhase.pending] at h ⊢

theorem le_sum_pending {F : Type} :
    ∀ (tasks : List (BuildTask F)) (task : BuildTask F), task ∈ tasks →
      task.phase.pending ≤ (tasks.map (fun t => t.phase.pending)).sum ∧
      0 ≤ (tasks.map (fun t => t.phase.pending)).sum
  | [], _, h => by cases h
  | x :: rest, task, h => by
    have hx := x.phase.pending_nonneg
    have hr : 0 ≤ (rest.map (fun t => t.phase.pending)).sum := by
      cases rest with
      | nil => simp
      | cons y ys => exact (le_sum_pending (y :: ys) y (List.mem_cons_self _ _)).2
    simp only [List.map_cons, List.sum_cons]
    rcases List.mem_cons.1 h with rfl | h
    · constructor <;> linarith
    · have := (le_sum_pending rest task h).1
      constructor <;> linarith

theorem pending_set {F : Type} (s : BuildState F) (i : Nat) (task : BuildTask F)
    (ht : s.tasks.get? i = some task) (phase : BuildPhase F) (extra : List (BuildTask F))
    (sum : Int) :
    BuildState.pending ⟨sum, s.tasks.set i ⟨task.input, phase⟩ ++ extra⟩ =
      s.pending - task.phase.pending + phase.pending +
        (extra.map (fun t => t.phase.pending)).sum := by
  unfold BuildState.pending
  rw [List.map_append, List.sum_append,
    sum_map_set (fun t : BuildTask F => t.phase.pending) _ _ _ _ ht]

/-- Every step keeps the tally equal to the number of pending tasks. -/
theorem step_pending (s next : BuildState K) (i : Nat) (h : s.step i = some next)
    (hs : s.sum = s.pending) : next.sum = next.pending := by
  have e1 : (BuildPhase.started : BuildPhase K).pending = 1 := rfl
  have e2 : ∀ l r, (BuildPhase.announced l r : BuildPhase K).pending = 3 := fun _ _ => rfl
  have e3 : ∀ r, (BuildPhase.leftStarted r : BuildPhase K).pending = 2 := fun _ => rfl
  have e4 : (BuildPhase.bothStarted : BuildPhase K).pending = 1 := rfl
  have e5 : (BuildPhase.finished : BuildPhase K).pending = 0 := rfl
  unfold BuildState.step at h
  split at h
  · simp at h
  · rename_i task ht
    split at h
    · rename_i hp
      split at h
      · simp at h
      · split at h
        · simp at h
        · split at h
          · simp only [Option.some.injEq] at h
            subst h
            have := pending_set s i task ht BuildPhase.finished [] (s.sum + -1)
            rw [List.append_nil] at this
            rw [this, hp, e1, e5]
            simp only [List.map_nil, List.sum_nil]
            linarith
          · split at h
            · rename_i boxes parts _ _
              simp only [Option.some.injEq] at h
              subst h
              have := pending_set s i task ht
                (BuildPhase.announced ⟨parts.1, boxes.1⟩ ⟨parts.2, boxes.2⟩) [] (s.sum + 2)
              rw [List.append_nil] at this
              rw [this, hp, e1, e2]
              simp only [List.map_nil, List.sum_nil]
              linarith
            · simp at h
    · rename_i left right hp
      simp only [Option.some.injEq] at h
      subst h
      rw [pending_set s i task ht, hp, e2, e3]
      simp only [List.map_cons, List.map_nil, List.sum_cons, List.sum_nil, e1]
      linarith
    · rename_i right hp
      simp only [Option.some.injEq] at h
      subst h
      rw [pending_set s i task ht, hp, e3, e4]
      simp only [List.map_cons, List.map_nil, List.sum_cons, List.sum_nil, e1]
      linarith
    · rename_i hp
      split at h
      · simp at h
      · simp only [Option.some.injEq] at h
        subst h
        have := pending_set s i task ht BuildPhase.finished [] (s.sum + -1)
        rw [List.append_nil] at this
        rw [this, hp, e4, e5]
        simp only [List.map_nil, List.sum_nil]
        linarith
    · simp at h

theorem run_pending :
    ∀ (schedule : List Nat) (s final : BuildState K), s.run schedule = some final →
      s.sum = s.pending → final.sum = final.pending
  | [], s, final, h, hs => by
    simp only [BuildState.run, Option.some.injEq] at h
    rw [← h]
    exact hs
  | i :: rest, s, final, h, hs => by
    unfold BuildState.run at h
    split at h
    · simp at h
    · rename_i next hn
      exact run_pending rest next final h (step_pending s next i hn hs)

/-- C25.  In every state that a run of the build reaches from the state in which `BuildTree`
enters its loop, the tally equals the number of build tasks announced whose completion
signal has not been received; the tally is above 0 while a task is unfinished; it is 0
exactly when every task has finished, and then no task has a further step. -/
theorem BuildTree_tally (objects : List (IGeometryObject K)) (bbox : BBox K)
    (schedule : List Nat) (s : BuildState K)
    (h : (BuildState.initial objects bbox).run schedule = some s) :
    s.sum = s.pending ∧
      (∀ task ∈ s.tasks, task.phase ≠ BuildPhase.finished → 0 < s.sum) ∧
      (s.sum = 0 ↔ ∀ task ∈ s.tasks, task.phase = BuildPhase.finished) ∧
      (s.sum = 0 → ∀ i, s.step i = none) := by
  have hp : s.sum = s.pending :=
    run_pending schedule _ s h (by simp [BuildState.initial, BuildState.pending, BuildPhase.pending])
  have hpos : ∀ task ∈ s.tasks, task.phase ≠ BuildPhase.finished → 0 < s.sum := by
    intro task ht hne
    have h1 := (le_sum_pending s.tasks task ht).1
    have h2 := task.phase.pending_pos hne
    rw [hp]
    unfold BuildState.pending
    linarith
  have hfin : s.sum = 0 → ∀ task ∈ s.tasks, task.phase = BuildPhase.finished := by
    intro h0 task ht
    by_contra hne
    have := hpos task ht hne
    omega
  refine ⟨hp, hpos, ⟨hfin, ?_⟩, ?_⟩
  · intro hall
    rw [hp]
    unfold BuildState.pending
    have : s.tasks.map (fun task => task.phase.pending) = s.tasks.map (fun _ => (0 : Int)) := by
      apply List.map_congr_left
      intro task ht
      rw [hall task ht]
      rfl
    rw [this]
    simp
  · intro h0 i
    unfold BuildState.step
    split
    · rfl
    · rename_i task ht
      have := hfin h0 task (List.get?_mem ht)
      rw [this]
/-- C25 at a concrete input: the build of the three unit triangles in the planes
`X = -10, 0, 10`, where the root announces and starts its two children, the two children
(leaves) signal their completion, and the root signals its own. -/
theorem BuildTree_tally_witness :
    ∃ s : BuildState ℚ,
      (BuildState.initial [(unitTriangle (-10)).toObject qsqrt,
        (unitTriangle 0).toObject qsqrt, (unitTriangle 10).toObject qsqrt]
        ⟨⟨-10, 0, 0⟩, ⟨10, 1, 1⟩⟩).run [0, 0, 0, 1, 2, 0] = some s ∧
      s.sum = 0 ∧ s.tasks.length = 3 ∧ ∀ task ∈ s.tasks, task.phase = BuildPhase.finished := by
  cases hr : (BuildState.initial [(unitTriangle (-10)).toObject qsqrt,
      (unitTriangle 0).toObject qsqrt, (unitTriangle 10).toObject qsqrt]
      ⟨⟨-10, 0, 0⟩, ⟨10, 1, 1⟩⟩).run [0, 0, 0, 1, 2, 0] with
  | none =>
    have h : ((BuildState.initial [(unitTriangle (-10)).toObject qsqrt,
        (unitTriangle 0).toObject qsqrt, (unitTriangle 10).toObject qsqrt]
        ⟨⟨-10, 0, 0⟩, ⟨10, 1, 1⟩⟩).run [0, 0, 0, 1, 2, 0]).isSome = true := by
      decide!
    rw [hr] at h
    simp at h
  | some s =>
    have h2 : ((BuildState.initial [(unitTriangle (-10)).toObject qsqrt,
        (unitTriangle 0).toObject qsqrt, (unitTriangle 10).toObject qsqrt]
        ⟨⟨-10, 0, 0⟩, ⟨10, 1, 1⟩⟩).run [0, 0, 0, 1, 2, 0]).map
        (fun s => (s.sum, s.tasks.length)) = some (0, 3) := by
      decide!
    rw [hr] at h2
    simp only [Option.map_some', Option.some.injEq, Prod.mk.injEq] at h2
    have ht := BuildTree_tally _ _ _ s hr
    exact ⟨s, rfl, h2.1, h2.2, ht.2.2.1.1 h2.1⟩

/-! ### C26: the build of one or two objects -/

/-- C26, at the failing input.  For the single triangle whose three corners are the point
`(1, 1, 1)`, the bounding box has the `SurfaceArea` 0, every cost of the sweep is a
quotient by 0 and none is `Less` than `MaxFloat64`, and `findPlane` returns its zero value,
of cost 0.  The cost 0 is not `GreaterEqual` to the object count 1, so `recBuild` splits at
the plane `X = 0`: the build needs the depth 2, and its root is not a leaf but an internal
node of height 2, with the triangle in a child. -/
theorem BuildTree_splits_point_object :
    getBoundingBox [pointTriangle.toObject qsqrt] = some ⟨⟨1, 1, 1⟩, ⟨1, 1, 1⟩⟩ ∧
      (⟨⟨1, 1, 1⟩, ⟨1, 1, 1⟩⟩ : BBox ℚ).SurfaceArea = 0 ∧
      findPlane [pointTriangle.toObject qsqrt] ⟨⟨1, 1, 1⟩, ⟨1, 1, 1⟩⟩ =
        some ⟨0, 0, XFloat.fin 0⟩ ∧
      (BuildTree 1 [pointTriangle.toObject qsqrt]).isSome = false ∧
      (BuildTree 2 [pointTriangle.toObject qsqrt]).map (fun tree =>
        (tree.root.isLeaf, tree.root.height, tree.root.leafObjects.length)) =
        some (false, 2, 1) := by
  decide!

/-! ### C27: the hits that `CastRay` reports -/

/-- C27.  For every tree that the build returns from an object list and every ray, `CastRay`
returns an answer without reading through a missing child, and if the answer is a hit then
the reported object is one of the input objects, that object's `Intersect` on the same ray
reports a hit with exactly the reported parameter `t`, `t` is above `EPS`, and the reported
point is `ray.Begin + ray.Direction * t`. -/
theorem CastRay_hit_sound (sqrt : K → K) (depthBound : Nat)
    (objects : List (IGeometryObject K)) (tree : KDTree K) (ray : Ray K)
    (hb : BuildTree depthBound objects = some tree) :
    ∃ r : Intersection K, tree.CastRay sqrt ray = some r ∧
      (r.Coefficient.HasIntersection = true →
        ∃ obj ∈ objects, r.Object = some obj ∧
          obj.Intersect ray = ⟨true, r.Coefficient.IntersectionCoef⟩ ∧
          EPS < r.Coefficient.IntersectionCoef ∧
          r.Point = ray.Begin.Add (ray.Direction.Mult r.Coefficient.IntersectionCoef)) := by
  obtain ⟨hsound, hsub⟩ := BuildTree_Sound_subset depthBound objects tree hb
  obtain ⟨r, hr⟩ := CastRay_some sqrt tree ray hsound
  refine ⟨r, hr, ?_⟩
  intro hhit
  rcases CastRay_IsAnswer sqrt tree ray r hr with h0 | ⟨obj, ho, ⟨t1, t2, _⟩, rfl⟩
  · rw [h0] at hhit
    simp [Intersection.zero, RayCoefIntersection.zero] at hhit
  · refine ⟨obj, hsub obj (visited_subset sqrt ray tree.root obj ho), rfl, ?_, ?_, rfl⟩
    · simp only [hitAt]
      cases hi : obj.Intersect ray with
      | mk has coef =>
        rw [hi] at t1
        simp only at t1
        rw [t1]
    · simp only [hitAt]
      have := (Greater_iff _ _).1 t2
      linarith

/-- C27 at a concrete input: the three unit triangles in the planes `X = -10, 0, 10` and the
ray from `(-20, 1/4, 1/4)` along `(1, 0, 0)`, which hits. -/
theorem CastRay_hit_sound_witness :
    ∃ (tree : KDTree ℚ) (r : Intersection ℚ),
      BuildTree 2 [(unitTriangle (-10)).toObject qsqrt, (unitTriangle 0).toObject qsqrt,
        (unitTriangle 10).toObject qsqrt] = some tree ∧
      tree.CastRay qsqrt ⟨⟨-20, 1 / 4, 1 / 4⟩, ⟨1, 0, 0⟩⟩ = some r ∧
      r.Coefficient.HasIntersection = true ∧
      EPS < r.Coefficient.IntersectionCoef := by
  cases hb : BuildTree 2 [(unitTriangle (-10)).toObject qsqrt, (unitTriangle 0).toObject qsqrt,
      (unitTriangle 10).toObject qsqrt] with
  | none =>
    have h : (BuildTree 2 [(unitTriangle (-10)).toObject qsqrt,
        (unitTriangle 0).toObject qsqrt, (unitTriangle 10).toObject qsqrt]).isSome = true := by
      decide!
    rw [hb] at h
    simp at h
  | some tree =>
    obtain ⟨r, hr, hhit⟩ := CastRay_hit_sound qsqrt 2 _ tree
      ⟨⟨-20, 1 / 4, 1 / 4⟩, ⟨1, 0, 0⟩⟩ hb
    have h2 : ((BuildTree 2 [(unitTriangle (-10)).toObject qsqrt,
        (unitTriangle 0).toObject qsqrt, (unitTriangle 10).toObject qsqrt]).bind (fun tree =>
        tree.CastRay qsqrt ⟨⟨-20, 1 / 4, 1 / 4⟩, ⟨1, 0, 0⟩⟩)).map
        (fun r => r.Coefficient.HasIntersection) = some true := by
      decide!
    rw [hb] at h2
    simp only [Option.some_bind, hr, Option.map_some', Option.some.injEq] at h2
    obtain ⟨obj, _, _, _, hpos, _⟩ := hhit h2
    exact ⟨tree, r, rfl, hr, h2, hpos⟩
end Theorems

end RayTracing
